import Mathlib

/-!
# Verification development for the liblsdj core

A shallow embedding, in Lean 4, of the C sources of the liblsdj save/song
codec that this repository ships:

* `src/liblsdj/compression.c` — the block-packed stream codec
  (`lsdj_decompress_step`, `lsdj_decompress_block`, `lsdj_decompress`,
  `lsdj_compress`);
* `src/liblsdj/song.c` — the 32 KiB song image reader/writer
  (`lsdj_read_song`, `lsdj_write_song`, the four bank serializers);
* `src/sav.c` — the save-container reader (`lsdj_read_sav`,
  `read_compressed_blocks`);
* the table-accessor translation unit (`lsdj_table_set_command1`,
  `lsdj_table_get_command1` and friends).

Bytes are modelled as `Nat` (the C sources use `unsigned char`; where a claim
depends on byte-valuedness the theorem carries the `< 256` hypothesis
explicitly).  In-memory streams are modelled as total functions `Nat → Nat`
(the repository's memory vio (`lsdj_mread` / `lsdj_mseek`) performs unchecked
`memcpy` and never reports failure) or as finite `List Nat` buffers where
reads past the end must fail.  Stateful C code becomes explicit state
passing; fallible code returns `Option` or `Except`.
-/

namespace LibLsdj

/-! ## Table accessors (table translation unit)

The "new API" song representation is a raw byte buffer
(`lsdj_song_t` with a `bytes` member of `0x8000` bytes, see
`song_buffer.h`): modelled as a total function `Nat → Nat`.
-/

/-- `LSDJ_TABLE_LENGTH`: the number of steps in a table (16). -/
def LSDJ_TABLE_LENGTH : Nat := 16

/-- `COMMAND1_OFFSET` from the table translation unit. -/
def COMMAND1_OFFSET : Nat := 0x3680

/-- `COMMAND2_OFFSET` from the table translation unit. -/
def COMMAND2_OFFSET : Nat := 0x3a80

/-- Modelled from the spec: the format-version byte of a raw song buffer
lives at offset `0x7FFF` (`lsdj_song_get_format_version` is declared in a
header that is not part of `src/`; the spec fixes the version byte at the
final offset `0x7FFF` of the 32 KiB image). -/
def lsdj_song_get_format_version (bytes : Nat → Nat) : Nat :=
  bytes 0x7FFF

/-- Modelled from the spec: the ordinal of the `B` command in the
`lsdj_command` enumeration (`command.h` is not part of `src/`).  The spec
says: format versions `≥ 8` store command `B` as byte `1`, commands with
ordinal `> 1` as ordinal + 1, and ordinals `0` and `1` verbatim — an
encoding that is only injective when `B`'s own ordinal is `1`, so that is
the value used here.  None of the theorems below depend on this choice. -/
def LSDJ_COMMAND_B : Nat := 1

/-- Pointwise update of a byte buffer, modelling `song->bytes[i] = v`. -/
def writeByte (bytes : Nat → Nat) (i v : Nat) : Nat → Nat :=
  fun j => if j = i then v else bytes j

/-- `lsdj_table_set_command1` from the table translation unit.  Returns the
C function's `bool` result together with the updated byte buffer.  For
format versions `≥ 8` the command is stored, re-encoded, at
`COMMAND1_OFFSET + table * LSDJ_TABLE_LENGTH + step`; for older versions
command `B` is rejected and the ordinal is stored verbatim. -/
def lsdj_table_set_command1 (bytes : Nat → Nat) (table step command : Nat) :
    Bool × (Nat → Nat) :=
  if 8 ≤ lsdj_song_get_format_version bytes then
    let byte : Nat :=
      if command = LSDJ_COMMAND_B then 1
      else if 1 < command then command + 1
      else command
    (true, writeByte bytes (COMMAND1_OFFSET + (table * LSDJ_TABLE_LENGTH + step)) byte)
  else
    if command = LSDJ_COMMAND_B then (false, bytes)
    else (true, writeByte bytes (COMMAND1_OFFSET + (table * LSDJ_TABLE_LENGTH + step)) command)

/-- `lsdj_table_get_command1` from the table translation unit.  Note that in
the source the format-version `≥ 8` branch reads the byte at
`COMMAND2_OFFSET + index`, not `COMMAND1_OFFSET + index`. -/
def lsdj_table_get_command1 (bytes : Nat → Nat) (table step : Nat) : Nat :=
  if 8 ≤ lsdj_song_get_format_version bytes then
    let byte := bytes (COMMAND2_OFFSET + (table * LSDJ_TABLE_LENGTH + step))
    if 1 < byte then byte - 1
    else if byte = 1 then LSDJ_COMMAND_B
    else byte
  else
    bytes (COMMAND1_OFFSET + (table * LSDJ_TABLE_LENGTH + step))

/-- A concrete version-8 song buffer that is zero everywhere except the
format-version byte. -/
def songBytes8 : Nat → Nat :=
  fun i => if i = 0x7FFF then 8 else 0

/-! ## Stream codec: decompression (`compression.c`)

The reader is a finite in-memory buffer `input : List Nat` whose first byte
sits at absolute stream position `base` (all seeks in the source are
absolute positions; `readMem` fails outside the buffer, modelling
`lsdj_vio_read_byte` returning `false`).  The writer only ever appends, so
it is modelled by returning the list of written bytes. -/

/-- `RUN_LENGTH_ENCODING_BYTE` (0xC0). -/
def RUN_LENGTH_ENCODING_BYTE : Nat := 0xC0

/-- `SPECIAL_ACTION_BYTE` (0xE0). -/
def SPECIAL_ACTION_BYTE : Nat := 0xE0

/-- `LSDJ_DEFAULT_WAVE_BYTE` (0xF0). -/
def LSDJ_DEFAULT_WAVE_BYTE : Nat := 0xF0

/-- `LSDJ_DEFAULT_INSTRUMENT_BYTE` (0xF1). -/
def LSDJ_DEFAULT_INSTRUMENT_BYTE : Nat := 0xF1

/-- `LSDJ_END_OF_FILE_BLOCK_INDEX` (0xFF). -/
def LSDJ_END_OF_FILE_BLOCK_INDEX : Nat := 0xFF

/-- `LSDJ_BLOCK_SIZE` (512). -/
def LSDJ_BLOCK_SIZE : Nat := 512

/-- `LSDJ_BLOCK_COUNT` (191). -/
def LSDJ_BLOCK_COUNT : Nat := 191

/-- `LSDJ_SONG_BYTE_COUNT` (0x8000). -/
def LSDJ_SONG_BYTE_COUNT : Nat := 0x8000

/-- The `LSDJ_DEFAULT_WAVE` constant array from `compression.c`. -/
def LSDJ_DEFAULT_WAVE : List Nat :=
  [0x8E, 0xCD, 0xCC, 0xBB, 0xAA, 0xA9, 0x99, 0x88,
   0x87, 0x76, 0x66, 0x55, 0x54, 0x43, 0x32, 0x31]

/-- The `LSDJ_DEFAULT_INSTRUMENT` constant array from `compression.c`. -/
def LSDJ_DEFAULT_INSTRUMENT : List Nat :=
  [0xA8, 0x00, 0x00, 0xFF, 0x00, 0x00, 0x03, 0x00,
   0x00, 0xD0, 0x00, 0x00, 0x00, 0xF3, 0x00, 0x00]

/-- Read the byte at absolute stream position `p` from a buffer whose first
byte is at position `base`. -/
def readMem (input : List Nat) (base p : Nat) : Option Nat :=
  if p < base then none else input[p - base]?

/-- `decompress_rle_byte`: the reader is positioned just after a `0xC0`
marker.  Returns the new read position and the bytes written. -/
def decompress_rle_byte (input : List Nat) (base p : Nat) : Option (Nat × List Nat) :=
  (readMem input base p).bind (fun byte =>
    if byte = RUN_LENGTH_ENCODING_BYTE then
      some (p + 1, [byte])
    else
      (readMem input base (p + 1)).bind (fun count =>
        some (p + 2, List.replicate count byte)))

/-- `decompress_default_wave_byte`: read a count and stamp the default wave
that many times. -/
def decompress_default_wave_byte (input : List Nat) (base p : Nat) :
    Option (Nat × List Nat) :=
  (readMem input base p).bind (fun count =>
    some (p + 1, (List.replicate count LSDJ_DEFAULT_WAVE).flatten))

/-- `decompress_default_instrument_byte`: read a count and stamp the default
instrument that many times. -/
def decompress_default_instrument_byte (input : List Nat) (base p : Nat) :
    Option (Nat × List Nat) :=
  (readMem input base p).bind (fun count =>
    some (p + 1, (List.replicate count LSDJ_DEFAULT_INSTRUMENT).flatten))

/-- `decompress_sa_byte`: the reader is positioned just after a `0xE0`
marker.  The third component models the `nextBlockIndex` out-parameter
(`none` is `LSDJ_NO_NEXT_BLOCK_INDEX`). -/
def decompress_sa_byte (input : List Nat) (base p : Nat) :
    Option (Nat × List Nat × Option Nat) :=
  (readMem input base p).bind (fun byte =>
    if byte = SPECIAL_ACTION_BYTE then
      some (p + 1, [byte], none)
    else if byte = LSDJ_DEFAULT_WAVE_BYTE then
      (decompress_default_wave_byte input base (p + 1)).map
        (fun qo => (qo.1, qo.2, none))
    else if byte = LSDJ_DEFAULT_INSTRUMENT_BYTE then
      (decompress_default_instrument_byte input base (p + 1)).map
        (fun qo => (qo.1, qo.2, none))
    else
      some (p + 1, [], some byte))

/-- `lsdj_decompress_step`: read one marker byte and dispatch. -/
def lsdj_decompress_step (input : List Nat) (base p : Nat) :
    Option (Nat × List Nat × Option Nat) :=
  (readMem input base p).bind (fun byte =>
    if byte = RUN_LENGTH_ENCODING_BYTE then
      (decompress_rle_byte input base (p + 1)).map
        (fun qo => (qo.1, qo.2, none))
    else if byte = SPECIAL_ACTION_BYTE then
      decompress_sa_byte input base (p + 1)
    else
      some (p + 1, [byte], none))

/-- The inner loop of `lsdj_decompress_block`, with an explicit iteration
budget: run decompression steps until one reports a block jump or
end-of-stream.  Returns the read position after the final step, the bytes
written, and the reported next-block value. -/
def stepsInBlockF (input : List Nat) (base : Nat) : Nat → Nat → Option (Nat × List Nat × Nat)
  | 0, _ => none
  | fuel + 1, p =>
    match lsdj_decompress_step input base p with
    | none => none
    | some (p', out, some v) => some (p', out, v)
    | some (p', out, none) =>
      (stepsInBlockF input base fuel p').map (fun t => (t.1, out ++ t.2.1, t.2.2))

/-- The inner loop of `lsdj_decompress_block`.  The C loop terminates on any
finite buffer because every successful step consumes at least one buffer
byte (`lsdj_decompress_step_advance`), so `input.length + 1` iterations are
always enough and the fueled recursion is an exact model of the loop. -/
def stepsInBlock (input : List Nat) (base p : Nat) : Option (Nat × List Nat × Nat) :=
  stepsInBlockF input base (input.length + 1) p

/-- `lsdj_decompress_block`: run steps until a jump or end-of-stream is
found, then seek the reader to the end of the block it entered at
(`start + LSDJ_BLOCK_SIZE`). -/
def lsdj_decompress_block (input : List Nat) (base p : Nat) :
    Option (Nat × List Nat × Nat) :=
  match stepsInBlock input base p with
  | none => none
  | some (_, out, v) => some (p + LSDJ_BLOCK_SIZE, out, v)

/-- Result of the block loop inside `lsdj_decompress`: `done` means the
end-of-stream marker was reached, `fail` a read failed, and `spin` is the
fuel-exhaustion artifact of the model (the C loop would not have
terminated yet). -/
inductive LoopResult where
  | done : Nat → List Nat → LoopResult
  | fail : LoopResult
  | spin : LoopResult
  deriving DecidableEq

/-- Prepend already-written bytes to the result of the remaining loop. -/
def LoopResult.prepend (pre : List Nat) : LoopResult → LoopResult
  | .done r out => .done r (pre ++ out)
  | .fail => .fail
  | .spin => .spin

/-- The do/while block loop of `lsdj_decompress`: decompress blocks until an
end-of-stream, seeking to `fbp + (index − 1) · 512` on a block jump when
`follow` is set (the source computes `(unsigned char)(nextBlockIndex) - 1`,
which wraps at zero — hence `(v + 255) % 256`). -/
def decompressLoop (input : List Nat) (base fbp : Nat) (follow : Bool) :
    Nat → Nat → LoopResult
  | 0, _ => .spin
  | fuel + 1, p =>
    match lsdj_decompress_block input base p with
    | none => .fail
    | some (p', out, v) =>
      if v = LSDJ_END_OF_FILE_BLOCK_INDEX then .done p' out
      else
        let q := if follow then fbp + ((v + 255) % 256) * LSDJ_BLOCK_SIZE else p'
        (decompressLoop input base fbp follow fuel q).prepend out

/-- Overall result of `lsdj_decompress`. -/
inductive DecompressResult where
  | ok : List Nat → DecompressResult
  | sizeMismatch : Nat → DecompressResult
  | readFailure : DecompressResult
  | outOfFuel : DecompressResult
  deriving DecidableEq

/-- `lsdj_decompress`: run the block loop from read position `p`; once the
end-of-stream marker has been reached, check that exactly
`LSDJ_SONG_BYTE_COUNT` bytes were written, and fail with the
"decompressed size does not line up with 0x8000 bytes" format error
otherwise. -/
def lsdj_decompress (input : List Nat) (base p fbp : Nat) (follow : Bool)
    (fuel : Nat) : DecompressResult :=
  match decompressLoop input base fbp follow fuel p with
  | .fail => .readFailure
  | .spin => .outOfFuel
  | .done _ out =>
    if out.length = LSDJ_SONG_BYTE_COUNT then .ok out
    else .sizeMismatch out.length

/-! ## Stream codec: compression (`lsdj_compress`) -/

/-- `memcmp(read, pat, pat.length) == 0` on the input buffer. -/
def windowEq (d : Nat → Nat) (r : Nat) (pat : List Nat) : Bool :=
  (List.range pat.length).all (fun j => d (r + j) == pat.getD j 0)

/-- The scan loop shared by the default-wave and default-instrument
detectors:
`while (read + N < end && memcmp(read, pat, N) == 0 && count != 0xFF)`.
The count cap `0xFF` bounds the loop at 255 iterations, so the fuel of
`256` used by `patScan` makes the fueled recursion exact. -/
def patScanF (d : Nat → Nat) (pat : List Nat) : Nat → Nat → Nat → Nat × Nat
  | 0, r, count => (r, count)
  | fuel + 1, r, count =>
    if r + pat.length < LSDJ_SONG_BYTE_COUNT ∧ windowEq d r pat = true ∧ count ≠ 0xFF then
      patScanF d pat fuel (r + pat.length) (count + 1)
    else (r, count)

/-- Run a default-constant scan from read position `r` with count `0`.
Returns the read position after the consumed copies and the copy count. -/
def patScan (d : Nat → Nat) (pat : List Nat) (r : Nat) : Nat × Nat :=
  patScanF d pat 256 r 0

/-- The run-length scan:
`while (read < end && *read == c && count != 0xFF) { ++count; ++read; }`.
As with `patScanF`, fuel `256` exceeds the count cap. -/
def runScanF (d : Nat → Nat) (c : Nat) : Nat → Nat → Nat → Nat × Nat
  | 0, r, count => (r, count)
  | fuel + 1, r, count =>
    if r < LSDJ_SONG_BYTE_COUNT ∧ d r = c ∧ count ≠ 0xFF then
      runScanF d c fuel (r + 1) (count + 1)
    else (r, count)

/-- Run a run-length scan from read position `r` with count `0`. -/
def runScan (d : Nat → Nat) (c r : Nat) : Nat × Nat :=
  runScanF d c 256 r 0

/-- One compression event, as selected by the body of `lsdj_compress`'s
main loop (the `nextEvent` buffer): the constructors record what the three
(or fewer) event bytes encode.  Used both for the emitted bytes and to
instrument the compressor with a trace of `(read position, event)` pairs. -/
inductive CEvent where
  | wave : Nat → CEvent
  | instrument : Nat → CEvent
  | rleEscape : CEvent
  | saEscape : CEvent
  | run : Nat → Nat → CEvent
  | lit : Nat → CEvent
  deriving DecidableEq

/-- The bytes written for an event (the contents of `nextEvent`). -/
def CEvent.bytes : CEvent → List Nat
  | .wave n => [SPECIAL_ACTION_BYTE, LSDJ_DEFAULT_WAVE_BYTE, n]
  | .instrument n => [SPECIAL_ACTION_BYTE, LSDJ_DEFAULT_INSTRUMENT_BYTE, n]
  | .rleEscape => [RUN_LENGTH_ENCODING_BYTE, RUN_LENGTH_ENCODING_BYTE]
  | .saEscape => [SPECIAL_ACTION_BYTE, SPECIAL_ACTION_BYTE]
  | .run c n => [RUN_LENGTH_ENCODING_BYTE, c, n]
  | .lit b => [b]

/-- The event selection of `lsdj_compress`'s main loop at read position
`r`, in source order: default-wave scan first, then default-instrument
scan, then the `0xC0` / `0xE0` escapes, then a run-length scan (guarded by
a four-byte lookahead of equal bytes), and finally a literal byte.
Returns the selected event and the read position after the consumed
bytes. -/
def selectEvent (d : Nat → Nat) (r : Nat) : CEvent × Nat :=
  let ws := patScan d LSDJ_DEFAULT_WAVE r
  if 0 < ws.2 then (.wave ws.2, ws.1)
  else
    let is := patScan d LSDJ_DEFAULT_INSTRUMENT r
    if 0 < is.2 then (.instrument is.2, is.1)
    else if d r = RUN_LENGTH_ENCODING_BYTE then (.rleEscape, r + 1)
    else if d r = SPECIAL_ACTION_BYTE then (.saEscape, r + 1)
    else if r + 3 < LSDJ_SONG_BYTE_COUNT ∧ d (r + 1) = d r ∧ d (r + 2) = d r ∧ d (r + 3) = d r then
      let rs := runScan d (d r) r
      (.run (d r) rs.2, rs.1)
    else (.lit (d r), r + 1)

/-- The main loop of `lsdj_compress`.  State: read position `r`, current
block number `B` (one-based relative to the anchor that block jumps are
decoded against), bytes used in the current block `s`, bytes written so
far `out`, and the instrumentation trace `tr`.  Before writing an event
that would not leave two spare bytes in the current block, the loop writes
the next-block command `E0 (B+1)`, zero-pads the block to 512 bytes, and
fails (the source rolls the stream back and returns false) once block
`LSDJ_BLOCK_COUNT + 1` is reached.  Every iteration consumes at least one
input byte, so fuel `LSDJ_SONG_BYTE_COUNT` always suffices. -/
def compressGo (d : Nat → Nat) :
    Nat → Nat → Nat → Nat → List Nat → List (Nat × CEvent) →
    Option (Nat × Nat × List Nat × List (Nat × CEvent))
  | fuel, r, B, s, out, tr =>
    if LSDJ_SONG_BYTE_COUNT ≤ r then some (B, s, out, tr)
    else
      match fuel with
      | 0 => none
      | fuel + 1 =>
        let er := selectEvent d r
        let S := er.1.bytes.length
        if LSDJ_BLOCK_SIZE ≤ s + S + 2 then
          let out2 := out ++ [SPECIAL_ACTION_BYTE, B + 1] ++
            List.replicate (LSDJ_BLOCK_SIZE - (s + 2)) 0
          if B + 1 = LSDJ_BLOCK_COUNT + 1 then none
          else compressGo d fuel er.2 (B + 1) S (out2 ++ er.1.bytes) (tr ++ [(r, er.1)])
        else compressGo d fuel er.2 B (s + S) (out ++ er.1.bytes) (tr ++ [(r, er.1)])

/-- `lsdj_compress`: compress the 32 KiB buffer `d`, starting at block
`blockOffset` (one-based; writing starts at stream position
`(blockOffset − 1) · LSDJ_BLOCK_SIZE` relative to the anchor that block
jumps are decoded against).  Returns the written bytes together with the
instrumentation trace of selected events, or `none` when the song does not
fit in the block budget.  After the main loop the source writes the
end-of-stream command `E0 FF` and zero-pads the final block. -/
def lsdj_compress (d : Nat → Nat) (blockOffset : Nat) :
    Option (List Nat × List (Nat × CEvent)) :=
  if blockOffset = LSDJ_BLOCK_COUNT + 1 then none
  else
    (compressGo d LSDJ_SONG_BYTE_COUNT 0 blockOffset 0 [] []).map
      (fun res =>
        let out := res.2.2.1 ++ [SPECIAL_ACTION_BYTE, LSDJ_END_OF_FILE_BLOCK_INDEX]
        ((if 0 < res.2.1 then
            out ++ List.replicate (LSDJ_BLOCK_SIZE - (res.2.1 + 2)) 0
          else out), res.2.2.2))

/-! ## Song image (`song.c`)

`song.h` is not part of `src/`, so the entity counts and record sizes are
modelled from the spec together with the layout constraints that are in
`src/`: `song.c` checks the three `"rb"` markers at `0x1E78`, `0x3E80` and
`0x7FF0`, reads the allocation tables at `0x2020` and `0x3E82` with the
sizes `TABLE_ALLOC_TABLE_SIZE = 32`, `INSTR_ALLOC_TABLE_SIZE = 64`,
`PHRASE_ALLOC_TABLE_SIZE = 32`, `CHAIN_ALLOC_TABLE_SIZE = 16`, and reads
the version byte at `0x7FFF`; the table translation unit fixes the bank-1
region offsets `0x3480`, `0x3680`, `0x3880`, `0x3a80`, `0x3c80`.  These
constraints pin the counts: 255 phrases of 16 bytes, 128 chains, 64
instruments (5-byte names, 16-byte payloads), 32 tables, 16 synths of 16
bytes, 256 waves of 16 bytes, 32 grooves of 16 bytes, 42 words of
16 + 16 bytes with 4-byte names, 64 bookmark bytes, 1024 row bytes, and
the reserved regions named by their offsets in the song struct
(`reserved1030[96]`, `reserved1fba[70]`, `reserved2000[32]`,
`reserved3fb9`, `reserved3fbf`, `reserved3fc6[58]`, `reserved5fe0[32]`,
`reserved7ff2[13]`).  With them every bank sums to exactly `0x2000` bytes
and each marker falls at its checked offset.

Entities that are read and written as one `vio` blob are modelled as flat
byte functions (`rows`, `grooves`, `waves`, `wordNames`, `bookmarks`);
entities with per-index presence are `Option`-valued. -/

/-- A chain: 16 phrase references and 16 transpositions. -/
@[ext] structure LsdjChain where
  phrases : Fin 16 → Nat
  transpositions : Fin 16 → Nat

/-- A phrase: 16 notes, 16 command/value pairs, 16 instrument refs. -/
@[ext] structure LsdjPhrase where
  notes : Fin 16 → Nat
  commands : Fin 16 → Nat
  commandValues : Fin 16 → Nat
  instruments : Fin 16 → Nat

/-- An instrument: a 5-byte name and its 16-byte payload.  Modelled from
the spec: `lsdj_read_instrument` / `lsdj_write_instrument` live in an
instrument translation unit that is not part of `src/`; the spec describes
instrument payloads as opaque 16-byte records, so they are read and
written here as exactly 16 bytes. -/
@[ext] structure LsdjInstrument where
  name : Fin 5 → Nat
  payload : Fin 16 → Nat

/-- A table: 16 envelopes/volumes, 16 transpositions, two command/value
columns of 16 entries each. -/
@[ext] structure LsdjTable where
  volumes : Fin 16 → Nat
  transpositions : Fin 16 → Nat
  commands1 : Fin 16 → Nat
  values1 : Fin 16 → Nat
  commands2 : Fin 16 → Nat
  values2 : Fin 16 → Nat

/-- A speech word: 16 allophones and 16 lengths. -/
@[ext] structure LsdjWord where
  allophones : Fin 16 → Nat
  lengths : Fin 16 → Nat

/-- The in-memory song structure (`lsdj_song_t` of `song.c`).  Synth
parameter records are read and written as 16 consecutive bytes
(13 named fields plus 3 reserved); the per-synth `overwritten` flag is
packed separately into the wave-synth overwrite-lock bitmap. -/
@[ext] structure LsdjSong where
  formatVersion : Nat
  tempo : Nat
  transposition : Nat
  rows : Fin 1024 → Nat
  chains : Fin 128 → Option LsdjChain
  phrases : Fin 255 → Option LsdjPhrase
  instruments : Fin 64 → Option LsdjInstrument
  synths : Fin 16 → Fin 16 → Nat
  synthOverwritten : Fin 16 → Bool
  waves : Fin 4096 → Nat
  tables : Fin 32 → Option LsdjTable
  grooves : Fin 512 → Nat
  words : Fin 42 → LsdjWord
  wordNames : Fin 168 → Nat
  bookmarks : Fin 64 → Nat
  keyDelay : Nat
  keyRepeat : Nat
  font : Nat
  sync : Nat
  colorSet : Nat
  clone : Nat
  fileChangedFlag : Nat
  powerSave : Nat
  preListen : Nat
  totalTime : Fin 3 → Nat
  workTime : Fin 2 → Nat
  reserved1030 : Fin 96 → Nat
  reserved1fba : Fin 70 → Nat
  reserved2000 : Fin 32 → Nat
  reserved3fb9 : Nat
  reserved3fbf : Nat
  reserved3fc6 : Fin 58 → Nat
  reserved5fe0 : Fin 32 → Nat
  reserved7ff2 : Fin 13 → Nat

/-- A song with no allocated entities and all bytes zero (used as a
concrete evaluation point). -/
def emptySong : LsdjSong where
  formatVersion := 0
  tempo := 0
  transposition := 0
  rows := fun _ => 0
  chains := fun _ => none
  phrases := fun _ => none
  instruments := fun _ => none
  synths := fun _ _ => 0
  synthOverwritten := fun _ => false
  waves := fun _ => 0
  tables := fun _ => none
  grooves := fun _ => 0
  words := fun _ => { allophones := fun _ => 0, lengths := fun _ => 0 }
  wordNames := fun _ => 0
  bookmarks := fun _ => 0
  keyDelay := 0
  keyRepeat := 0
  font := 0
  sync := 0
  colorSet := 0
  clone := 0
  fileChangedFlag := 0
  powerSave := 0
  preListen := 0
  totalTime := fun _ => 0
  workTime := fun _ => 0
  reserved1030 := fun _ => 0
  reserved1fba := fun _ => 0
  reserved2000 := fun _ => 0
  reserved3fb9 := 0
  reserved3fbf := 0
  reserved3fc6 := fun _ => 0
  reserved5fe0 := fun _ => 0
  reserved7ff2 := fun _ => 0

/-- `PHRASE_LENGTH_ZERO` / `TABLE_LENGTH_ZERO` / `CHAIN_LENGTH_ZERO`:
sixteen zero bytes. -/
def LENGTH_ZERO : List Nat := List.replicate 16 0

/-- `PHRASE_LENGTH_FF` / `CHAIN_LENGTH_FF`: sixteen `0xFF` bytes. -/
def LENGTH_FF : List Nat := List.replicate 16 0xFF

/-- `EMPTY_INSTRUMENT_NAME`: five zero bytes. -/
def EMPTY_INSTRUMENT_NAME : List Nat := List.replicate 5 0

/-- Concatenation of `n` per-entity chunks (a writer loop over entity
index `i`). -/
def chunks (n : Nat) (f : Fin n → List Nat) : List Nat :=
  (List.ofFn f).flatten

/-- Presence of chain `i` (`song->chains[i] != NULL`), as a predicate on
the raw index. -/
def chainPresent (song : LsdjSong) (i : Nat) : Bool :=
  if h : i < 128 then (song.chains ⟨i, h⟩).isSome else false

/-- Presence of phrase `i` (`song->phrases[i] != NULL`). -/
def phrasePresent (song : LsdjSong) (i : Nat) : Bool :=
  if h : i < 255 then (song.phrases ⟨i, h⟩).isSome else false

/-- The synth overwrite flag of synth `i`, as a predicate on the raw
index. -/
def synthOverwrittenAt (song : LsdjSong) (i : Nat) : Bool :=
  if h : i < 16 then song.synthOverwritten ⟨i, h⟩ else false

/-- Byte `j` of a packed one-bit-per-entity bitmap, as built by
`write_bank1`'s `table[i / 8] |= 1 << (i % 8)` loops: it collects the
presence bits of entities `8 j … 8 j + 7`. -/
def packedAllocByte (present : Nat → Bool) (j : Nat) : Nat :=
  (List.range 8).foldl
    (fun acc k => if present (8 * j + k) then acc ||| (1 <<< k) else acc) 0

/-- The 16 phrase-note bytes written for phrase `i` (fill `0x00` when the
phrase is absent). -/
def phraseNotesChunk (song : LsdjSong) (i : Fin 255) : List Nat :=
  match song.phrases i with
  | some ph => List.ofFn ph.notes
  | none => LENGTH_ZERO

/-- The 16 envelope/volume bytes written for table `i` (fill `0x00`). -/
def tableVolumesChunk (song : LsdjSong) (i : Fin 32) : List Nat :=
  match song.tables i with
  | some t => List.ofFn t.volumes
  | none => LENGTH_ZERO

/-- The 32 bytes written for speech word `i`: allophones then lengths. -/
def wordChunk (song : LsdjSong) (i : Fin 42) : List Nat :=
  List.ofFn (song.words i).allophones ++ List.ofFn (song.words i).lengths

/-- The 5 name bytes written for instrument `i` (fill `0x00`). -/
def instrNameChunk (song : LsdjSong) (i : Fin 64) : List Nat :=
  match song.instruments i with
  | some ins => List.ofFn ins.name
  | none => EMPTY_INSTRUMENT_NAME

/-- The 16 phrase-reference bytes written for chain `i` (fill `0xFF`). -/
def chainPhrasesChunk (song : LsdjSong) (i : Fin 128) : List Nat :=
  match song.chains i with
  | some c => List.ofFn c.phrases
  | none => LENGTH_FF

/-- The 16 transposition bytes written for chain `i` (fill `0x00`). -/
def chainTranspositionsChunk (song : LsdjSong) (i : Fin 128) : List Nat :=
  match song.chains i with
  | some c => List.ofFn c.transpositions
  | none => LENGTH_ZERO

/-- The 16 payload bytes written for instrument `i` (fill = the default
instrument constant). -/
def instrumentPayloadChunk (song : LsdjSong) (i : Fin 64) : List Nat :=
  match song.instruments i with
  | some ins => List.ofFn ins.payload
  | none => LSDJ_DEFAULT_INSTRUMENT

/-- The 16 transposition bytes written for table `i` (fill `0x00`). -/
def tableTranspositionsChunk (song : LsdjSong) (i : Fin 32) : List Nat :=
  match song.tables i with
  | some t => List.ofFn t.transpositions
  | none => LENGTH_ZERO

/-- The 16 command-1 bytes written for table `i` (fill `0x00`). -/
def tableCommands1Chunk (song : LsdjSong) (i : Fin 32) : List Nat :=
  match song.tables i with
  | some t => List.ofFn t.commands1
  | none => LENGTH_ZERO

/-- The 16 command-1 value bytes written for table `i` (fill `0x00`). -/
def tableValues1Chunk (song : LsdjSong) (i : Fin 32) : List Nat :=
  match song.tables i with
  | some t => List.ofFn t.values1
  | none => LENGTH_ZERO

/-- The 16 command-2 bytes written for table `i` (fill `0x00`). -/
def tableCommands2Chunk (song : LsdjSong) (i : Fin 32) : List Nat :=
  match song.tables i with
  | some t => List.ofFn t.commands2
  | none => LENGTH_ZERO

/-- The 16 command-2 value bytes written for table `i` (fill `0x00`). -/
def tableValues2Chunk (song : LsdjSong) (i : Fin 32) : List Nat :=
  match song.tables i with
  | some t => List.ofFn t.values2
  | none => LENGTH_ZERO

/-- The 16 parameter bytes written for soft synth `i`. -/
def synthChunk (song : LsdjSong) (i : Fin 16) : List Nat :=
  List.ofFn (song.synths i)

/-- The 16 command-code bytes written for phrase `i` (fill `0x00`). -/
def phraseCommandsChunk (song : LsdjSong) (i : Fin 255) : List Nat :=
  match song.phrases i with
  | some ph => List.ofFn ph.commands
  | none => LENGTH_ZERO

/-- The 16 command-value bytes written for phrase `i` (fill `0x00`). -/
def phraseValuesChunk (song : LsdjSong) (i : Fin 255) : List Nat :=
  match song.phrases i with
  | some ph => List.ofFn ph.commandValues
  | none => LENGTH_ZERO

/-- The 16 instrument-reference bytes written for phrase `i` (fill
`0xFF`). -/
def phraseInstrumentsChunk (song : LsdjSong) (i : Fin 255) : List Nat :=
  match song.phrases i with
  | some ph => List.ofFn ph.instruments
  | none => LENGTH_FF

/-- `write_bank0` (`song.c`): phrase notes (fill `0x00` when absent),
bookmarks, `reserved1030`, grooves, rows, table envelopes (fill `0x00`),
speech words, word names, the `"rb"` marker, instrument names (fill
`0x00`), `reserved1fba`. -/
def write_bank0 (song : LsdjSong) : List Nat :=
  chunks 255 (phraseNotesChunk song) ++
  List.ofFn song.bookmarks ++
  List.ofFn song.reserved1030 ++
  List.ofFn song.grooves ++
  List.ofFn song.rows ++
  chunks 32 (tableVolumesChunk song) ++
  chunks 42 (wordChunk song) ++
  List.ofFn song.wordNames ++
  [114, 98] ++
  chunks 64 (instrNameChunk song) ++
  List.ofFn song.reserved1fba

/-- `write_bank1` (`song.c`): `reserved2000`, the byte-per-entity table
and instrument allocation tables, chain phrases (fill `0xFF`), chain
transpositions (fill `0x00`), instrument payloads (fill = the default
instrument), table transpositions and the four table command/value
columns (fill `0x00`), the `"rb"` marker, the packed phrase and chain
allocation bitmaps, the 16 soft-synth parameter records, the metadata
bytes, the wave-synth overwrite-lock bitmap (inverted byte order), and
`reserved3fc6`. -/
def write_bank1 (song : LsdjSong) : List Nat :=
  List.ofFn song.reserved2000 ++
  List.ofFn (fun i : Fin 32 => if (song.tables i).isSome then 1 else 0) ++
  List.ofFn (fun i : Fin 64 => if (song.instruments i).isSome then 1 else 0) ++
  chunks 128 (chainPhrasesChunk song) ++
  chunks 128 (chainTranspositionsChunk song) ++
  chunks 64 (instrumentPayloadChunk song) ++
  chunks 32 (tableTranspositionsChunk song) ++
  chunks 32 (tableCommands1Chunk song) ++
  chunks 32 (tableValues1Chunk song) ++
  chunks 32 (tableCommands2Chunk song) ++
  chunks 32 (tableValues2Chunk song) ++
  [114, 98] ++
  List.ofFn (fun j : Fin 32 => packedAllocByte (phrasePresent song) j) ++
  List.ofFn (fun j : Fin 16 => packedAllocByte (chainPresent song) j) ++
  chunks 16 (synthChunk song) ++
  List.ofFn song.workTime ++
  [song.tempo, song.transposition] ++
  List.ofFn song.totalTime ++
  [song.reserved3fb9, song.keyDelay, song.keyRepeat, song.font, song.sync,
   song.colorSet, song.reserved3fbf, song.clone, song.fileChangedFlag,
   song.powerSave, song.preListen] ++
  [packedAllocByte (synthOverwrittenAt song) 1,
   packedAllocByte (synthOverwrittenAt song) 0] ++
  List.ofFn song.reserved3fc6

/-- `write_bank2` (`song.c`): phrase command codes and command values
(fill `0x00` when the phrase is absent), then `reserved5fe0`. -/
def write_bank2 (song : LsdjSong) : List Nat :=
  chunks 255 (phraseCommandsChunk song) ++
  chunks 255 (phraseValuesChunk song) ++
  List.ofFn song.reserved5fe0

/-- `write_bank3` (`song.c`): wave frames, phrase instrument references
(fill `0xFF` when the phrase is absent), the `"rb"` marker,
`reserved7ff2`, and the format version byte. -/
def write_bank3 (song : LsdjSong) : List Nat :=
  List.ofFn song.waves ++
  chunks 255 (phraseInstrumentsChunk song) ++
  [114, 98] ++
  List.ofFn song.reserved7ff2 ++
  [song.formatVersion]

/-- `lsdj_write_song` (`song.c`): the four banks in order. -/
def lsdj_write_song (song : LsdjSong) : List Nat :=
  write_bank0 song ++ write_bank1 song ++ write_bank2 song ++ write_bank3 song

/-- Byte access into a memory buffer (`lsdj_mread` copies without bounds
checks; reads are only ever performed in bounds by the reader below). -/
def byteAt (l : List Nat) (i : Nat) : Nat := l.getD i 0

/-- `check_rb` (`song.c`): are the two bytes at `position` the ASCII pair
`'r'`, `'b'`? -/
def check_rb (l : List Nat) (position : Nat) : Bool :=
  byteAt l position == 114 && byteAt l (position + 1) == 98

/-- The error results of `lsdj_read_song`: "memory flag 'rb' not found at
<offset>". -/
inductive ReadSongError where
  | rbMarker : Nat → ReadSongError
  deriving DecidableEq

/-- Chain allocation bit `i`, as read by `lsdj_read_song`:
`(chainAllocTable[i / 8] >> (i % 8)) & 1` with the table at `0x3EA2`. -/
def chainAllocBit (l : List Nat) (i : Nat) : Bool :=
  (byteAt l (0x3EA2 + i / 8)) >>> (i % 8) &&& 1 == 1

/-- Phrase allocation bit `i`, table at `0x3E82`. -/
def phraseAllocBit (l : List Nat) (i : Nat) : Bool :=
  (byteAt l (0x3E82 + i / 8)) >>> (i % 8) &&& 1 == 1

/-- Table allocation byte `i` (non-zero means present), table at
`0x2020`. -/
def tableAllocByte (l : List Nat) (i : Nat) : Bool :=
  byteAt l (0x2020 + i) != 0

/-- Instrument allocation byte `i`, table at `0x2040`. -/
def instrAllocByte (l : List Nat) (i : Nat) : Bool :=
  byteAt l (0x2040 + i) != 0

/-- The body of `lsdj_read_song` after the `"rb"` checks: read the version
byte and the four allocation tables, then walk the four banks.  The bank
loops of `read_bank0` … `read_bank3` perform fixed-length reads and
equally sized skips, so the `i`-th entity of each region sits at a fixed
offset `region + length · i` independently of the allocation state; the
offsets below are those cumulative positions. -/
def parseSong (l : List Nat) : LsdjSong where
  formatVersion := byteAt l 0x7FFF
  tempo := byteAt l 0x3FB4
  transposition := byteAt l 0x3FB5
  rows := fun j => byteAt l (0x1290 + j)
  chains := fun i =>
    if chainAllocBit l i then
      some { phrases := fun j => byteAt l (0x2080 + 16 * i + j)
             transpositions := fun j => byteAt l (0x2880 + 16 * i + j) }
    else none
  phrases := fun i =>
    if phraseAllocBit l i then
      some { notes := fun j => byteAt l (16 * i + j)
             commands := fun j => byteAt l (0x4000 + 16 * i + j)
             commandValues := fun j => byteAt l (0x4FF0 + 16 * i + j)
             instruments := fun j => byteAt l (0x7000 + 16 * i + j) }
    else none
  instruments := fun i =>
    if instrAllocByte l i then
      some { name := fun j => byteAt l (0x1E7A + 5 * i + j)
             payload := fun j => byteAt l (0x3080 + 16 * i + j) }
    else none
  synths := fun i j => byteAt l (0x3EB2 + 16 * i + j)
  synthOverwritten := fun i =>
    (byteAt l (0x3FC4 + (1 - i.val / 8))) >>> (i.val % 8) &&& 1 == 1
  waves := fun j => byteAt l (0x6000 + j)
  tables := fun i =>
    if tableAllocByte l i then
      some { volumes := fun j => byteAt l (0x1690 + 16 * i + j)
             transpositions := fun j => byteAt l (0x3480 + 16 * i + j)
             commands1 := fun j => byteAt l (0x3680 + 16 * i + j)
             values1 := fun j => byteAt l (0x3880 + 16 * i + j)
             commands2 := fun j => byteAt l (0x3A80 + 16 * i + j)
             values2 := fun j => byteAt l (0x3C80 + 16 * i + j) }
    else none
  grooves := fun j => byteAt l (0x1090 + j)
  words := fun i =>
    { allophones := fun j => byteAt l (0x1890 + 32 * i + j)
      lengths := fun j => byteAt l (0x1890 + 32 * i + 16 + j) }
  wordNames := fun j => byteAt l (0x1DD0 + j)
  bookmarks := fun j => byteAt l (0x0FF0 + j)
  keyDelay := byteAt l 0x3FBA
  keyRepeat := byteAt l 0x3FBB
  font := byteAt l 0x3FBC
  sync := byteAt l 0x3FBD
  colorSet := byteAt l 0x3FBE
  clone := byteAt l 0x3FC0
  fileChangedFlag := byteAt l 0x3FC1
  powerSave := byteAt l 0x3FC2
  preListen := byteAt l 0x3FC3
  totalTime := fun j => byteAt l (0x3FB6 + j)
  workTime := fun j => byteAt l (0x3FB2 + j)
  reserved1030 := fun j => byteAt l (0x1030 + j)
  reserved1fba := fun j => byteAt l (0x1FBA + j)
  reserved2000 := fun j => byteAt l (0x2000 + j)
  reserved3fb9 := byteAt l 0x3FB9
  reserved3fbf := byteAt l 0x3FBF
  reserved3fc6 := fun j => byteAt l (0x3FC6 + j)
  reserved5fe0 := fun j => byteAt l (0x5FE0 + j)
  reserved7ff2 := fun j => byteAt l (0x7FF2 + j)

/-- `lsdj_read_song` (`song.c`): check the three `"rb"` markers first (in
source order, failing with the error naming the first offending offset),
then parse the song image. -/
def lsdj_read_song (l : List Nat) : Except ReadSongError LsdjSong :=
  if check_rb l 0x1E78 = false then .error (.rbMarker 0x1E78)
  else if check_rb l 0x3E80 = false then .error (.rbMarker 0x3E80)
  else if check_rb l 0x7FF0 = false then .error (.rbMarker 0x7FF0)
  else .ok (parseSong l)

/-! ## Save container (`sav.c`)

`sav.h` is not part of `src/`; `SAV_PROJECT_COUNT = 32` and the project
record (8-byte name, 1-byte version, optional song) are modelled from the
spec.  The input is the whole save file as a total memory `mem : Nat → Nat`
(`sav.c` reads via caller-supplied `read`/`seek` callbacks; the in-memory
callbacks of `sav.c` never fail).  Layout fixed by the `header_t` struct of
`sav.c`: header at `HEADER_START = 0x8000` with `project_names[256]`,
`versions[32]`, `empty[30]`, `init[2]`, `active_project` — so `init` is at
`0x813E`, the active project at `0x8140`, the 191-byte block allocation
table at `0x8141`, and the 191 × 512 block region at `0x8200`. -/

/-- A project slot: name, version, and the song pointer.  The source
assigns a freshly allocated song and parses into it, so an assigned slot
carries the parse result (`Except`); `none` is a `NULL` song pointer. -/
structure LsdjProject where
  name : Fin 8 → Nat
  version : Nat
  song : Option (Except ReadSongError LsdjSong)

/-- Errors surfaced by `lsdj_read_sav`.  `oobProjectRead block owner`
models the undefined out-of-bounds access `projects[owner].song` that
`read_compressed_blocks` performs when the owner byte of `block` is not a
valid project index (in particular `0xFF` for a free block). -/
inductive SavError where
  | initCheck : SavError
  | oobProjectRead : Nat → Nat → SavError
  deriving DecidableEq

/-- The save aggregate.  `song` is the working song (parsed from offset 0);
it is `none` when `lsdj_read_sav` returned before reading it (the source
checks the error *pointer*, not the error value, after
`read_compressed_blocks`, so with a non-null error argument it always
returns before the working song is read). -/
structure LsdjSav where
  projects : Fin 32 → LsdjProject
  active_project : Nat
  song : Option (Except ReadSongError LsdjSong)

/-- The 191 × 512-byte block region of the save file, starting at
`0x8200`. -/
def blocksRegion (mem : Nat → Nat) : List Nat :=
  (List.range (191 * 512)).map (fun j => mem (0x8200 + j))

/-- Modelled from the spec: the legacy four-argument
`lsdj_decompress(blocks, block, blockSize, destination)` called by `sav.c`
is not part of `src/` (the `src/` decompressor is the vio-based one
above).  Per the spec's read protocol it decompresses starting at block
`i` of the block region, following in-band jumps (jump value `v` names
the block at `(v − 1) · 512` of the region), until the end-of-stream
marker, producing the 32 KiB song buffer.  It is modelled by the vio-based
decompressor of this file run over the block region; the result is the
decompressed buffer (empty on failure). -/
def lsdj_decompress_legacy (mem : Nat → Nat) (i : Nat) : List Nat :=
  match lsdj_decompress (blocksRegion mem) 0 (i * LSDJ_BLOCK_SIZE) 0 true 192 with
  | .ok out => out
  | _ => []

/-- Replace project slot `k`. -/
def updateProject (ps : Fin 32 → LsdjProject) (k : Fin 32) (p : LsdjProject) :
    Fin 32 → LsdjProject :=
  fun j => if j = k then p else ps j

/-- The scan loop of `read_compressed_blocks` (`sav.c`), iterating over the
block index `i`.  For each block the owner byte is read from the
allocation table; the source then tests `projects[project].song` with no
bound check — an owner byte `≥ 32` (in particular `0xFF`, a free block) is
the out-of-bounds access modelled by `.oobProjectRead`.  If the owning
project already has a song the block is skipped; otherwise the block chain
is decompressed and parsed into the project, after which the source
executes `if (error) return;` — a test of the error *pointer* — so when
the caller passed a non-null error argument (`errNonNull`) the scan stops
right there.  Fuel `191` makes the fueled recursion cover the whole
loop. -/
def read_compressed_blocks_go (mem : Nat → Nat) (errNonNull : Bool) :
    Nat → Nat → (Fin 32 → LsdjProject) → Except SavError (Fin 32 → LsdjProject)
  | 0, _, ps => .ok ps
  | fuel + 1, i, ps =>
    if 191 ≤ i then .ok ps
    else
      let owner := mem (0x8141 + i)
      if howner : owner < 32 then
        if (ps ⟨owner, howner⟩).song.isSome then
          read_compressed_blocks_go mem errNonNull fuel (i + 1) ps
        else
          let data := lsdj_decompress_legacy mem i
          let ps2 := updateProject ps ⟨owner, howner⟩
            { ps ⟨owner, howner⟩ with song := some (lsdj_read_song data) }
          if errNonNull then .ok ps2
          else read_compressed_blocks_go mem errNonNull fuel (i + 1) ps2
      else .error (.oobProjectRead i owner)

/-- `read_compressed_blocks` (`sav.c`). -/
def read_compressed_blocks (mem : Nat → Nat) (errNonNull : Bool)
    (ps : Fin 32 → LsdjProject) : Except SavError (Fin 32 → LsdjProject) :=
  read_compressed_blocks_go mem errNonNull 191 0 ps

/-- The part of `lsdj_read_sav` after the `init` check: populate the
project slots from the header arrays, record the active project, scan the
compressed blocks, and (only when the error pointer was null, see
`read_compressed_blocks_go`) parse the working song from offset 0. -/
def lsdj_read_sav_body (mem : Nat → Nat) (errNonNull : Bool) :
    Except SavError LsdjSav :=
  let ps0 : Fin 32 → LsdjProject := fun i =>
    { name := fun j => mem (0x8000 + 8 * i.val + j.val)
      version := mem (0x8100 + i.val)
      song := none }
  match read_compressed_blocks mem errNonNull ps0 with
  | .error e => .error e
  | .ok ps =>
    if errNonNull then
      .ok { projects := ps, active_project := mem 0x8140, song := none }
    else
      .ok { projects := ps, active_project := mem 0x8140,
            song := some (lsdj_read_song ((List.range 0x8000).map mem)) }

/-- `lsdj_read_sav` (`sav.c`): read the header at `0x8000`, validate the
two `init` bytes against `'j'`, `'k'` ("SRAM initialization check wasn't
'jk'"), and only then process projects and the working song. -/
def lsdj_read_sav (mem : Nat → Nat) (errNonNull : Bool) :
    Except SavError LsdjSav :=
  if mem 0x813E ≠ 106 ∨ mem 0x813F ≠ 107 then .error .initCheck
  else lsdj_read_sav_body mem errNonNull

/-! ## List navigation helpers -/

/-- Peel a prefix of known length off an indexed access. -/
theorem getD_chop {a : List Nat} {k : Nat} (ha : a.length = k)
    (rest : List Nat) (n d : Nat) :
    (a ++ rest).getD (k + n) d = rest.getD n d := by
  rw [List.getD_append_right a rest d (k + n) (by omega)]
  congr 1
  omega

/-- Peel a prefix of known length off a `drop`. -/
theorem drop_chop {a : List Nat} {k : Nat} (ha : a.length = k)
    (rest : List Nat) (n : Nat) :
    (a ++ rest).drop (k + n) = rest.drop n := by
  subst ha
  induction a with
  | nil => simp
  | cons x t ih => simpa [Nat.succ_add] using ih

/-- Index into a `drop`. -/
theorem getD_drop (l : List Nat) (m j d : Nat) :
    (l.drop m).getD j d = l.getD (m + j) d := by
  rw [List.getD_eq_getD_get?, List.getD_eq_getD_get?]
  congr 1
  simp [List.get?_eq_getElem?, List.getElem?_drop]

/-- Indexed access below a prefix of known length stays in the prefix. -/
theorem getD_keep {a : List Nat} {k : Nat} (ha : a.length = k) (rest : List Nat)
    {m : Nat} (hm : m < k) (d : Nat) :
    (a ++ rest).getD m d = a.getD m d :=
  List.getD_append a rest d m (ha ▸ hm)

/-- Indexed access into `List.ofFn`. -/
theorem getD_ofFn {n : Nat} (f : Fin n → Nat) (m : Nat) (hm : m < n) (d : Nat) :
    (List.ofFn f).getD m d = f ⟨m, hm⟩ := by
  rw [List.getD_eq_getElem _ _ (by simpa using hm)]
  exact List.getElem_ofFn f m (by simpa using hm)

/-- Extract chunk `i` of a uniform-width chunk concatenation (followed by
an arbitrary tail). -/
theorem flatten_extract :
    ∀ (xs : List (List Nat)) (rest : List Nat) (L : Nat),
      (∀ l ∈ xs, l.length = L) → ∀ (i : Nat) (hi : i < xs.length),
      ((xs.flatten ++ rest).drop (L * i)).take L = xs.get ⟨i, hi⟩ := by
  intro xs
  induction xs with
  | nil => intro rest L h i hi; simp at hi
  | cons a t ih =>
    intro rest L h i hi
    have ha : a.length = L := h a (by simp)
    match i with
    | 0 =>
      simp only [List.flatten_cons, Nat.mul_zero, List.drop_zero, List.append_assoc]
      rw [← ha, List.take_left]
      rfl
    | i + 1 =>
      simp only [List.flatten_cons, List.append_assoc]
      rw [show L * (i + 1) = L + L * i from by ring, drop_chop ha]
      exact ih rest L (fun l hl => h l (by simp [hl])) i (by simpa using hi)

/-- Extract chunk `i` of `chunks n f` (followed by an arbitrary tail). -/
theorem chunks_extract {n L : Nat} (f : Fin n → List Nat)
    (h : ∀ i, (f i).length = L) (rest : List Nat) (i : Fin n) :
    ((chunks n f ++ rest).drop (L * i.val)).take L = f i := by
  unfold chunks
  have hmem : ∀ l ∈ List.ofFn f, l.length = L := by
    intro l hl
    rcases (List.mem_ofFn f l).mp hl with ⟨j, rfl⟩
    exact h j
  have hi : i.val < (List.ofFn f).length := by simp [i.isLt]
  rw [flatten_extract (List.ofFn f) rest L hmem i.val hi, List.get_ofFn]
  congr 1

/-- Index into chunk `i` of `chunks n f` (followed by an arbitrary
tail). -/
theorem chunks_getD {n L : Nat} (f : Fin n → List Nat)
    (h : ∀ i, (f i).length = L) (rest : List Nat) (i : Fin n)
    (j d : Nat) (hj : j < L) :
    (chunks n f ++ rest).getD (L * i.val + j) d = (f i).getD j d := by
  have he := chunks_extract f h rest i
  have : (f i).getD j d = (((chunks n f ++ rest).drop (L * i.val)).take L).getD j d := by
    rw [he]
  rw [this, List.getD_eq_getD_get?, List.getD_eq_getD_get?]
  congr 1
  rw [List.get?_eq_getElem?, List.get?_eq_getElem?, List.getElem?_take_of_lt hj,
    List.getElem?_drop]

/-- The length of a uniform-width chunk concatenation. -/
theorem chunks_length {n L : Nat} (f : Fin n → List Nat)
    (h : ∀ i, (f i).length = L) : (chunks n f).length = n * L := by
  unfold chunks
  rw [List.length_flatten]
  have : (List.ofFn f).map List.length = List.ofFn (fun i => (f i).length) := by
    rw [List.map_ofFn]
    rfl
  rw [this]
  have : (List.ofFn fun i => (f i).length) = List.ofFn (fun _ : Fin n => L) := by
    congr 1
    funext i
    exact h i
  rw [this, List.ofFn_const, List.sum_replicate, smul_eq_mul]

/-- Length of an `Option`-dispatched chunk whose branches both have width
`L`. -/
theorem optChunk_length {α : Type} (o : Option α) (f : α → List Nat)
    (z : List Nat) (L : Nat) (hf : ∀ a, (f a).length = L) (hz : z.length = L) :
    (match o with | some a => f a | none => z).length = L := by
  cases o with
  | none => exact hz
  | some a => exact hf a

/-- Bit `k` of the or-accumulating fold that builds a packed allocation
byte: set iff it was already set in the accumulator, or `k` occurs in the
remaining index list and the corresponding entity is present. -/
theorem foldl_orBits_testBit (p : Nat → Bool) (base : Nat) :
    ∀ (L : List Nat) (acc : Nat) (k : Nat),
      (L.foldl (fun acc k2 => if p (base + k2) then acc ||| (1 <<< k2) else acc) acc).testBit k
      = (acc.testBit k || (L.contains k && p (base + k))) := by
  intro L
  induction L with
  | nil => intro acc k; simp
  | cons a t ih =>
    intro acc k
    simp only [List.foldl_cons]
    rw [ih]
    have hshift : (1 <<< a : Nat) = 2 ^ a := by
      rw [Nat.shiftLeft_eq, Nat.one_mul]
    by_cases hp : p (base + a) = true
    · rw [if_pos hp]
      by_cases hak : a = k
      · subst hak
        simp [Nat.testBit_or, hshift, Nat.testBit_two_pow, hp]
      · have hka : ¬ k = a := fun hh => hak hh.symm
        simp [Nat.testBit_or, hshift, Nat.testBit_two_pow, hak, hp, hka]
    · rw [if_neg hp]
      have hp2 : p (base + a) = false := by simpa using hp
      by_cases hak : a = k
      · subst hak
        simp [hp2]
      · have hka : ¬ k = a := fun hh => hak hh.symm
        simp [hka]

/-- Bit `k < 8` of a packed allocation byte is exactly the presence flag
of entity `8 * j + k`. -/
theorem packedAllocByte_testBit (p : Nat → Bool) (j k : Nat) (hk : k < 8) :
    (packedAllocByte p j).testBit k = p (8 * j + k) := by
  unfold packedAllocByte
  rw [foldl_orBits_testBit p (8 * j) (List.range 8) 0 k]
  have hc : (List.range 8).contains k = true := by
    simpa using List.mem_range.mpr hk
  simp [hc, hk]

/-- The reader's shift-and-mask bit extraction computes `Nat.testBit`. -/
theorem bitRead_eq_testBit (x k : Nat) : ((x >>> k) &&& 1 == 1) = x.testBit k := by
  have hsr : x >>> k = x / 2 ^ k := Nat.shiftRight_eq_div_pow x k
  rcases Nat.mod_two_eq_zero_or_one (x / 2 ^ k) with h | h <;>
    simp [Nat.and_one_is_mod, Nat.testBit_to_div_mod, hsr, h]

/-! ## Chunk and bank lengths -/

theorem phraseNotesChunk_length (s : LsdjSong) :
    ∀ i, (phraseNotesChunk s i).length = 16 := by
  intro i; unfold phraseNotesChunk; cases s.phrases i <;> simp [LENGTH_ZERO]

theorem tableVolumesChunk_length (s : LsdjSong) :
    ∀ i, (tableVolumesChunk s i).length = 16 := by
  intro i; unfold tableVolumesChunk; cases s.tables i <;> simp [LENGTH_ZERO]

theorem wordChunk_length (s : LsdjSong) :
    ∀ i, (wordChunk s i).length = 32 := by
  intro i; unfold wordChunk; simp

theorem instrNameChunk_length (s : LsdjSong) :
    ∀ i, (instrNameChunk s i).length = 5 := by
  intro i; unfold instrNameChunk
  cases s.instruments i <;> simp [EMPTY_INSTRUMENT_NAME]

theorem chainPhrasesChunk_length (s : LsdjSong) :
    ∀ i, (chainPhrasesChunk s i).length = 16 := by
  intro i; unfold chainPhrasesChunk; cases s.chains i <;> simp [LENGTH_FF]

theorem chainTranspositionsChunk_length (s : LsdjSong) :
    ∀ i, (chainTranspositionsChunk s i).length = 16 := by
  intro i; unfold chainTranspositionsChunk
  cases s.chains i <;> simp [LENGTH_ZERO]

theorem instrumentPayloadChunk_length (s : LsdjSong) :
    ∀ i, (instrumentPayloadChunk s i).length = 16 := by
  intro i; unfold instrumentPayloadChunk
  cases s.instruments i <;> simp [LSDJ_DEFAULT_INSTRUMENT]

theorem tableTranspositionsChunk_length (s : LsdjSong) :
    ∀ i, (tableTranspositionsChunk s i).length = 16 := by
  intro i; unfold tableTranspositionsChunk
  cases s.tables i <;> simp [LENGTH_ZERO]

theorem tableCommands1Chunk_length (s : LsdjSong) :
    ∀ i, (tableCommands1Chunk s i).length = 16 := by
  intro i; unfold tableCommands1Chunk; cases s.tables i <;> simp [LENGTH_ZERO]

theorem tableValues1Chunk_length (s : LsdjSong) :
    ∀ i, (tableValues1Chunk s i).length = 16 := by
  intro i; unfold tableValues1Chunk; cases s.tables i <;> simp [LENGTH_ZERO]

theorem tableCommands2Chunk_length (s : LsdjSong) :
    ∀ i, (tableCommands2Chunk s i).length = 16 := by
  intro i; unfold tableCommands2Chunk; cases s.tables i <;> simp [LENGTH_ZERO]

theorem tableValues2Chunk_length (s : LsdjSong) :
    ∀ i, (tableValues2Chunk s i).length = 16 := by
  intro i; unfold tableValues2Chunk; cases s.tables i <;> simp [LENGTH_ZERO]

theorem synthChunk_length (s : LsdjSong) :
    ∀ i, (synthChunk s i).length = 16 := by
  intro i; unfold synthChunk; simp

theorem phraseCommandsChunk_length (s : LsdjSong) :
    ∀ i, (phraseCommandsChunk s i).length = 16 := by
  intro i; unfold phraseCommandsChunk; cases s.phrases i <;> simp [LENGTH_ZERO]

theorem phraseValuesChunk_length (s : LsdjSong) :
    ∀ i, (phraseValuesChunk s i).length = 16 := by
  intro i; unfold phraseValuesChunk; cases s.phrases i <;> simp [LENGTH_ZERO]

theorem phraseInstrumentsChunk_length (s : LsdjSong) :
    ∀ i, (phraseInstrumentsChunk s i).length = 16 := by
  intro i; unfold phraseInstrumentsChunk; cases s.phrases i <;> simp [LENGTH_FF]

theorem write_bank0_length (s : LsdjSong) : (write_bank0 s).length = 8192 := by
  have h1 := @chunks_length 255 16 (phraseNotesChunk s) (phraseNotesChunk_length s)
  have h2 := @chunks_length 32 16 (tableVolumesChunk s) (tableVolumesChunk_length s)
  have h3 := @chunks_length 42 32 (wordChunk s) (wordChunk_length s)
  have h4 := @chunks_length 64 5 (instrNameChunk s) (instrNameChunk_length s)
  unfold write_bank0
  simp only [List.length_append, List.length_ofFn, List.length_cons, List.length_nil,
    h1, h2, h3, h4]

theorem write_bank1_length (s : LsdjSong) : (write_bank1 s).length = 8192 := by
  have h1 := @chunks_length 128 16 (chainPhrasesChunk s) (chainPhrasesChunk_length s)
  have h2 := @chunks_length 128 16 (chainTranspositionsChunk s)
    (chainTranspositionsChunk_length s)
  have h3 := @chunks_length 64 16 (instrumentPayloadChunk s)
    (instrumentPayloadChunk_length s)
  have h4 := @chunks_length 32 16 (tableTranspositionsChunk s)
    (tableTranspositionsChunk_length s)
  have h5 := @chunks_length 32 16 (tableCommands1Chunk s) (tableCommands1Chunk_length s)
  have h6 := @chunks_length 32 16 (tableValues1Chunk s) (tableValues1Chunk_length s)
  have h7 := @chunks_length 32 16 (tableCommands2Chunk s) (tableCommands2Chunk_length s)
  have h8 := @chunks_length 32 16 (tableValues2Chunk s) (tableValues2Chunk_length s)
  have h9 := @chunks_length 16 16 (synthChunk s) (synthChunk_length s)
  unfold write_bank1
  simp only [List.length_append, List.length_ofFn, List.length_cons, List.length_nil,
    h1, h2, h3, h4, h5, h6, h7, h8, h9]

theorem write_bank2_length (s : LsdjSong) : (write_bank2 s).length = 8192 := by
  have h1 := @chunks_length 255 16 (phraseCommandsChunk s) (phraseCommandsChunk_length s)
  have h2 := @chunks_length 255 16 (phraseValuesChunk s) (phraseValuesChunk_length s)
  unfold write_bank2
  simp only [List.length_append, List.length_ofFn, List.length_cons, List.length_nil,
    h1, h2]

theorem write_bank3_length (s : LsdjSong) : (write_bank3 s).length = 8192 := by
  have h1 := @chunks_length 255 16 (phraseInstrumentsChunk s)
    (phraseInstrumentsChunk_length s)
  unfold write_bank3
  simp only [List.length_append, List.length_ofFn, List.length_cons, List.length_nil,
    h1]

theorem lsdj_write_song_length (s : LsdjSong) :
    (lsdj_write_song s).length = 32768 := by
  unfold lsdj_write_song
  simp [write_bank0_length, write_bank1_length, write_bank2_length, write_bank3_length]

/-! ## Byte access into the written song image -/

theorem phraseNotes_chunks_length (s : LsdjSong) :
    (chunks 255 (phraseNotesChunk s)).length = 4080 :=
  @chunks_length 255 16 (phraseNotesChunk s) (phraseNotesChunk_length s)

theorem tableVolumes_chunks_length (s : LsdjSong) :
    (chunks 32 (tableVolumesChunk s)).length = 512 :=
  @chunks_length 32 16 (tableVolumesChunk s) (tableVolumesChunk_length s)

theorem word_chunks_length (s : LsdjSong) :
    (chunks 42 (wordChunk s)).length = 1344 :=
  @chunks_length 42 32 (wordChunk s) (wordChunk_length s)

theorem instrName_chunks_length (s : LsdjSong) :
    (chunks 64 (instrNameChunk s)).length = 320 :=
  @chunks_length 64 5 (instrNameChunk s) (instrNameChunk_length s)

theorem chainPhrases_chunks_length (s : LsdjSong) :
    (chunks 128 (chainPhrasesChunk s)).length = 2048 :=
  @chunks_length 128 16 (chainPhrasesChunk s) (chainPhrasesChunk_length s)

theorem chainTranspositions_chunks_length (s : LsdjSong) :
    (chunks 128 (chainTranspositionsChunk s)).length = 2048 :=
  @chunks_length 128 16 (chainTranspositionsChunk s) (chainTranspositionsChunk_length s)

theorem instrumentPayload_chunks_length (s : LsdjSong) :
    (chunks 64 (instrumentPayloadChunk s)).length = 1024 :=
  @chunks_length 64 16 (instrumentPayloadChunk s) (instrumentPayloadChunk_length s)

theorem tableTranspositions_chunks_length (s : LsdjSong) :
    (chunks 32 (tableTranspositionsChunk s)).length = 512 :=
  @chunks_length 32 16 (tableTranspositionsChunk s) (tableTranspositionsChunk_length s)

theorem tableCommands1_chunks_length (s : LsdjSong) :
    (chunks 32 (tableCommands1Chunk s)).length = 512 :=
  @chunks_length 32 16 (tableCommands1Chunk s) (tableCommands1Chunk_length s)

theorem tableValues1_chunks_length (s : LsdjSong) :
    (chunks 32 (tableValues1Chunk s)).length = 512 :=
  @chunks_length 32 16 (tableValues1Chunk s) (tableValues1Chunk_length s)

theorem tableCommands2_chunks_length (s : LsdjSong) :
    (chunks 32 (tableCommands2Chunk s)).length = 512 :=
  @chunks_length 32 16 (tableCommands2Chunk s) (tableCommands2Chunk_length s)

theorem tableValues2_chunks_length (s : LsdjSong) :
    (chunks 32 (tableValues2Chunk s)).length = 512 :=
  @chunks_length 32 16 (tableValues2Chunk s) (tableValues2Chunk_length s)

theorem synth_chunks_length (s : LsdjSong) :
    (chunks 16 (synthChunk s)).length = 256 :=
  @chunks_length 16 16 (synthChunk s) (synthChunk_length s)

theorem phraseCommands_chunks_length (s : LsdjSong) :
    (chunks 255 (phraseCommandsChunk s)).length = 4080 :=
  @chunks_length 255 16 (phraseCommandsChunk s) (phraseCommandsChunk_length s)

theorem phraseValues_chunks_length (s : LsdjSong) :
    (chunks 255 (phraseValuesChunk s)).length = 4080 :=
  @chunks_length 255 16 (phraseValuesChunk s) (phraseValuesChunk_length s)

theorem phraseInstruments_chunks_length (s : LsdjSong) :
    (chunks 255 (phraseInstrumentsChunk s)).length = 4080 :=
  @chunks_length 255 16 (phraseInstrumentsChunk s) (phraseInstrumentsChunk_length s)

theorem ws_phraseNotes (s : LsdjSong) (i : Fin 255) (j : Nat) (hj : j < 16) :
    byteAt (lsdj_write_song s) (16 * i.val + j) =
    (phraseNotesChunk s i).getD j 0 := by
  unfold byteAt lsdj_write_song write_bank0
  simp only [List.append_assoc]
  exact chunks_getD (phraseNotesChunk s) (phraseNotesChunk_length s) _ i j 0 hj

theorem ws_bookmarks (s : LsdjSong) (m : Nat) (hm : m < 64) :
    byteAt (lsdj_write_song s) (0xff0 + m) = s.bookmarks ⟨m, hm⟩ := by
  unfold byteAt lsdj_write_song write_bank0
  simp only [List.append_assoc]
  rw [show 0xff0 + m = 4080 + (m) from by omega]
  rw [getD_chop (phraseNotes_chunks_length s)]
  rw [getD_keep (List.length_ofFn s.bookmarks) _ hm]
  exact getD_ofFn s.bookmarks m hm 0

theorem ws_r1030 (s : LsdjSong) (m : Nat) (hm : m < 96) :
    byteAt (lsdj_write_song s) (0x1030 + m) = s.reserved1030 ⟨m, hm⟩ := by
  unfold byteAt lsdj_write_song write_bank0
  simp only [List.append_assoc]
  rw [show 0x1030 + m = 4080 + (64 + (m)) from by omega]
  rw [getD_chop (phraseNotes_chunks_length s), getD_chop (List.length_ofFn s.bookmarks)]
  rw [getD_keep (List.length_ofFn s.reserved1030) _ hm]
  exact getD_ofFn s.reserved1030 m hm 0

theorem ws_grooves (s : LsdjSong) (m : Nat) (hm : m < 512) :
    byteAt (lsdj_write_song s) (0x1090 + m) = s.grooves ⟨m, hm⟩ := by
  unfold byteAt lsdj_write_song write_bank0
  simp only [List.append_assoc]
  rw [show 0x1090 + m = 4080 + (64 + (96 + (m))) from by omega]
  rw [getD_chop (phraseNotes_chunks_length s), getD_chop (List.length_ofFn s.bookmarks), getD_chop (List.length_ofFn s.reserved1030)]
  rw [getD_keep (List.length_ofFn s.grooves) _ hm]
  exact getD_ofFn s.grooves m hm 0

theorem ws_rows (s : LsdjSong) (m : Nat) (hm : m < 1024) :
    byteAt (lsdj_write_song s) (0x1290 + m) = s.rows ⟨m, hm⟩ := by
  unfold byteAt lsdj_write_song write_bank0
  simp only [List.append_assoc]
  rw [show 0x1290 + m = 4080 + (64 + (96 + (512 + (m)))) from by omega]
  rw [getD_chop (phraseNotes_chunks_length s), getD_chop (List.length_ofFn s.bookmarks), getD_chop (List.length_ofFn s.reserved1030), getD_chop (List.length_ofFn s.grooves)]
  rw [getD_keep (List.length_ofFn s.rows) _ hm]
  exact getD_ofFn s.rows m hm 0

theorem ws_tableVolumes (s : LsdjSong) (i : Fin 32) (j : Nat) (hj : j < 16) :
    byteAt (lsdj_write_song s) (0x1690 + (16 * i.val + j)) =
    (tableVolumesChunk s i).getD j 0 := by
  unfold byteAt lsdj_write_song write_bank0
  simp only [List.append_assoc]
  rw [show 0x1690 + (16 * i.val + j) = 4080 + (64 + (96 + (512 + (1024 + (16 * i.val + j))))) from by omega]
  rw [getD_chop (phraseNotes_chunks_length s), getD_chop (List.length_ofFn s.bookmarks), getD_chop (List.length_ofFn s.reserved1030), getD_chop (List.length_ofFn s.grooves), getD_chop (List.length_ofFn s.rows)]
  exact chunks_getD (tableVolumesChunk s) (tableVolumesChunk_length s) _ i j 0 hj

theorem ws_words (s : LsdjSong) (i : Fin 42) (j : Nat) (hj : j < 32) :
    byteAt (lsdj_write_song s) (0x1890 + (32 * i.val + j)) =
    (wordChunk s i).getD j 0 := by
  unfold byteAt lsdj_write_song write_bank0
  simp only [List.append_assoc]
  rw [show 0x1890 + (32 * i.val + j) = 4080 + (64 + (96 + (512 + (1024 + (512 + (32 * i.val + j)))))) from by omega]
  rw [getD_chop (phraseNotes_chunks_length s), getD_chop (List.length_ofFn s.bookmarks), getD_chop (List.length_ofFn s.reserved1030), getD_chop (List.length_ofFn s.grooves), getD_chop (List.length_ofFn s.rows), getD_chop (tableVolumes_chunks_length s)]
  exact chunks_getD (wordChunk s) (wordChunk_length s) _ i j 0 hj

theorem ws_wordNames (s : LsdjSong) (m : Nat) (hm : m < 168) :
    byteAt (lsdj_write_song s) (0x1dd0 + m) = s.wordNames ⟨m, hm⟩ := by
  unfold byteAt lsdj_write_song write_bank0
  simp only [List.append_assoc]
  rw [show 0x1dd0 + m = 4080 + (64 + (96 + (512 + (1024 + (512 + (1344 + (m))))))) from by omega]
  rw [getD_chop (phraseNotes_chunks_length s), getD_chop (List.length_ofFn s.bookmarks), getD_chop (List.length_ofFn s.reserved1030), getD_chop (List.length_ofFn s.grooves), getD_chop (List.length_ofFn s.rows), getD_chop (tableVolumes_chunks_length s), getD_chop (word_chunks_length s)]
  rw [getD_keep (List.length_ofFn s.wordNames) _ hm]
  exact getD_ofFn s.wordNames m hm 0

theorem ws_rb0 (s : LsdjSong) (m : Nat) (hm : m < 2) :
    byteAt (lsdj_write_song s) (0x1e78 + m) = ([114, 98] : List Nat).getD m 0 := by
  unfold byteAt lsdj_write_song write_bank0
  simp only [List.append_assoc]
  rw [show 0x1e78 + m = 4080 + (64 + (96 + (512 + (1024 + (512 + (1344 + (168 + (m)))))))) from by omega]
  rw [getD_chop (phraseNotes_chunks_length s), getD_chop (List.length_ofFn s.bookmarks), getD_chop (List.length_ofFn s.reserved1030), getD_chop (List.length_ofFn s.grooves), getD_chop (List.length_ofFn s.rows), getD_chop (tableVolumes_chunks_length s), getD_chop (word_chunks_length s), getD_chop (List.length_ofFn s.wordNames)]
  rw [getD_keep (show ([114, 98] : List Nat).length = 2 from rfl) _ hm]

theorem ws_instrNames (s : LsdjSong) (i : Fin 64) (j : Nat) (hj : j < 5) :
    byteAt (lsdj_write_song s) (0x1e7a + (5 * i.val + j)) =
    (instrNameChunk s i).getD j 0 := by
  unfold byteAt lsdj_write_song write_bank0
  simp only [List.append_assoc]
  rw [show 0x1e7a + (5 * i.val + j) = 4080 + (64 + (96 + (512 + (1024 + (512 + (1344 + (168 + (2 + (5 * i.val + j))))))))) from by omega]
  rw [getD_chop (phraseNotes_chunks_length s), getD_chop (List.length_ofFn s.bookmarks), getD_chop (List.length_ofFn s.reserved1030), getD_chop (List.length_ofFn s.grooves), getD_chop (List.length_ofFn s.rows), getD_chop (tableVolumes_chunks_length s), getD_chop (word_chunks_length s), getD_chop (List.length_ofFn s.wordNames), getD_chop (show ([114, 98] : List Nat).length = 2 from rfl)]
  exact chunks_getD (instrNameChunk s) (instrNameChunk_length s) _ i j 0 hj

theorem ws_r1fba (s : LsdjSong) (m : Nat) (hm : m < 70) :
    byteAt (lsdj_write_song s) (0x1fba + m) = s.reserved1fba ⟨m, hm⟩ := by
  unfold byteAt lsdj_write_song write_bank0
  simp only [List.append_assoc]
  rw [show 0x1fba + m = 4080 + (64 + (96 + (512 + (1024 + (512 + (1344 + (168 + (2 + (320 + (m)))))))))) from by omega]
  rw [getD_chop (phraseNotes_chunks_length s), getD_chop (List.length_ofFn s.bookmarks), getD_chop (List.length_ofFn s.reserved1030), getD_chop (List.length_ofFn s.grooves), getD_chop (List.length_ofFn s.rows), getD_chop (tableVolumes_chunks_length s), getD_chop (word_chunks_length s), getD_chop (List.length_ofFn s.wordNames), getD_chop (show ([114, 98] : List Nat).length = 2 from rfl), getD_chop (instrName_chunks_length s)]
  rw [getD_keep (List.length_ofFn s.reserved1fba) _ hm]
  exact getD_ofFn s.reserved1fba m hm 0

theorem ws_r2000 (s : LsdjSong) (m : Nat) (hm : m < 32) :
    byteAt (lsdj_write_song s) (0x2000 + m) = s.reserved2000 ⟨m, hm⟩ := by
  unfold byteAt lsdj_write_song write_bank1
  simp only [List.append_assoc]
  rw [show 0x2000 + m = 8192 + (m) from by omega]
  rw [getD_chop (write_bank0_length s)]
  rw [getD_keep (List.length_ofFn s.reserved2000) _ hm]
  exact getD_ofFn s.reserved2000 m hm 0

theorem ws_tableAlloc (s : LsdjSong) (m : Nat) (hm : m < 32) :
    byteAt (lsdj_write_song s) (0x2020 + m) = (List.ofFn (fun i : Fin 32 => if (s.tables i).isSome then 1 else 0)).getD m 0 := by
  unfold byteAt lsdj_write_song write_bank1
  simp only [List.append_assoc]
  rw [show 0x2020 + m = 8192 + (32 + (m)) from by omega]
  rw [getD_chop (write_bank0_length s), getD_chop (List.length_ofFn s.reserved2000)]
  rw [getD_keep (List.length_ofFn (fun i : Fin 32 => if (s.tables i).isSome then 1 else 0)) _ hm]

theorem ws_instrAlloc (s : LsdjSong) (m : Nat) (hm : m < 64) :
    byteAt (lsdj_write_song s) (0x2040 + m) = (List.ofFn (fun i : Fin 64 => if (s.instruments i).isSome then 1 else 0)).getD m 0 := by
  unfold byteAt lsdj_write_song write_bank1
  simp only [List.append_assoc]
  rw [show 0x2040 + m = 8192 + (32 + (32 + (m))) from by omega]
  rw [getD_chop (write_bank0_length s), getD_chop (List.length_ofFn s.reserved2000), getD_chop (List.length_ofFn (fun i : Fin 32 => if (s.tables i).isSome then 1 else 0))]
  rw [getD_keep (List.length_ofFn (fun i : Fin 64 => if (s.instruments i).isSome then 1 else 0)) _ hm]

theorem ws_chainPhrases (s : LsdjSong) (i : Fin 128) (j : Nat) (hj : j < 16) :
    byteAt (lsdj_write_song s) (0x2080 + (16 * i.val + j)) =
    (chainPhrasesChunk s i).getD j 0 := by
  unfold byteAt lsdj_write_song write_bank1
  simp only [List.append_assoc]
  rw [show 0x2080 + (16 * i.val + j) = 8192 + (32 + (32 + (64 + (16 * i.val + j)))) from by omega]
  rw [getD_chop (write_bank0_length s), getD_chop (List.length_ofFn s.reserved2000), getD_chop (List.length_ofFn (fun i : Fin 32 => if (s.tables i).isSome then 1 else 0)), getD_chop (List.length_ofFn (fun i : Fin 64 => if (s.instruments i).isSome then 1 else 0))]
  exact chunks_getD (chainPhrasesChunk s) (chainPhrasesChunk_length s) _ i j 0 hj

theorem ws_chainTranspositions (s : LsdjSong) (i : Fin 128) (j : Nat) (hj : j < 16) :
    byteAt (lsdj_write_song s) (0x2880 + (16 * i.val + j)) =
    (chainTranspositionsChunk s i).getD j 0 := by
  unfold byteAt lsdj_write_song write_bank1
  simp only [List.append_assoc]
  rw [show 0x2880 + (16 * i.val + j) = 8192 + (32 + (32 + (64 + (2048 + (16 * i.val + j))))) from by omega]
  rw [getD_chop (write_bank0_length s), getD_chop (List.length_ofFn s.reserved2000), getD_chop (List.length_ofFn (fun i : Fin 32 => if (s.tables i).isSome then 1 else 0)), getD_chop (List.length_ofFn (fun i : Fin 64 => if (s.instruments i).isSome then 1 else 0)), getD_chop (chainPhrases_chunks_length s)]
  exact chunks_getD (chainTranspositionsChunk s) (chainTranspositionsChunk_length s) _ i j 0 hj

theorem ws_instrPayload (s : LsdjSong) (i : Fin 64) (j : Nat) (hj : j < 16) :
    byteAt (lsdj_write_song s) (0x3080 + (16 * i.val + j)) =
    (instrumentPayloadChunk s i).getD j 0 := by
  unfold byteAt lsdj_write_song write_bank1
  simp only [List.append_assoc]
  rw [show 0x3080 + (16 * i.val + j) = 8192 + (32 + (32 + (64 + (2048 + (2048 + (16 * i.val + j)))))) from by omega]
  rw [getD_chop (write_bank0_length s), getD_chop (List.length_ofFn s.reserved2000), getD_chop (List.length_ofFn (fun i : Fin 32 => if (s.tables i).isSome then 1 else 0)), getD_chop (List.length_ofFn (fun i : Fin 64 => if (s.instruments i).isSome then 1 else 0)), getD_chop (chainPhrases_chunks_length s), getD_chop (chainTranspositions_chunks_length s)]
  exact chunks_getD (instrumentPayloadChunk s) (instrumentPayloadChunk_length s) _ i j 0 hj

theorem ws_tableTranspositions (s : LsdjSong) (i : Fin 32) (j : Nat) (hj : j < 16) :
    byteAt (lsdj_write_song s) (0x3480 + (16 * i.val + j)) =
    (tableTranspositionsChunk s i).getD j 0 := by
  unfold byteAt lsdj_write_song write_bank1
  simp only [List.append_assoc]
  rw [show 0x3480 + (16 * i.val + j) = 8192 + (32 + (32 + (64 + (2048 + (2048 + (1024 + (16 * i.val + j))))))) from by omega]
  rw [getD_chop (write_bank0_length s), getD_chop (List.length_ofFn s.reserved2000), getD_chop (List.length_ofFn (fun i : Fin 32 => if (s.tables i).isSome then 1 else 0)), getD_chop (List.length_ofFn (fun i : Fin 64 => if (s.instruments i).isSome then 1 else 0)), getD_chop (chainPhrases_chunks_length s), getD_chop (chainTranspositions_chunks_length s), getD_chop (instrumentPayload_chunks_length s)]
  exact chunks_getD (tableTranspositionsChunk s) (tableTranspositionsChunk_length s) _ i j 0 hj

theorem ws_tableCommands1 (s : LsdjSong) (i : Fin 32) (j : Nat) (hj : j < 16) :
    byteAt (lsdj_write_song s) (0x3680 + (16 * i.val + j)) =
    (tableCommands1Chunk s i).getD j 0 := by
  unfold byteAt lsdj_write_song write_bank1
  simp only [List.append_assoc]
  rw [show 0x3680 + (16 * i.val + j) = 8192 + (32 + (32 + (64 + (2048 + (2048 + (1024 + (512 + (16 * i.val + j)))))))) from by omega]
  rw [getD_chop (write_bank0_length s), getD_chop (List.length_ofFn s.reserved2000), getD_chop (List.length_ofFn (fun i : Fin 32 => if (s.tables i).isSome then 1 else 0)), getD_chop (List.length_ofFn (fun i : Fin 64 => if (s.instruments i).isSome then 1 else 0)), getD_chop (chainPhrases_chunks_length s), getD_chop (chainTranspositions_chunks_length s), getD_chop (instrumentPayload_chunks_length s), getD_chop (tableTranspositions_chunks_length s)]
  exact chunks_getD (tableCommands1Chunk s) (tableCommands1Chunk_length s) _ i j 0 hj

theorem ws_tableValues1 (s : LsdjSong) (i : Fin 32) (j : Nat) (hj : j < 16) :
    byteAt (lsdj_write_song s) (0x3880 + (16 * i.val + j)) =
    (tableValues1Chunk s i).getD j 0 := by
  unfold byteAt lsdj_write_song write_bank1
  simp only [List.append_assoc]
  rw [show 0x3880 + (16 * i.val + j) = 8192 + (32 + (32 + (64 + (2048 + (2048 + (1024 + (512 + (512 + (16 * i.val + j))))))))) from by omega]
  rw [getD_chop (write_bank0_length s), getD_chop (List.length_ofFn s.reserved2000), getD_chop (List.length_ofFn (fun i : Fin 32 => if (s.tables i).isSome then 1 else 0)), getD_chop (List.length_ofFn (fun i : Fin 64 => if (s.instruments i).isSome then 1 else 0)), getD_chop (chainPhrases_chunks_length s), getD_chop (chainTranspositions_chunks_length s), getD_chop (instrumentPayload_chunks_length s), getD_chop (tableTranspositions_chunks_length s), getD_chop (tableCommands1_chunks_length s)]
  exact chunks_getD (tableValues1Chunk s) (tableValues1Chunk_length s) _ i j 0 hj

theorem ws_tableCommands2 (s : LsdjSong) (i : Fin 32) (j : Nat) (hj : j < 16) :
    byteAt (lsdj_write_song s) (0x3a80 + (16 * i.val + j)) =
    (tableCommands2Chunk s i).getD j 0 := by
  unfold byteAt lsdj_write_song write_bank1
  simp only [List.append_assoc]
  rw [show 0x3a80 + (16 * i.val + j) = 8192 + (32 + (32 + (64 + (2048 + (2048 + (1024 + (512 + (512 + (512 + (16 * i.val + j)))))))))) from by omega]
  rw [getD_chop (write_bank0_length s), getD_chop (List.length_ofFn s.reserved2000), getD_chop (List.length_ofFn (fun i : Fin 32 => if (s.tables i).isSome then 1 else 0)), getD_chop (List.length_ofFn (fun i : Fin 64 => if (s.instruments i).isSome then 1 else 0)), getD_chop (chainPhrases_chunks_length s), getD_chop (chainTranspositions_chunks_length s), getD_chop (instrumentPayload_chunks_length s), getD_chop (tableTranspositions_chunks_length s), getD_chop (tableCommands1_chunks_length s), getD_chop (tableValues1_chunks_length s)]
  exact chunks_getD (tableCommands2Chunk s) (tableCommands2Chunk_length s) _ i j 0 hj

theorem ws_tableValues2 (s : LsdjSong) (i : Fin 32) (j : Nat) (hj : j < 16) :
    byteAt (lsdj_write_song s) (0x3c80 + (16 * i.val + j)) =
    (tableValues2Chunk s i).getD j 0 := by
  unfold byteAt lsdj_write_song write_bank1
  simp only [List.append_assoc]
  rw [show 0x3c80 + (16 * i.val + j) = 8192 + (32 + (32 + (64 + (2048 + (2048 + (1024 + (512 + (512 + (512 + (512 + (16 * i.val + j))))))))))) from by omega]
  rw [getD_chop (write_bank0_length s), getD_chop (List.length_ofFn s.reserved2000), getD_chop (List.length_ofFn (fun i : Fin 32 => if (s.tables i).isSome then 1 else 0)), getD_chop (List.length_ofFn (fun i : Fin 64 => if (s.instruments i).isSome then 1 else 0)), getD_chop (chainPhrases_chunks_length s), getD_chop (chainTranspositions_chunks_length s), getD_chop (instrumentPayload_chunks_length s), getD_chop (tableTranspositions_chunks_length s), getD_chop (tableCommands1_chunks_length s), getD_chop (tableValues1_chunks_length s), getD_chop (tableCommands2_chunks_length s)]
  exact chunks_getD (tableValues2Chunk s) (tableValues2Chunk_length s) _ i j 0 hj

theorem ws_rb1 (s : LsdjSong) (m : Nat) (hm : m < 2) :
    byteAt (lsdj_write_song s) (0x3e80 + m) = ([114, 98] : List Nat).getD m 0 := by
  unfold byteAt lsdj_write_song write_bank1
  simp only [List.append_assoc]
  rw [show 0x3e80 + m = 8192 + (32 + (32 + (64 + (2048 + (2048 + (1024 + (512 + (512 + (512 + (512 + (512 + (m)))))))))))) from by omega]
  rw [getD_chop (write_bank0_length s), getD_chop (List.length_ofFn s.reserved2000), getD_chop (List.length_ofFn (fun i : Fin 32 => if (s.tables i).isSome then 1 else 0)), getD_chop (List.length_ofFn (fun i : Fin 64 => if (s.instruments i).isSome then 1 else 0)), getD_chop (chainPhrases_chunks_length s), getD_chop (chainTranspositions_chunks_length s), getD_chop (instrumentPayload_chunks_length s), getD_chop (tableTranspositions_chunks_length s), getD_chop (tableCommands1_chunks_length s), getD_chop (tableValues1_chunks_length s), getD_chop (tableCommands2_chunks_length s), getD_chop (tableValues2_chunks_length s)]
  rw [getD_keep (show ([114, 98] : List Nat).length = 2 from rfl) _ hm]

theorem ws_phraseAllocBytes (s : LsdjSong) (m : Nat) (hm : m < 32) :
    byteAt (lsdj_write_song s) (0x3e82 + m) = (List.ofFn (fun j : Fin 32 => packedAllocByte (phrasePresent s) j)).getD m 0 := by
  unfold byteAt lsdj_write_song write_bank1
  simp only [List.append_assoc]
  rw [show 0x3e82 + m = 8192 + (32 + (32 + (64 + (2048 + (2048 + (1024 + (512 + (512 + (512 + (512 + (512 + (2 + (m))))))))))))) from by omega]
  rw [getD_chop (write_bank0_length s), getD_chop (List.length_ofFn s.reserved2000), getD_chop (List.length_ofFn (fun i : Fin 32 => if (s.tables i).isSome then 1 else 0)), getD_chop (List.length_ofFn (fun i : Fin 64 => if (s.instruments i).isSome then 1 else 0)), getD_chop (chainPhrases_chunks_length s), getD_chop (chainTranspositions_chunks_length s), getD_chop (instrumentPayload_chunks_length s), getD_chop (tableTranspositions_chunks_length s), getD_chop (tableCommands1_chunks_length s), getD_chop (tableValues1_chunks_length s), getD_chop (tableCommands2_chunks_length s), getD_chop (tableValues2_chunks_length s), getD_chop (show ([114, 98] : List Nat).length = 2 from rfl)]
  rw [getD_keep (List.length_ofFn (fun j : Fin 32 => packedAllocByte (phrasePresent s) j)) _ hm]

theorem ws_chainAllocBytes (s : LsdjSong) (m : Nat) (hm : m < 16) :
    byteAt (lsdj_write_song s) (0x3ea2 + m) = (List.ofFn (fun j : Fin 16 => packedAllocByte (chainPresent s) j)).getD m 0 := by
  unfold byteAt lsdj_write_song write_bank1
  simp only [List.append_assoc]
  rw [show 0x3ea2 + m = 8192 + (32 + (32 + (64 + (2048 + (2048 + (1024 + (512 + (512 + (512 + (512 + (512 + (2 + (32 + (m)))))))))))))) from by omega]
  rw [getD_chop (write_bank0_length s), getD_chop (List.length_ofFn s.reserved2000), getD_chop (List.length_ofFn (fun i : Fin 32 => if (s.tables i).isSome then 1 else 0)), getD_chop (List.length_ofFn (fun i : Fin 64 => if (s.instruments i).isSome then 1 else 0)), getD_chop (chainPhrases_chunks_length s), getD_chop (chainTranspositions_chunks_length s), getD_chop (instrumentPayload_chunks_length s), getD_chop (tableTranspositions_chunks_length s), getD_chop (tableCommands1_chunks_length s), getD_chop (tableValues1_chunks_length s), getD_chop (tableCommands2_chunks_length s), getD_chop (tableValues2_chunks_length s), getD_chop (show ([114, 98] : List Nat).length = 2 from rfl), getD_chop (List.length_ofFn (fun j : Fin 32 => packedAllocByte (phrasePresent s) j))]
  rw [getD_keep (List.length_ofFn (fun j : Fin 16 => packedAllocByte (chainPresent s) j)) _ hm]

theorem ws_synths (s : LsdjSong) (i : Fin 16) (j : Nat) (hj : j < 16) :
    byteAt (lsdj_write_song s) (0x3eb2 + (16 * i.val + j)) =
    (synthChunk s i).getD j 0 := by
  unfold byteAt lsdj_write_song write_bank1
  simp only [List.append_assoc]
  rw [show 0x3eb2 + (16 * i.val + j) = 8192 + (32 + (32 + (64 + (2048 + (2048 + (1024 + (512 + (512 + (512 + (512 + (512 + (2 + (32 + (16 + (16 * i.val + j))))))))))))))) from by omega]
  rw [getD_chop (write_bank0_length s), getD_chop (List.length_ofFn s.reserved2000), getD_chop (List.length_ofFn (fun i : Fin 32 => if (s.tables i).isSome then 1 else 0)), getD_chop (List.length_ofFn (fun i : Fin 64 => if (s.instruments i).isSome then 1 else 0)), getD_chop (chainPhrases_chunks_length s), getD_chop (chainTranspositions_chunks_length s), getD_chop (instrumentPayload_chunks_length s), getD_chop (tableTranspositions_chunks_length s), getD_chop (tableCommands1_chunks_length s), getD_chop (tableValues1_chunks_length s), getD_chop (tableCommands2_chunks_length s), getD_chop (tableValues2_chunks_length s), getD_chop (show ([114, 98] : List Nat).length = 2 from rfl), getD_chop (List.length_ofFn (fun j : Fin 32 => packedAllocByte (phrasePresent s) j)), getD_chop (List.length_ofFn (fun j : Fin 16 => packedAllocByte (chainPresent s) j))]
  exact chunks_getD (synthChunk s) (synthChunk_length s) _ i j 0 hj

theorem ws_workTime (s : LsdjSong) (m : Nat) (hm : m < 2) :
    byteAt (lsdj_write_song s) (0x3fb2 + m) = s.workTime ⟨m, hm⟩ := by
  unfold byteAt lsdj_write_song write_bank1
  simp only [List.append_assoc]
  rw [show 0x3fb2 + m = 8192 + (32 + (32 + (64 + (2048 + (2048 + (1024 + (512 + (512 + (512 + (512 + (512 + (2 + (32 + (16 + (256 + (m)))))))))))))))) from by omega]
  rw [getD_chop (write_bank0_length s), getD_chop (List.length_ofFn s.reserved2000), getD_chop (List.length_ofFn (fun i : Fin 32 => if (s.tables i).isSome then 1 else 0)), getD_chop (List.length_ofFn (fun i : Fin 64 => if (s.instruments i).isSome then 1 else 0)), getD_chop (chainPhrases_chunks_length s), getD_chop (chainTranspositions_chunks_length s), getD_chop (instrumentPayload_chunks_length s), getD_chop (tableTranspositions_chunks_length s), getD_chop (tableCommands1_chunks_length s), getD_chop (tableValues1_chunks_length s), getD_chop (tableCommands2_chunks_length s), getD_chop (tableValues2_chunks_length s), getD_chop (show ([114, 98] : List Nat).length = 2 from rfl), getD_chop (List.length_ofFn (fun j : Fin 32 => packedAllocByte (phrasePresent s) j)), getD_chop (List.length_ofFn (fun j : Fin 16 => packedAllocByte (chainPresent s) j)), getD_chop (synth_chunks_length s)]
  rw [getD_keep (List.length_ofFn s.workTime) _ hm]
  exact getD_ofFn s.workTime m hm 0

theorem ws_tempoTransposition (s : LsdjSong) (m : Nat) (hm : m < 2) :
    byteAt (lsdj_write_song s) (0x3fb4 + m) = ([s.tempo, s.transposition] : List Nat).getD m 0 := by
  unfold byteAt lsdj_write_song write_bank1
  simp only [List.append_assoc]
  rw [show 0x3fb4 + m = 8192 + (32 + (32 + (64 + (2048 + (2048 + (1024 + (512 + (512 + (512 + (512 + (512 + (2 + (32 + (16 + (256 + (2 + (m))))))))))))))))) from by omega]
  rw [getD_chop (write_bank0_length s), getD_chop (List.length_ofFn s.reserved2000), getD_chop (List.length_ofFn (fun i : Fin 32 => if (s.tables i).isSome then 1 else 0)), getD_chop (List.length_ofFn (fun i : Fin 64 => if (s.instruments i).isSome then 1 else 0)), getD_chop (chainPhrases_chunks_length s), getD_chop (chainTranspositions_chunks_length s), getD_chop (instrumentPayload_chunks_length s), getD_chop (tableTranspositions_chunks_length s), getD_chop (tableCommands1_chunks_length s), getD_chop (tableValues1_chunks_length s), getD_chop (tableCommands2_chunks_length s), getD_chop (tableValues2_chunks_length s), getD_chop (show ([114, 98] : List Nat).length = 2 from rfl), getD_chop (List.length_ofFn (fun j : Fin 32 => packedAllocByte (phrasePresent s) j)), getD_chop (List.length_ofFn (fun j : Fin 16 => packedAllocByte (chainPresent s) j)), getD_chop (synth_chunks_length s), getD_chop (List.length_ofFn s.workTime)]
  rw [getD_keep (show ([s.tempo, s.transposition] : List Nat).length = 2 from rfl) _ hm]

theorem ws_totalTime (s : LsdjSong) (m : Nat) (hm : m < 3) :
    byteAt (lsdj_write_song s) (0x3fb6 + m) = s.totalTime ⟨m, hm⟩ := by
  unfold byteAt lsdj_write_song write_bank1
  simp only [List.append_assoc]
  rw [show 0x3fb6 + m = 8192 + (32 + (32 + (64 + (2048 + (2048 + (1024 + (512 + (512 + (512 + (512 + (512 + (2 + (32 + (16 + (256 + (2 + (2 + (m)))))))))))))))))) from by omega]
  rw [getD_chop (write_bank0_length s), getD_chop (List.length_ofFn s.reserved2000), getD_chop (List.length_ofFn (fun i : Fin 32 => if (s.tables i).isSome then 1 else 0)), getD_chop (List.length_ofFn (fun i : Fin 64 => if (s.instruments i).isSome then 1 else 0)), getD_chop (chainPhrases_chunks_length s), getD_chop (chainTranspositions_chunks_length s), getD_chop (instrumentPayload_chunks_length s), getD_chop (tableTranspositions_chunks_length s), getD_chop (tableCommands1_chunks_length s), getD_chop (tableValues1_chunks_length s), getD_chop (tableCommands2_chunks_length s), getD_chop (tableValues2_chunks_length s), getD_chop (show ([114, 98] : List Nat).length = 2 from rfl), getD_chop (List.length_ofFn (fun j : Fin 32 => packedAllocByte (phrasePresent s) j)), getD_chop (List.length_ofFn (fun j : Fin 16 => packedAllocByte (chainPresent s) j)), getD_chop (synth_chunks_length s), getD_chop (List.length_ofFn s.workTime), getD_chop (show ([s.tempo, s.transposition] : List Nat).length = 2 from rfl)]
  rw [getD_keep (List.length_ofFn s.totalTime) _ hm]
  exact getD_ofFn s.totalTime m hm 0

theorem ws_meta (s : LsdjSong) (m : Nat) (hm : m < 11) :
    byteAt (lsdj_write_song s) (0x3fb9 + m) = ([s.reserved3fb9, s.keyDelay, s.keyRepeat, s.font, s.sync, s.colorSet, s.reserved3fbf, s.clone, s.fileChangedFlag, s.powerSave, s.preListen] : List Nat).getD m 0 := by
  unfold byteAt lsdj_write_song write_bank1
  simp only [List.append_assoc]
  rw [show 0x3fb9 + m = 8192 + (32 + (32 + (64 + (2048 + (2048 + (1024 + (512 + (512 + (512 + (512 + (512 + (2 + (32 + (16 + (256 + (2 + (2 + (3 + (m))))))))))))))))))) from by omega]
  rw [getD_chop (write_bank0_length s), getD_chop (List.length_ofFn s.reserved2000), getD_chop (List.length_ofFn (fun i : Fin 32 => if (s.tables i).isSome then 1 else 0)), getD_chop (List.length_ofFn (fun i : Fin 64 => if (s.instruments i).isSome then 1 else 0)), getD_chop (chainPhrases_chunks_length s), getD_chop (chainTranspositions_chunks_length s), getD_chop (instrumentPayload_chunks_length s), getD_chop (tableTranspositions_chunks_length s), getD_chop (tableCommands1_chunks_length s), getD_chop (tableValues1_chunks_length s), getD_chop (tableCommands2_chunks_length s), getD_chop (tableValues2_chunks_length s), getD_chop (show ([114, 98] : List Nat).length = 2 from rfl), getD_chop (List.length_ofFn (fun j : Fin 32 => packedAllocByte (phrasePresent s) j)), getD_chop (List.length_ofFn (fun j : Fin 16 => packedAllocByte (chainPresent s) j)), getD_chop (synth_chunks_length s), getD_chop (List.length_ofFn s.workTime), getD_chop (show ([s.tempo, s.transposition] : List Nat).length = 2 from rfl), getD_chop (List.length_ofFn s.totalTime)]
  rw [getD_keep (show ([s.reserved3fb9, s.keyDelay, s.keyRepeat, s.font, s.sync, s.colorSet, s.reserved3fbf, s.clone, s.fileChangedFlag, s.powerSave, s.preListen] : List Nat).length = 11 from rfl) _ hm]

theorem ws_locks (s : LsdjSong) (m : Nat) (hm : m < 2) :
    byteAt (lsdj_write_song s) (0x3fc4 + m) = ([packedAllocByte (synthOverwrittenAt s) 1, packedAllocByte (synthOverwrittenAt s) 0] : List Nat).getD m 0 := by
  unfold byteAt lsdj_write_song write_bank1
  simp only [List.append_assoc]
  rw [show 0x3fc4 + m = 8192 + (32 + (32 + (64 + (2048 + (2048 + (1024 + (512 + (512 + (512 + (512 + (512 + (2 + (32 + (16 + (256 + (2 + (2 + (3 + (11 + (m)))))))))))))))))))) from by omega]
  rw [getD_chop (write_bank0_length s), getD_chop (List.length_ofFn s.reserved2000), getD_chop (List.length_ofFn (fun i : Fin 32 => if (s.tables i).isSome then 1 else 0)), getD_chop (List.length_ofFn (fun i : Fin 64 => if (s.instruments i).isSome then 1 else 0)), getD_chop (chainPhrases_chunks_length s), getD_chop (chainTranspositions_chunks_length s), getD_chop (instrumentPayload_chunks_length s), getD_chop (tableTranspositions_chunks_length s), getD_chop (tableCommands1_chunks_length s), getD_chop (tableValues1_chunks_length s), getD_chop (tableCommands2_chunks_length s), getD_chop (tableValues2_chunks_length s), getD_chop (show ([114, 98] : List Nat).length = 2 from rfl), getD_chop (List.length_ofFn (fun j : Fin 32 => packedAllocByte (phrasePresent s) j)), getD_chop (List.length_ofFn (fun j : Fin 16 => packedAllocByte (chainPresent s) j)), getD_chop (synth_chunks_length s), getD_chop (List.length_ofFn s.workTime), getD_chop (show ([s.tempo, s.transposition] : List Nat).length = 2 from rfl), getD_chop (List.length_ofFn s.totalTime), getD_chop (show ([s.reserved3fb9, s.keyDelay, s.keyRepeat, s.font, s.sync, s.colorSet, s.reserved3fbf, s.clone, s.fileChangedFlag, s.powerSave, s.preListen] : List Nat).length = 11 from rfl)]
  rw [getD_keep (show ([packedAllocByte (synthOverwrittenAt s) 1, packedAllocByte (synthOverwrittenAt s) 0] : List Nat).length = 2 from rfl) _ hm]

theorem ws_r3fc6 (s : LsdjSong) (m : Nat) (hm : m < 58) :
    byteAt (lsdj_write_song s) (0x3fc6 + m) = s.reserved3fc6 ⟨m, hm⟩ := by
  unfold byteAt lsdj_write_song write_bank1
  simp only [List.append_assoc]
  rw [show 0x3fc6 + m = 8192 + (32 + (32 + (64 + (2048 + (2048 + (1024 + (512 + (512 + (512 + (512 + (512 + (2 + (32 + (16 + (256 + (2 + (2 + (3 + (11 + (2 + (m))))))))))))))))))))) from by omega]
  rw [getD_chop (write_bank0_length s), getD_chop (List.length_ofFn s.reserved2000), getD_chop (List.length_ofFn (fun i : Fin 32 => if (s.tables i).isSome then 1 else 0)), getD_chop (List.length_ofFn (fun i : Fin 64 => if (s.instruments i).isSome then 1 else 0)), getD_chop (chainPhrases_chunks_length s), getD_chop (chainTranspositions_chunks_length s), getD_chop (instrumentPayload_chunks_length s), getD_chop (tableTranspositions_chunks_length s), getD_chop (tableCommands1_chunks_length s), getD_chop (tableValues1_chunks_length s), getD_chop (tableCommands2_chunks_length s), getD_chop (tableValues2_chunks_length s), getD_chop (show ([114, 98] : List Nat).length = 2 from rfl), getD_chop (List.length_ofFn (fun j : Fin 32 => packedAllocByte (phrasePresent s) j)), getD_chop (List.length_ofFn (fun j : Fin 16 => packedAllocByte (chainPresent s) j)), getD_chop (synth_chunks_length s), getD_chop (List.length_ofFn s.workTime), getD_chop (show ([s.tempo, s.transposition] : List Nat).length = 2 from rfl), getD_chop (List.length_ofFn s.totalTime), getD_chop (show ([s.reserved3fb9, s.keyDelay, s.keyRepeat, s.font, s.sync, s.colorSet, s.reserved3fbf, s.clone, s.fileChangedFlag, s.powerSave, s.preListen] : List Nat).length = 11 from rfl), getD_chop (show ([packedAllocByte (synthOverwrittenAt s) 1, packedAllocByte (synthOverwrittenAt s) 0] : List Nat).length = 2 from rfl)]
  rw [getD_keep (List.length_ofFn s.reserved3fc6) _ hm]
  exact getD_ofFn s.reserved3fc6 m hm 0

theorem ws_phraseCommands (s : LsdjSong) (i : Fin 255) (j : Nat) (hj : j < 16) :
    byteAt (lsdj_write_song s) (0x4000 + (16 * i.val + j)) =
    (phraseCommandsChunk s i).getD j 0 := by
  unfold byteAt lsdj_write_song write_bank2
  simp only [List.append_assoc]
  rw [show 0x4000 + (16 * i.val + j) = 8192 + (8192 + (16 * i.val + j)) from by omega]
  rw [getD_chop (write_bank0_length s), getD_chop (write_bank1_length s)]
  exact chunks_getD (phraseCommandsChunk s) (phraseCommandsChunk_length s) _ i j 0 hj

theorem ws_phraseValues (s : LsdjSong) (i : Fin 255) (j : Nat) (hj : j < 16) :
    byteAt (lsdj_write_song s) (0x4ff0 + (16 * i.val + j)) =
    (phraseValuesChunk s i).getD j 0 := by
  unfold byteAt lsdj_write_song write_bank2
  simp only [List.append_assoc]
  rw [show 0x4ff0 + (16 * i.val + j) = 8192 + (8192 + (4080 + (16 * i.val + j))) from by omega]
  rw [getD_chop (write_bank0_length s), getD_chop (write_bank1_length s), getD_chop (phraseCommands_chunks_length s)]
  exact chunks_getD (phraseValuesChunk s) (phraseValuesChunk_length s) _ i j 0 hj

theorem ws_r5fe0 (s : LsdjSong) (m : Nat) (hm : m < 32) :
    byteAt (lsdj_write_song s) (0x5fe0 + m) = s.reserved5fe0 ⟨m, hm⟩ := by
  unfold byteAt lsdj_write_song write_bank2
  simp only [List.append_assoc]
  rw [show 0x5fe0 + m = 8192 + (8192 + (4080 + (4080 + (m)))) from by omega]
  rw [getD_chop (write_bank0_length s), getD_chop (write_bank1_length s), getD_chop (phraseCommands_chunks_length s), getD_chop (phraseValues_chunks_length s)]
  rw [getD_keep (List.length_ofFn s.reserved5fe0) _ hm]
  exact getD_ofFn s.reserved5fe0 m hm 0

theorem ws_waves (s : LsdjSong) (m : Nat) (hm : m < 4096) :
    byteAt (lsdj_write_song s) (0x6000 + m) = s.waves ⟨m, hm⟩ := by
  unfold byteAt lsdj_write_song write_bank3
  simp only [List.append_assoc]
  rw [show 0x6000 + m = 8192 + (8192 + (8192 + (m))) from by omega]
  rw [getD_chop (write_bank0_length s), getD_chop (write_bank1_length s), getD_chop (write_bank2_length s)]
  rw [getD_keep (List.length_ofFn s.waves) _ hm]
  exact getD_ofFn s.waves m hm 0

theorem ws_phraseInstruments (s : LsdjSong) (i : Fin 255) (j : Nat) (hj : j < 16) :
    byteAt (lsdj_write_song s) (0x7000 + (16 * i.val + j)) =
    (phraseInstrumentsChunk s i).getD j 0 := by
  unfold byteAt lsdj_write_song write_bank3
  simp only [List.append_assoc]
  rw [show 0x7000 + (16 * i.val + j) = 8192 + (8192 + (8192 + (4096 + (16 * i.val + j)))) from by omega]
  rw [getD_chop (write_bank0_length s), getD_chop (write_bank1_length s), getD_chop (write_bank2_length s), getD_chop (List.length_ofFn s.waves)]
  exact chunks_getD (phraseInstrumentsChunk s) (phraseInstrumentsChunk_length s) _ i j 0 hj

theorem ws_rb3 (s : LsdjSong) (m : Nat) (hm : m < 2) :
    byteAt (lsdj_write_song s) (0x7ff0 + m) = ([114, 98] : List Nat).getD m 0 := by
  unfold byteAt lsdj_write_song write_bank3
  simp only [List.append_assoc]
  rw [show 0x7ff0 + m = 8192 + (8192 + (8192 + (4096 + (4080 + (m))))) from by omega]
  rw [getD_chop (write_bank0_length s), getD_chop (write_bank1_length s), getD_chop (write_bank2_length s), getD_chop (List.length_ofFn s.waves), getD_chop (phraseInstruments_chunks_length s)]
  rw [getD_keep (show ([114, 98] : List Nat).length = 2 from rfl) _ hm]

theorem ws_r7ff2 (s : LsdjSong) (m : Nat) (hm : m < 13) :
    byteAt (lsdj_write_song s) (0x7ff2 + m) = s.reserved7ff2 ⟨m, hm⟩ := by
  unfold byteAt lsdj_write_song write_bank3
  simp only [List.append_assoc]
  rw [show 0x7ff2 + m = 8192 + (8192 + (8192 + (4096 + (4080 + (2 + (m)))))) from by omega]
  rw [getD_chop (write_bank0_length s), getD_chop (write_bank1_length s), getD_chop (write_bank2_length s), getD_chop (List.length_ofFn s.waves), getD_chop (phraseInstruments_chunks_length s), getD_chop (show ([114, 98] : List Nat).length = 2 from rfl)]
  rw [getD_keep (List.length_ofFn s.reserved7ff2) _ hm]
  exact getD_ofFn s.reserved7ff2 m hm 0

theorem ws_version (s : LsdjSong) (m : Nat) (hm : m < 1) :
    byteAt (lsdj_write_song s) (0x7fff + m) = ([s.formatVersion] : List Nat).getD m 0 := by
  unfold byteAt lsdj_write_song write_bank3
  simp only [List.append_assoc]
  rw [show 0x7fff + m = 8192 + (8192 + (8192 + (4096 + (4080 + (2 + (13 + (m))))))) from by omega]
  rw [getD_chop (write_bank0_length s), getD_chop (write_bank1_length s), getD_chop (write_bank2_length s), getD_chop (List.length_ofFn s.waves), getD_chop (phraseInstruments_chunks_length s), getD_chop (show ([114, 98] : List Nat).length = 2 from rfl), getD_chop (List.length_ofFn s.reserved7ff2)]

/-! ## Read-after-write: field recovery lemmas -/

theorem phraseNotesChunk_some (s : LsdjSong) (i : Fin 255) (p : LsdjPhrase)
    (h : s.phrases i = some p) : phraseNotesChunk s i = List.ofFn p.notes := by
  simp only [phraseNotesChunk, h]

theorem phraseCommandsChunk_some (s : LsdjSong) (i : Fin 255) (p : LsdjPhrase)
    (h : s.phrases i = some p) : phraseCommandsChunk s i = List.ofFn p.commands := by
  simp only [phraseCommandsChunk, h]

theorem phraseValuesChunk_some (s : LsdjSong) (i : Fin 255) (p : LsdjPhrase)
    (h : s.phrases i = some p) : phraseValuesChunk s i = List.ofFn p.commandValues := by
  simp only [phraseValuesChunk, h]

theorem phraseInstrumentsChunk_some (s : LsdjSong) (i : Fin 255) (p : LsdjPhrase)
    (h : s.phrases i = some p) : phraseInstrumentsChunk s i = List.ofFn p.instruments := by
  simp only [phraseInstrumentsChunk, h]

theorem chainPhrasesChunk_some (s : LsdjSong) (i : Fin 128) (c : LsdjChain)
    (h : s.chains i = some c) : chainPhrasesChunk s i = List.ofFn c.phrases := by
  simp only [chainPhrasesChunk, h]

theorem chainTranspositionsChunk_some (s : LsdjSong) (i : Fin 128) (c : LsdjChain)
    (h : s.chains i = some c) : chainTranspositionsChunk s i = List.ofFn c.transpositions := by
  simp only [chainTranspositionsChunk, h]

theorem instrNameChunk_some (s : LsdjSong) (i : Fin 64) (ins : LsdjInstrument)
    (h : s.instruments i = some ins) : instrNameChunk s i = List.ofFn ins.name := by
  simp only [instrNameChunk, h]

theorem instrumentPayloadChunk_some (s : LsdjSong) (i : Fin 64) (ins : LsdjInstrument)
    (h : s.instruments i = some ins) : instrumentPayloadChunk s i = List.ofFn ins.payload := by
  simp only [instrumentPayloadChunk, h]

theorem tableVolumesChunk_some (s : LsdjSong) (i : Fin 32) (t : LsdjTable)
    (h : s.tables i = some t) : tableVolumesChunk s i = List.ofFn t.volumes := by
  simp only [tableVolumesChunk, h]

theorem tableTranspositionsChunk_some (s : LsdjSong) (i : Fin 32) (t : LsdjTable)
    (h : s.tables i = some t) : tableTranspositionsChunk s i = List.ofFn t.transpositions := by
  simp only [tableTranspositionsChunk, h]

theorem tableCommands1Chunk_some (s : LsdjSong) (i : Fin 32) (t : LsdjTable)
    (h : s.tables i = some t) : tableCommands1Chunk s i = List.ofFn t.commands1 := by
  simp only [tableCommands1Chunk, h]

theorem tableValues1Chunk_some (s : LsdjSong) (i : Fin 32) (t : LsdjTable)
    (h : s.tables i = some t) : tableValues1Chunk s i = List.ofFn t.values1 := by
  simp only [tableValues1Chunk, h]

theorem tableCommands2Chunk_some (s : LsdjSong) (i : Fin 32) (t : LsdjTable)
    (h : s.tables i = some t) : tableCommands2Chunk s i = List.ofFn t.commands2 := by
  simp only [tableCommands2Chunk, h]

theorem tableValues2Chunk_some (s : LsdjSong) (i : Fin 32) (t : LsdjTable)
    (h : s.tables i = some t) : tableValues2Chunk s i = List.ofFn t.values2 := by
  simp only [tableValues2Chunk, h]

/-- A written table-allocation byte decodes to the table's presence. -/
theorem tableAllocByte_write (s : LsdjSong) (i : Fin 32) :
    tableAllocByte (lsdj_write_song s) i.val = (s.tables i).isSome := by
  unfold tableAllocByte
  rw [ws_tableAlloc s i.val i.isLt, getD_ofFn _ i.val i.isLt 0]
  show ((if (s.tables i).isSome then 1 else 0 : Nat) != 0) = (s.tables i).isSome
  cases h : (s.tables i).isSome <;> simp

/-- A written instrument-allocation byte decodes to the instrument's
presence. -/
theorem instrAllocByte_write (s : LsdjSong) (i : Fin 64) :
    instrAllocByte (lsdj_write_song s) i.val = (s.instruments i).isSome := by
  unfold instrAllocByte
  rw [ws_instrAlloc s i.val i.isLt, getD_ofFn _ i.val i.isLt 0]
  show ((if (s.instruments i).isSome then 1 else 0 : Nat) != 0) = (s.instruments i).isSome
  cases h : (s.instruments i).isSome <;> simp

/-- A written chain-allocation bitmap bit decodes to the chain's
presence. -/
theorem chainAllocBit_write (s : LsdjSong) (i : Fin 128) :
    chainAllocBit (lsdj_write_song s) i.val = (s.chains i).isSome := by
  have hdiv : i.val / 8 < 16 := by have := i.isLt; omega
  unfold chainAllocBit
  rw [ws_chainAllocBytes s (i.val / 8) hdiv, getD_ofFn _ (i.val / 8) hdiv 0]
  show ((packedAllocByte (chainPresent s) (i.val / 8)) >>> (i.val % 8) &&& 1 == 1)
      = (s.chains i).isSome
  rw [bitRead_eq_testBit, packedAllocByte_testBit _ _ _ (Nat.mod_lt _ (by norm_num))]
  rw [show 8 * (i.val / 8) + i.val % 8 = i.val from by omega]
  unfold chainPresent
  rw [dif_pos i.isLt]

/-- A written phrase-allocation bitmap bit decodes to the phrase's
presence. -/
theorem phraseAllocBit_write (s : LsdjSong) (i : Fin 255) :
    phraseAllocBit (lsdj_write_song s) i.val = (s.phrases i).isSome := by
  have hdiv : i.val / 8 < 32 := by have := i.isLt; omega
  unfold phraseAllocBit
  rw [ws_phraseAllocBytes s (i.val / 8) hdiv, getD_ofFn _ (i.val / 8) hdiv 0]
  show ((packedAllocByte (phrasePresent s) (i.val / 8)) >>> (i.val % 8) &&& 1 == 1)
      = (s.phrases i).isSome
  rw [bitRead_eq_testBit, packedAllocByte_testBit _ _ _ (Nat.mod_lt _ (by norm_num))]
  rw [show 8 * (i.val / 8) + i.val % 8 = i.val from by omega]
  unfold phrasePresent
  rw [dif_pos i.isLt]

set_option maxRecDepth 4000 in
/-- Parsing a written song image recovers the song structure exactly. -/
theorem parseSong_write_song (s : LsdjSong) : parseSong (lsdj_write_song s) = s := by
  have hfv : (parseSong (lsdj_write_song s)).formatVersion = s.formatVersion := by
    simp only [parseSong]
    exact ws_version s 0 (by norm_num)
  have htempo : (parseSong (lsdj_write_song s)).tempo = s.tempo := by
    simp only [parseSong]
    exact ws_tempoTransposition s 0 (by norm_num)
  have htransp : (parseSong (lsdj_write_song s)).transposition = s.transposition := by
    simp only [parseSong]
    exact ws_tempoTransposition s 1 (by norm_num)
  have hrows : (parseSong (lsdj_write_song s)).rows = s.rows := by
    funext j
    simp only [parseSong]
    exact ws_rows s j.val j.isLt
  have hgrooves : (parseSong (lsdj_write_song s)).grooves = s.grooves := by
    funext j
    simp only [parseSong]
    exact ws_grooves s j.val j.isLt
  have hwordNames : (parseSong (lsdj_write_song s)).wordNames = s.wordNames := by
    funext j
    simp only [parseSong]
    exact ws_wordNames s j.val j.isLt
  have hbookmarks : (parseSong (lsdj_write_song s)).bookmarks = s.bookmarks := by
    funext j
    simp only [parseSong]
    exact ws_bookmarks s j.val j.isLt
  have hwaves : (parseSong (lsdj_write_song s)).waves = s.waves := by
    funext j
    simp only [parseSong]
    exact ws_waves s j.val j.isLt
  have h1030 : (parseSong (lsdj_write_song s)).reserved1030 = s.reserved1030 := by
    funext j
    simp only [parseSong]
    exact ws_r1030 s j.val j.isLt
  have h1fba : (parseSong (lsdj_write_song s)).reserved1fba = s.reserved1fba := by
    funext j
    simp only [parseSong]
    exact ws_r1fba s j.val j.isLt
  have h2000 : (parseSong (lsdj_write_song s)).reserved2000 = s.reserved2000 := by
    funext j
    simp only [parseSong]
    exact ws_r2000 s j.val j.isLt
  have h3fc6 : (parseSong (lsdj_write_song s)).reserved3fc6 = s.reserved3fc6 := by
    funext j
    simp only [parseSong]
    exact ws_r3fc6 s j.val j.isLt
  have h5fe0 : (parseSong (lsdj_write_song s)).reserved5fe0 = s.reserved5fe0 := by
    funext j
    simp only [parseSong]
    exact ws_r5fe0 s j.val j.isLt
  have h7ff2 : (parseSong (lsdj_write_song s)).reserved7ff2 = s.reserved7ff2 := by
    funext j
    simp only [parseSong]
    exact ws_r7ff2 s j.val j.isLt
  have htotal : (parseSong (lsdj_write_song s)).totalTime = s.totalTime := by
    funext j
    simp only [parseSong]
    exact ws_totalTime s j.val j.isLt
  have hwork : (parseSong (lsdj_write_song s)).workTime = s.workTime := by
    funext j
    simp only [parseSong]
    exact ws_workTime s j.val j.isLt
  have h3fb9 : (parseSong (lsdj_write_song s)).reserved3fb9 = s.reserved3fb9 := by
    simp only [parseSong]
    exact ws_meta s 0 (by norm_num)
  have hkd : (parseSong (lsdj_write_song s)).keyDelay = s.keyDelay := by
    simp only [parseSong]
    exact ws_meta s 1 (by norm_num)
  have hkr : (parseSong (lsdj_write_song s)).keyRepeat = s.keyRepeat := by
    simp only [parseSong]
    exact ws_meta s 2 (by norm_num)
  have hfont : (parseSong (lsdj_write_song s)).font = s.font := by
    simp only [parseSong]
    exact ws_meta s 3 (by norm_num)
  have hsync : (parseSong (lsdj_write_song s)).sync = s.sync := by
    simp only [parseSong]
    exact ws_meta s 4 (by norm_num)
  have hcs : (parseSong (lsdj_write_song s)).colorSet = s.colorSet := by
    simp only [parseSong]
    exact ws_meta s 5 (by norm_num)
  have h3fbf : (parseSong (lsdj_write_song s)).reserved3fbf = s.reserved3fbf := by
    simp only [parseSong]
    exact ws_meta s 6 (by norm_num)
  have hclone : (parseSong (lsdj_write_song s)).clone = s.clone := by
    simp only [parseSong]
    exact ws_meta s 7 (by norm_num)
  have hfcf : (parseSong (lsdj_write_song s)).fileChangedFlag = s.fileChangedFlag := by
    simp only [parseSong]
    exact ws_meta s 8 (by norm_num)
  have hps : (parseSong (lsdj_write_song s)).powerSave = s.powerSave := by
    simp only [parseSong]
    exact ws_meta s 9 (by norm_num)
  have hpl : (parseSong (lsdj_write_song s)).preListen = s.preListen := by
    simp only [parseSong]
    exact ws_meta s 10 (by norm_num)
  have hsyn : (parseSong (lsdj_write_song s)).synths = s.synths := by
    funext i j
    simp only [parseSong]
    rw [show 0x3EB2 + 16 * i.val + j.val = 0x3EB2 + (16 * i.val + j.val) from by omega]
    rw [ws_synths s i j.val j.isLt]
    unfold synthChunk
    exact getD_ofFn (s.synths i) j.val j.isLt 0
  have hso : (parseSong (lsdj_write_song s)).synthOverwritten = s.synthOverwritten := by
    funext i
    simp only [parseSong]
    have h16 := i.isLt
    rcases Nat.lt_or_ge i.val 8 with h8 | h8
    · have hd : i.val / 8 = 0 := Nat.div_eq_of_lt h8
      rw [hd, ws_locks s (1 - 0) (by norm_num)]
      show ((packedAllocByte (synthOverwrittenAt s) 0) >>> (i.val % 8) &&& 1 == 1)
          = s.synthOverwritten i
      rw [bitRead_eq_testBit, packedAllocByte_testBit _ _ _ (Nat.mod_lt _ (by norm_num))]
      rw [show 8 * 0 + i.val % 8 = i.val from by omega]
      unfold synthOverwrittenAt
      rw [dif_pos i.isLt]
    · have hd : i.val / 8 = 1 := by omega
      rw [hd, ws_locks s (1 - 1) (by norm_num)]
      show ((packedAllocByte (synthOverwrittenAt s) 1) >>> (i.val % 8) &&& 1 == 1)
          = s.synthOverwritten i
      rw [bitRead_eq_testBit, packedAllocByte_testBit _ _ _ (Nat.mod_lt _ (by norm_num))]
      rw [show 8 * 1 + i.val % 8 = i.val from by omega]
      unfold synthOverwrittenAt
      rw [dif_pos i.isLt]
  have hwords : (parseSong (lsdj_write_song s)).words = s.words := by
    funext i
    simp only [parseSong]
    refine LsdjWord.ext ?_ ?_ <;> funext j
    · dsimp only
      rw [show 0x1890 + 32 * i.val + j.val = 0x1890 + (32 * i.val + j.val) from by omega]
      rw [ws_words s i j.val (by have := j.isLt; omega)]
      unfold wordChunk
      rw [getD_keep (List.length_ofFn (s.words i).allophones) _ j.isLt]
      exact getD_ofFn _ j.val j.isLt 0
    · dsimp only
      rw [show 0x1890 + 32 * i.val + 16 + j.val = 0x1890 + (32 * i.val + (16 + j.val)) from by omega]
      rw [ws_words s i (16 + j.val) (by have := j.isLt; omega)]
      unfold wordChunk
      rw [getD_chop (List.length_ofFn (s.words i).allophones)]
      exact getD_ofFn _ j.val j.isLt 0
  have hchains : (parseSong (lsdj_write_song s)).chains = s.chains := by
    funext i
    simp only [parseSong]
    have hb := chainAllocBit_write s i
    cases hc : s.chains i with
    | none =>
      rw [hc] at hb
      rw [if_neg (by simp [hb])]
    | some c =>
      rw [hc] at hb
      rw [if_pos (by simp [hb])]
      refine congrArg some (LsdjChain.ext ?_ ?_) <;> funext j
      · dsimp only
        rw [show 0x2080 + 16 * i.val + j.val = 0x2080 + (16 * i.val + j.val) from by omega]
        rw [ws_chainPhrases s i j.val j.isLt, chainPhrasesChunk_some s i c hc]
        exact getD_ofFn c.phrases j.val j.isLt 0
      · dsimp only
        rw [show 0x2880 + 16 * i.val + j.val = 0x2880 + (16 * i.val + j.val) from by omega]
        rw [ws_chainTranspositions s i j.val j.isLt, chainTranspositionsChunk_some s i c hc]
        exact getD_ofFn c.transpositions j.val j.isLt 0
  have hphrases : (parseSong (lsdj_write_song s)).phrases = s.phrases := by
    funext i
    simp only [parseSong]
    have hb := phraseAllocBit_write s i
    cases hc : s.phrases i with
    | none =>
      rw [hc] at hb
      rw [if_neg (by simp [hb])]
    | some p =>
      rw [hc] at hb
      rw [if_pos (by simp [hb])]
      refine congrArg some (LsdjPhrase.ext ?_ ?_ ?_ ?_) <;> funext j
      · dsimp only
        rw [ws_phraseNotes s i j.val j.isLt, phraseNotesChunk_some s i p hc]
        exact getD_ofFn p.notes j.val j.isLt 0
      · dsimp only
        rw [show 0x4000 + 16 * i.val + j.val = 0x4000 + (16 * i.val + j.val) from by omega]
        rw [ws_phraseCommands s i j.val j.isLt, phraseCommandsChunk_some s i p hc]
        exact getD_ofFn p.commands j.val j.isLt 0
      · dsimp only
        rw [show 0x4FF0 + 16 * i.val + j.val = 0x4ff0 + (16 * i.val + j.val) from by omega]
        rw [ws_phraseValues s i j.val j.isLt, phraseValuesChunk_some s i p hc]
        exact getD_ofFn p.commandValues j.val j.isLt 0
      · dsimp only
        rw [show 0x7000 + 16 * i.val + j.val = 0x7000 + (16 * i.val + j.val) from by omega]
        rw [ws_phraseInstruments s i j.val j.isLt, phraseInstrumentsChunk_some s i p hc]
        exact getD_ofFn p.instruments j.val j.isLt 0
  have hinstr : (parseSong (lsdj_write_song s)).instruments = s.instruments := by
    funext i
    simp only [parseSong]
    have hb := instrAllocByte_write s i
    cases hc : s.instruments i with
    | none =>
      rw [hc] at hb
      rw [if_neg (by simp [hb])]
    | some ins =>
      rw [hc] at hb
      rw [if_pos (by simp [hb])]
      refine congrArg some (LsdjInstrument.ext ?_ ?_) <;> funext j
      · dsimp only
        rw [show 0x1E7A + 5 * i.val + j.val = 0x1e7a + (5 * i.val + j.val) from by omega]
        rw [ws_instrNames s i j.val j.isLt, instrNameChunk_some s i ins hc]
        exact getD_ofFn ins.name j.val j.isLt 0
      · dsimp only
        rw [show 0x3080 + 16 * i.val + j.val = 0x3080 + (16 * i.val + j.val) from by omega]
        rw [ws_instrPayload s i j.val j.isLt, instrumentPayloadChunk_some s i ins hc]
        exact getD_ofFn ins.payload j.val j.isLt 0
  have htables : (parseSong (lsdj_write_song s)).tables = s.tables := by
    funext i
    simp only [parseSong]
    have hb := tableAllocByte_write s i
    cases hc : s.tables i with
    | none =>
      rw [hc] at hb
      rw [if_neg (by simp [hb])]
    | some t =>
      rw [hc] at hb
      rw [if_pos (by simp [hb])]
      refine congrArg some (LsdjTable.ext ?_ ?_ ?_ ?_ ?_ ?_) <;> funext j
      · dsimp only
        rw [show 0x1690 + 16 * i.val + j.val = 0x1690 + (16 * i.val + j.val) from by omega]
        rw [ws_tableVolumes s i j.val j.isLt, tableVolumesChunk_some s i t hc]
        exact getD_ofFn t.volumes j.val j.isLt 0
      · dsimp only
        rw [show 0x3480 + 16 * i.val + j.val = 0x3480 + (16 * i.val + j.val) from by omega]
        rw [ws_tableTranspositions s i j.val j.isLt, tableTranspositionsChunk_some s i t hc]
        exact getD_ofFn t.transpositions j.val j.isLt 0
      · dsimp only
        rw [show 0x3680 + 16 * i.val + j.val = 0x3680 + (16 * i.val + j.val) from by omega]
        rw [ws_tableCommands1 s i j.val j.isLt, tableCommands1Chunk_some s i t hc]
        exact getD_ofFn t.commands1 j.val j.isLt 0
      · dsimp only
        rw [show 0x3880 + 16 * i.val + j.val = 0x3880 + (16 * i.val + j.val) from by omega]
        rw [ws_tableValues1 s i j.val j.isLt, tableValues1Chunk_some s i t hc]
        exact getD_ofFn t.values1 j.val j.isLt 0
      · dsimp only
        rw [show 0x3A80 + 16 * i.val + j.val = 0x3a80 + (16 * i.val + j.val) from by omega]
        rw [ws_tableCommands2 s i j.val j.isLt, tableCommands2Chunk_some s i t hc]
        exact getD_ofFn t.commands2 j.val j.isLt 0
      · dsimp only
        rw [show 0x3C80 + 16 * i.val + j.val = 0x3c80 + (16 * i.val + j.val) from by omega]
        rw [ws_tableValues2 s i j.val j.isLt, tableValues2Chunk_some s i t hc]
        exact getD_ofFn t.values2 j.val j.isLt 0
  exact LsdjSong.ext hfv htempo htransp hrows hchains hphrases hinstr hsyn hso hwaves
    htables hgrooves hwords hwordNames hbookmarks hkd hkr hfont hsync hcs hclone hfcf
    hps hpl htotal hwork h1030 h1fba h2000 h3fb9 h3fbf h3fc6 h5fe0 h7ff2

/-! ## Support lemmas for the decompressor -/

/-- A successful `readMem` pins the position inside the buffer. -/
theorem readMem_bounds {input : List Nat} {base q b : Nat}
    (hq : readMem input base q = some b) :
    base ≤ q ∧ q - base < input.length := by
  unfold readMem at hq
  by_cases hlt : q < base
  · simp [hlt] at hq
  · refine ⟨by omega, ?_⟩
    simp only [if_neg hlt] at hq
    exact (List.getElem?_eq_some.mp hq).1

/-- Every successful decompression step begins with a successful read at
`p`, so `p` lies inside the buffer, and the step advances the reader. -/
theorem lsdj_decompress_step_advance {input : List Nat} {base p : Nat}
    {r : Nat × List Nat × Option Nat}
    (h : lsdj_decompress_step input base p = some r) :
    p < r.1 ∧ base ≤ p ∧ p - base < input.length := by
  unfold lsdj_decompress_step at h
  rcases Option.bind_eq_some.mp h with ⟨byte, hr, h2⟩
  have hp := readMem_bounds hr
  refine ⟨?_, hp.1, hp.2⟩
  split_ifs at h2 with h1 hsa
  · rcases Option.map_eq_some'.mp h2 with ⟨⟨q, out⟩, hq, hrq⟩
    subst hrq
    unfold decompress_rle_byte at hq
    rcases Option.bind_eq_some.mp hq with ⟨b2, _, h3⟩
    split_ifs at h3 with h4
    · cases h3; omega
    · rcases Option.bind_eq_some.mp h3 with ⟨b3, _, h5⟩
      cases h5; omega
  · unfold decompress_sa_byte at h2
    rcases Option.bind_eq_some.mp h2 with ⟨b2, _, h3⟩
    split_ifs at h3 with h4 h5 h6
    · cases h3; omega
    · rcases Option.map_eq_some'.mp h3 with ⟨⟨q, out⟩, hq, hrq⟩
      subst hrq
      unfold decompress_default_wave_byte at hq
      rcases Option.bind_eq_some.mp hq with ⟨b3, _, h7⟩
      cases h7; omega
    · rcases Option.map_eq_some'.mp h3 with ⟨⟨q, out⟩, hq, hrq⟩
      subst hrq
      unfold decompress_default_instrument_byte at hq
      rcases Option.bind_eq_some.mp hq with ⟨b3, _, h7⟩
      cases h7; omega
    · cases h3; omega
  · cases h2; omega

/-! ## Claim theorems -/

/-- **C3**: the decompressor step function implements exactly the marker
protocol: `C0 C0` emits one literal `0xC0`; `C0 X N` with `X ≠ C0` emits
`X` exactly `N` times; `E0 E0` emits one literal `0xE0`; any other leading
byte is emitted verbatim; and the driver handles the value reported after
`0xE0`: a value in `0x01..0xBF` makes the block loop seek the input to
`anchor + (value − 1) · 512` before continuing, while `0xFF` ends the
stream. -/
theorem c3_decompress_step_protocol (input : List Nat) (base p fbp fuel : Nat) :
    (readMem input base p = some 0xC0 → readMem input base (p + 1) = some 0xC0 →
      lsdj_decompress_step input base p = some (p + 2, [0xC0], none)) ∧
    (∀ x n, readMem input base p = some 0xC0 → readMem input base (p + 1) = some x →
      x ≠ 0xC0 → readMem input base (p + 2) = some n →
      lsdj_decompress_step input base p = some (p + 3, List.replicate n x, none)) ∧
    (readMem input base p = some 0xE0 → readMem input base (p + 1) = some 0xE0 →
      lsdj_decompress_step input base p = some (p + 2, [0xE0], none)) ∧
    (∀ b, readMem input base p = some b → b ≠ 0xC0 → b ≠ 0xE0 →
      lsdj_decompress_step input base p = some (p + 1, [b], none)) ∧
    (∀ p2 out v, lsdj_decompress_block input base p = some (p2, out, v) →
      1 ≤ v → v ≤ 0xBF →
      decompressLoop input base fbp true (fuel + 1) p =
        (decompressLoop input base fbp true fuel
          (fbp + (v - 1) * LSDJ_BLOCK_SIZE)).prepend out) ∧
    (∀ p2 out, lsdj_decompress_block input base p = some (p2, out, 0xFF) →
      decompressLoop input base fbp true (fuel + 1) p = .done p2 out) := by
  refine ⟨?_, ?_, ?_, ?_, ?_, ?_⟩
  · intro h1 h2
    unfold lsdj_decompress_step decompress_rle_byte
    rw [h1, h2]
    simp [RUN_LENGTH_ENCODING_BYTE]
  · intro x n h1 h2 hx h3
    unfold lsdj_decompress_step decompress_rle_byte
    rw [h1, h2, h3]
    simp only [RUN_LENGTH_ENCODING_BYTE] at hx ⊢
    simp [hx]
  · intro h1 h2
    unfold lsdj_decompress_step decompress_sa_byte
    rw [h1, h2]
    simp [RUN_LENGTH_ENCODING_BYTE, SPECIAL_ACTION_BYTE]
  · intro b h1 hb1 hb2
    unfold lsdj_decompress_step
    rw [h1]
    simp only [RUN_LENGTH_ENCODING_BYTE, SPECIAL_ACTION_BYTE] at hb1 hb2 ⊢
    simp [hb1, hb2]
  · intro p2 out v hb h1 h2
    have hv : ¬ v = LSDJ_END_OF_FILE_BLOCK_INDEX := by
      unfold LSDJ_END_OF_FILE_BLOCK_INDEX; omega
    have hmod : (v + 255) % 256 = v - 1 := by omega
    simp only [decompressLoop]
    rw [hb]
    simp only [hv, if_false, if_true, hmod]
  · intro p2 out hb
    simp only [decompressLoop]
    rw [hb]
    simp [LSDJ_END_OF_FILE_BLOCK_INDEX]

/-- Witness for C3: each protocol clause exercised on a concrete two- or
three-byte input. -/
theorem c3_witness :
    lsdj_decompress_step [0xC0, 0xC0] 0 0 = some (2, [0xC0], none) ∧
    lsdj_decompress_step [0xC0, 7, 3] 0 0 = some (3, List.replicate 3 7, none) ∧
    lsdj_decompress_step [0xE0, 0xE0] 0 0 = some (2, [0xE0], none) ∧
    lsdj_decompress_step [42] 0 0 = some (1, [42], none) ∧
    decompressLoop [0xE0, 0x02] 0 0 true 1 0 =
      (decompressLoop [0xE0, 0x02] 0 0 true 0 (0 + (2 - 1) * LSDJ_BLOCK_SIZE)).prepend [] ∧
    decompressLoop [0xE0, 0xFF] 0 0 true 1 0 = .done 512 [] := by
  refine ⟨?_, ?_, ?_, ?_, ?_, ?_⟩
  · exact (c3_decompress_step_protocol [0xC0, 0xC0] 0 0 0 0).1 (by decide) (by decide)
  · exact (c3_decompress_step_protocol [0xC0, 7, 3] 0 0 0 0).2.1 7 3
      (by decide) (by decide) (by decide) (by decide)
  · exact (c3_decompress_step_protocol [0xE0, 0xE0] 0 0 0 0).2.2.1 (by decide) (by decide)
  · exact (c3_decompress_step_protocol [42] 0 0 0 0).2.2.2.1 42
      (by decide) (by decide) (by decide)
  · exact (c3_decompress_step_protocol [0xE0, 0x02] 0 0 0 0).2.2.2.2.1 512 [] 2
      (by decide) (by decide) (by decide)
  · exact (c3_decompress_step_protocol [0xE0, 0xFF] 0 0 0 0).2.2.2.2.2 512 []
      (by decide)

/-- **C4**: if `lsdj_decompress` reaches the end-of-stream marker having
written `out`, it succeeds exactly when `out` is 32,768 bytes, and
otherwise fails with the size-mismatch format error reporting the written
size. -/
theorem c4_decompress_size_check (input : List Nat) (base p fbp : Nat)
    (follow : Bool) (fuel q : Nat) (out : List Nat)
    (h : decompressLoop input base fbp follow fuel p = .done q out) :
    (out.length = LSDJ_SONG_BYTE_COUNT →
      lsdj_decompress input base p fbp follow fuel = .ok out) ∧
    (out.length ≠ LSDJ_SONG_BYTE_COUNT →
      lsdj_decompress input base p fbp follow fuel = .sizeMismatch out.length) := by
  unfold lsdj_decompress
  rw [h]
  constructor
  · intro hl; simp [hl]
  · intro hl; simp [hl]

/-- Witness for C4: a stream that reaches end-of-stream after writing no
bytes fails with the size-mismatch error reporting size 0. -/
theorem c4_witness :
    decompressLoop [0xE0, 0xFF] 0 0 false 1 0 = .done 512 [] ∧
    lsdj_decompress [0xE0, 0xFF] 0 0 0 false 1 = .sizeMismatch 0 := by
  refine ⟨by decide, ?_⟩
  exact (c4_decompress_size_check [0xE0, 0xFF] 0 0 0 false 1 512 []
    (by decide)).2 (by decide)

/-- **C5**: a save whose header init bytes are not exactly `'j'`, `'k'`
fails with the init-check format error — whatever every other byte of the
file is, so no project or working-song parsing is attempted — and a save
with the correct marker proceeds into the body of the read. -/
theorem c5_read_sav_init_check (mem : Nat → Nat) (errNonNull : Bool) :
    (mem 0x813E ≠ 106 ∨ mem 0x813F ≠ 107 →
      lsdj_read_sav mem errNonNull = .error .initCheck) ∧
    (mem 0x813E = 106 → mem 0x813F = 107 →
      lsdj_read_sav mem errNonNull = lsdj_read_sav_body mem errNonNull) := by
  constructor
  · intro h
    unfold lsdj_read_sav
    rw [if_pos h]
  · intro h1 h2
    unfold lsdj_read_sav
    rw [if_neg (by simp [h1, h2])]

/-- Witness for C5: the all-zero file fails the init check; a file with
`'j'`, `'k'` in place proceeds. -/
theorem c5_witness :
    lsdj_read_sav (fun _ => 0) true = .error .initCheck ∧
    lsdj_read_sav (fun k => if k = 0x813E then 106 else if k = 0x813F then 107 else 0) true =
      lsdj_read_sav_body (fun k => if k = 0x813E then 106 else if k = 0x813F then 107 else 0) true := by
  constructor
  · exact (c5_read_sav_init_check (fun _ => 0) true).1 (Or.inl (by decide))
  · exact (c5_read_sav_init_check _ true).2 (by decide) (by decide)

/-- **C6**: reading a song image first verifies the `"rb"` pairs at
offsets `0x1E78`, `0x3E80`, `0x7FF0` relative to the image start, in that
order; a missing marker fails with the format error naming the offset,
before any song structure is parsed, and when all three are present the
read proceeds to parse the song. -/
theorem c6_read_song_rb_markers (l : List Nat) :
    (check_rb l 0x1E78 = false → lsdj_read_song l = .error (.rbMarker 0x1E78)) ∧
    (check_rb l 0x1E78 = true → check_rb l 0x3E80 = false →
      lsdj_read_song l = .error (.rbMarker 0x3E80)) ∧
    (check_rb l 0x1E78 = true → check_rb l 0x3E80 = true → check_rb l 0x7FF0 = false →
      lsdj_read_song l = .error (.rbMarker 0x7FF0)) ∧
    (check_rb l 0x1E78 = true → check_rb l 0x3E80 = true → check_rb l 0x7FF0 = true →
      lsdj_read_song l = .ok (parseSong l)) := by
  refine ⟨?_, ?_, ?_, ?_⟩ <;> intro h1 <;> unfold lsdj_read_song
  · rw [if_pos h1]
  · intro h2
    rw [if_neg (by simp [h1]), if_pos h2]
  · intro h2 h3
    rw [if_neg (by simp [h1]), if_neg (by simp [h2]), if_pos h3]
  · intro h2 h3
    rw [if_neg (by simp [h1]), if_neg (by simp [h2]), if_neg (by simp [h3])]

/-- Witness for C6: the empty image fails at `0x1E78`. -/
theorem c6_witness : lsdj_read_song [] = .error (.rbMarker 0x1E78) :=
  (c6_read_song_rb_markers []).1 (by decide)

/-- **C7** (the code evaluated at the failing input): with block 0 marked
free (owner byte `0xFF`) the scan does not skip the block — it performs
the out-of-bounds `projects[0xFF].song` access, modelled as the
`oobProjectRead` failure. -/
theorem c7_free_block_not_skipped :
    read_compressed_blocks (fun k => if k = 0x8141 then 0xFF else 0) true
      (fun _ => { name := fun _ => 0, version := 0, song := none }) =
    .error (.oobProjectRead 0 0xFF) := rfl

/-- **C9**: when an entity is absent, `lsdj_write_song` fills its region
with the canonical fill bytes: an unallocated chain's phrase array is
sixteen `0xFF` bytes and its transposition array sixteen `0x00` bytes, an
unallocated phrase's instrument-reference array is sixteen `0xFF` bytes,
an unallocated instrument's payload is the 16-byte default instrument
constant, and every other absent array — phrase notes, the six table
columns, phrase commands and command values — is sixteen `0x00` bytes. -/
theorem c9_write_fill_bytes (s : LsdjSong) :
    (∀ i : Fin 128, s.chains i = none →
      ((lsdj_write_song s).drop (0x2080 + 16 * i.val)).take 16 = List.replicate 16 0xFF) ∧
    (∀ i : Fin 128, s.chains i = none →
      ((lsdj_write_song s).drop (0x2880 + 16 * i.val)).take 16 = List.replicate 16 0) ∧
    (∀ i : Fin 255, s.phrases i = none →
      ((lsdj_write_song s).drop (0x7000 + 16 * i.val)).take 16 = List.replicate 16 0xFF) ∧
    (∀ i : Fin 64, s.instruments i = none →
      ((lsdj_write_song s).drop (0x3080 + 16 * i.val)).take 16 = LSDJ_DEFAULT_INSTRUMENT) ∧
    (∀ i : Fin 255, s.phrases i = none →
      ((lsdj_write_song s).drop (16 * i.val)).take 16 = List.replicate 16 0) ∧
    (∀ i : Fin 32, s.tables i = none →
      ((lsdj_write_song s).drop (0x1690 + 16 * i.val)).take 16 = List.replicate 16 0) ∧
    (∀ i : Fin 32, s.tables i = none →
      ((lsdj_write_song s).drop (0x3480 + 16 * i.val)).take 16 = List.replicate 16 0) ∧
    (∀ i : Fin 32, s.tables i = none →
      ((lsdj_write_song s).drop (0x3680 + 16 * i.val)).take 16 = List.replicate 16 0) ∧
    (∀ i : Fin 32, s.tables i = none →
      ((lsdj_write_song s).drop (0x3880 + 16 * i.val)).take 16 = List.replicate 16 0) ∧
    (∀ i : Fin 32, s.tables i = none →
      ((lsdj_write_song s).drop (0x3A80 + 16 * i.val)).take 16 = List.replicate 16 0) ∧
    (∀ i : Fin 32, s.tables i = none →
      ((lsdj_write_song s).drop (0x3C80 + 16 * i.val)).take 16 = List.replicate 16 0) ∧
    (∀ i : Fin 255, s.phrases i = none →
      ((lsdj_write_song s).drop (0x4000 + 16 * i.val)).take 16 = List.replicate 16 0) ∧
    (∀ i : Fin 255, s.phrases i = none →
      ((lsdj_write_song s).drop (0x4FF0 + 16 * i.val)).take 16 = List.replicate 16 0) := by
  have hb0 := write_bank0_length s
  have hb1 := write_bank1_length s
  have hb2 := write_bank2_length s
  have hA1 : (chunks 255 (phraseNotesChunk s)).length = 4080 :=
    @chunks_length 255 16 (phraseNotesChunk s) (phraseNotesChunk_length s)
  have hA2 : (List.ofFn s.bookmarks).length = 64 := List.length_ofFn _
  have hA3 : (List.ofFn s.reserved1030).length = 96 := List.length_ofFn _
  have hA4 : (List.ofFn s.grooves).length = 512 := List.length_ofFn _
  have hA5 : (List.ofFn s.rows).length = 1024 := List.length_ofFn _
  have hB1 : (List.ofFn s.reserved2000).length = 32 := List.length_ofFn _
  have hB2 : (List.ofFn (fun i : Fin 32 =>
      if (s.tables i).isSome then 1 else 0)).length = 32 := List.length_ofFn _
  have hB3 : (List.ofFn (fun i : Fin 64 =>
      if (s.instruments i).isSome then 1 else 0)).length = 64 := List.length_ofFn _
  have hB4 : (chunks 128 (chainPhrasesChunk s)).length = 2048 :=
    @chunks_length 128 16 (chainPhrasesChunk s) (chainPhrasesChunk_length s)
  have hB5 : (chunks 128 (chainTranspositionsChunk s)).length = 2048 :=
    @chunks_length 128 16 (chainTranspositionsChunk s)
      (chainTranspositionsChunk_length s)
  have hB6 : (chunks 64 (instrumentPayloadChunk s)).length = 1024 :=
    @chunks_length 64 16 (instrumentPayloadChunk s)
      (instrumentPayloadChunk_length s)
  have hB7 : (chunks 32 (tableTranspositionsChunk s)).length = 512 :=
    @chunks_length 32 16 (tableTranspositionsChunk s)
      (tableTranspositionsChunk_length s)
  have hB8 : (chunks 32 (tableCommands1Chunk s)).length = 512 :=
    @chunks_length 32 16 (tableCommands1Chunk s) (tableCommands1Chunk_length s)
  have hB9 : (chunks 32 (tableValues1Chunk s)).length = 512 :=
    @chunks_length 32 16 (tableValues1Chunk s) (tableValues1Chunk_length s)
  have hB10 : (chunks 32 (tableCommands2Chunk s)).length = 512 :=
    @chunks_length 32 16 (tableCommands2Chunk s) (tableCommands2Chunk_length s)
  have hC1 : (chunks 255 (phraseCommandsChunk s)).length = 4080 :=
    @chunks_length 255 16 (phraseCommandsChunk s) (phraseCommandsChunk_length s)
  have hD1 : (List.ofFn s.waves).length = 4096 := List.length_ofFn _
  refine ⟨?_, ?_, ?_, ?_, ?_, ?_, ?_, ?_, ?_, ?_, ?_, ?_, ?_⟩
  · intro i h
    unfold lsdj_write_song write_bank1
    simp only [List.append_assoc]
    rw [show 0x2080 + 16 * i.val = 8192 + (32 + (32 + (64 + 16 * i.val))) from by omega]
    rw [drop_chop hb0, drop_chop hB1, drop_chop hB2, drop_chop hB3]
    rw [chunks_extract (chainPhrasesChunk s) (chainPhrasesChunk_length s) _ i]
    unfold chainPhrasesChunk
    rw [h]
    rfl
  · intro i h
    unfold lsdj_write_song write_bank1
    simp only [List.append_assoc]
    rw [show 0x2880 + 16 * i.val =
      8192 + (32 + (32 + (64 + (2048 + 16 * i.val)))) from by omega]
    rw [drop_chop hb0, drop_chop hB1, drop_chop hB2, drop_chop hB3, drop_chop hB4]
    rw [chunks_extract (chainTranspositionsChunk s)
      (chainTranspositionsChunk_length s) _ i]
    unfold chainTranspositionsChunk
    rw [h]
    rfl
  · intro i h
    unfold lsdj_write_song write_bank3
    simp only [List.append_assoc]
    rw [show 0x7000 + 16 * i.val =
      8192 + (8192 + (8192 + (4096 + 16 * i.val))) from by omega]
    rw [drop_chop hb0, drop_chop hb1, drop_chop hb2, drop_chop hD1]
    rw [chunks_extract (phraseInstrumentsChunk s)
      (phraseInstrumentsChunk_length s) _ i]
    unfold phraseInstrumentsChunk
    rw [h]
    rfl
  · intro i h
    unfold lsdj_write_song write_bank1
    simp only [List.append_assoc]
    rw [show 0x3080 + 16 * i.val =
      8192 + (32 + (32 + (64 + (2048 + (2048 + 16 * i.val))))) from by omega]
    rw [drop_chop hb0, drop_chop hB1, drop_chop hB2, drop_chop hB3, drop_chop hB4,
      drop_chop hB5]
    rw [chunks_extract (instrumentPayloadChunk s)
      (instrumentPayloadChunk_length s) _ i]
    unfold instrumentPayloadChunk
    rw [h]
  · intro i h
    unfold lsdj_write_song write_bank0
    simp only [List.append_assoc]
    rw [chunks_extract (phraseNotesChunk s) (phraseNotesChunk_length s) _ i]
    unfold phraseNotesChunk
    rw [h]
    rfl
  · intro i h
    unfold lsdj_write_song write_bank0
    simp only [List.append_assoc]
    rw [show 0x1690 + 16 * i.val =
      4080 + (64 + (96 + (512 + (1024 + 16 * i.val)))) from by omega]
    rw [drop_chop hA1, drop_chop hA2, drop_chop hA3, drop_chop hA4, drop_chop hA5]
    rw [chunks_extract (tableVolumesChunk s) (tableVolumesChunk_length s) _ i]
    unfold tableVolumesChunk
    rw [h]
    rfl
  · intro i h
    unfold lsdj_write_song write_bank1
    simp only [List.append_assoc]
    rw [show 0x3480 + 16 * i.val =
      8192 + (32 + (32 + (64 + (2048 + (2048 + (1024 + 16 * i.val)))))) from by omega]
    rw [drop_chop hb0, drop_chop hB1, drop_chop hB2, drop_chop hB3, drop_chop hB4,
      drop_chop hB5, drop_chop hB6]
    rw [chunks_extract (tableTranspositionsChunk s)
      (tableTranspositionsChunk_length s) _ i]
    unfold tableTranspositionsChunk
    rw [h]
    rfl
  · intro i h
    unfold lsdj_write_song write_bank1
    simp only [List.append_assoc]
    rw [show 0x3680 + 16 * i.val =
      8192 + (32 + (32 + (64 + (2048 + (2048 + (1024 + (512 + 16 * i.val)))))))
      from by omega]
    rw [drop_chop hb0, drop_chop hB1, drop_chop hB2, drop_chop hB3, drop_chop hB4,
      drop_chop hB5, drop_chop hB6, drop_chop hB7]
    rw [chunks_extract (tableCommands1Chunk s) (tableCommands1Chunk_length s) _ i]
    unfold tableCommands1Chunk
    rw [h]
    rfl
  · intro i h
    unfold lsdj_write_song write_bank1
    simp only [List.append_assoc]
    rw [show 0x3880 + 16 * i.val =
      8192 + (32 + (32 + (64 + (2048 + (2048 + (1024 + (512 + (512 + 16 * i.val))))))))
      from by omega]
    rw [drop_chop hb0, drop_chop hB1, drop_chop hB2, drop_chop hB3, drop_chop hB4,
      drop_chop hB5, drop_chop hB6, drop_chop hB7, drop_chop hB8]
    rw [chunks_extract (tableValues1Chunk s) (tableValues1Chunk_length s) _ i]
    unfold tableValues1Chunk
    rw [h]
    rfl
  · intro i h
    unfold lsdj_write_song write_bank1
    simp only [List.append_assoc]
    rw [show 0x3A80 + 16 * i.val =
      8192 + (32 + (32 + (64 + (2048 + (2048 + (1024 + (512 + (512 +
        (512 + 16 * i.val))))))))) from by omega]
    rw [drop_chop hb0, drop_chop hB1, drop_chop hB2, drop_chop hB3, drop_chop hB4,
      drop_chop hB5, drop_chop hB6, drop_chop hB7, drop_chop hB8, drop_chop hB9]
    rw [chunks_extract (tableCommands2Chunk s) (tableCommands2Chunk_length s) _ i]
    unfold tableCommands2Chunk
    rw [h]
    rfl
  · intro i h
    unfold lsdj_write_song write_bank1
    simp only [List.append_assoc]
    rw [show 0x3C80 + 16 * i.val =
      8192 + (32 + (32 + (64 + (2048 + (2048 + (1024 + (512 + (512 + (512 +
        (512 + 16 * i.val)))))))))) from by omega]
    rw [drop_chop hb0, drop_chop hB1, drop_chop hB2, drop_chop hB3, drop_chop hB4,
      drop_chop hB5, drop_chop hB6, drop_chop hB7, drop_chop hB8, drop_chop hB9,
      drop_chop hB10]
    rw [chunks_extract (tableValues2Chunk s) (tableValues2Chunk_length s) _ i]
    unfold tableValues2Chunk
    rw [h]
    rfl
  · intro i h
    unfold lsdj_write_song write_bank2
    simp only [List.append_assoc]
    rw [show 0x4000 + 16 * i.val = 8192 + (8192 + 16 * i.val) from by omega]
    rw [drop_chop hb0, drop_chop hb1]
    rw [chunks_extract (phraseCommandsChunk s) (phraseCommandsChunk_length s) _ i]
    unfold phraseCommandsChunk
    rw [h]
    rfl
  · intro i h
    unfold lsdj_write_song write_bank2
    simp only [List.append_assoc]
    rw [show 0x4FF0 + 16 * i.val = 8192 + (8192 + (4080 + 16 * i.val)) from by omega]
    rw [drop_chop hb0, drop_chop hb1, drop_chop hC1]
    rw [chunks_extract (phraseValuesChunk s) (phraseValuesChunk_length s) _ i]
    unfold phraseValuesChunk
    rw [h]
    rfl

/-- Witness for C9: the all-absent song. -/
theorem c9_witness :
    (emptySong.chains 0 = none ∧
      ((lsdj_write_song emptySong).drop (0x2080 + 16 * 0)).take 16 =
        List.replicate 16 0xFF) ∧
    (emptySong.instruments 0 = none ∧
      ((lsdj_write_song emptySong).drop (0x3080 + 16 * 0)).take 16 =
        LSDJ_DEFAULT_INSTRUMENT) := by
  refine ⟨⟨rfl, ?_⟩, ⟨rfl, ?_⟩⟩
  · exact (c9_write_fill_bytes emptySong).1 0 rfl
  · exact (c9_write_fill_bytes emptySong).2.2.2.1 0 rfl

/-- **C10** (the code evaluated at the failing input): on a version-8
song, `lsdj_table_set_command1` succeeds and stores the encoded byte at
`COMMAND1_OFFSET`, but `lsdj_table_get_command1` reads the untouched byte
at `COMMAND2_OFFSET` and returns command `0` instead of the command `5`
that was set. -/
theorem c10_set_get_command1_mismatch :
    (lsdj_table_set_command1 songBytes8 0 0 5).1 = true ∧
    (lsdj_table_set_command1 songBytes8 0 0 5).2 (COMMAND1_OFFSET + 0) = 6 ∧
    lsdj_table_get_command1 (lsdj_table_set_command1 songBytes8 0 0 5).2 0 0 = 0 ∧
    (0 : Nat) ≠ 5 := by
  refine ⟨rfl, ?_, rfl, by decide⟩
  decide

/-- **C2**: for every song structure `s`, writing `s` with `lsdj_write_song`
and reading the resulting 32 KiB image back with `lsdj_read_song` succeeds
and yields a song equal to `s`: same format version, allocation state,
entity payloads, metadata, and reserved regions. -/
theorem c2_song_write_read_roundtrip (s : LsdjSong) :
    lsdj_read_song (lsdj_write_song s) = .ok s := by
  have h0 : check_rb (lsdj_write_song s) 0x1E78 = true := by
    unfold check_rb
    rw [show byteAt (lsdj_write_song s) (0x1E78 + 1) = 98 from ws_rb0 s 1 (by norm_num)]
    rw [show byteAt (lsdj_write_song s) 0x1E78 = 114 from ws_rb0 s 0 (by norm_num)]
    rfl
  have h1 : check_rb (lsdj_write_song s) 0x3E80 = true := by
    unfold check_rb
    rw [show byteAt (lsdj_write_song s) (0x3E80 + 1) = 98 from ws_rb1 s 1 (by norm_num)]
    rw [show byteAt (lsdj_write_song s) 0x3E80 = 114 from ws_rb1 s 0 (by norm_num)]
    rfl
  have h2 : check_rb (lsdj_write_song s) 0x7FF0 = true := by
    unfold check_rb
    rw [show byteAt (lsdj_write_song s) (0x7FF0 + 1) = 98 from ws_rb3 s 1 (by norm_num)]
    rw [show byteAt (lsdj_write_song s) 0x7FF0 = 114 from ws_rb3 s 0 (by norm_num)]
    rfl
  unfold lsdj_read_song
  rw [if_neg (by simp [h0]), if_neg (by simp [h1]), if_neg (by simp [h2])]
  rw [parseSong_write_song s]

/-! ## Default-constant window detection (`lsdj_compress` scan guards) -/

/-- Unfolding a positive-fuel step of the default-constant scan. -/
theorem patScanF_succ (d : Nat → Nat) (pat : List Nat) (fuel r c : Nat) :
    patScanF d pat (fuel + 1) r c =
    if r + pat.length < LSDJ_SONG_BYTE_COUNT ∧ windowEq d r pat = true ∧ c ≠ 0xFF then
      patScanF d pat fuel (r + pat.length) (c + 1)
    else (r, c) := rfl

/-- The scan count never decreases. -/
theorem patScanF_count_le (d : Nat → Nat) (pat : List Nat) :
    ∀ (fuel r c : Nat), c ≤ (patScanF d pat fuel r c).2 := by
  intro fuel
  induction fuel with
  | zero => intro r c; exact Nat.le_refl c
  | succ n ih =>
    intro r c
    rw [patScanF_succ]
    by_cases h : r + pat.length < LSDJ_SONG_BYTE_COUNT ∧ windowEq d r pat = true ∧ c ≠ 0xFF
    · rw [if_pos h]
      exact Nat.le_trans (Nat.le_succ c) (ih (r + pat.length) (c + 1))
    · rw [if_neg h]

/-- A default-constant scan started with count `0` consumes at least one
copy iff the first window fits strictly inside the buffer
(`read + length < end`) and matches the constant bit-exactly. -/
theorem patScan_pos_iff (d : Nat → Nat) (pat : List Nat) (r : Nat) :
    0 < (patScan d pat r).2 ↔
      (r + pat.length < LSDJ_SONG_BYTE_COUNT ∧ windowEq d r pat = true) := by
  unfold patScan
  rw [show (256 : Nat) = 255 + 1 from rfl, patScanF_succ]
  constructor
  · intro h
    by_cases hg : r + pat.length < LSDJ_SONG_BYTE_COUNT ∧ windowEq d r pat = true ∧
        (0 : Nat) ≠ 0xFF
    · exact ⟨hg.1, hg.2.1⟩
    · rw [if_neg hg] at h
      exact absurd h (Nat.lt_irrefl 0)
  · intro hg
    rw [if_pos ⟨hg.1, hg.2, by norm_num⟩]
    exact Nat.lt_of_lt_of_le Nat.zero_lt_one (patScanF_count_le d pat 255 (r + pat.length) 1)

/-- The first byte of a matching window equals the constant's first
byte. -/
theorem windowEq_head (d : Nat → Nat) (r : Nat) (pat : List Nat)
    (hp : 0 < pat.length) (h : windowEq d r pat = true) : d r = pat.getD 0 0 := by
  unfold windowEq at h
  rw [List.all_eq_true] at h
  have h0 := h 0 (List.mem_range.mpr hp)
  simpa using h0

/-- **C8** (amended): the compressor's event selection emits a default-wave
(resp. default-instrument) event at read position `r` iff the 16-byte
window at `r` equals the constant bit-exactly AND the window ends strictly
before the end of the 32 KiB buffer (`r + 16 < 0x8000`).  The original
claim's "including when it is the final 16 bytes of the input" is false:
the scan guard is strict, so the final window is never detected (see the
counterexample). -/
theorem c8_default_window_detection :
    (∀ (d : Nat → Nat) (r n r2 : Nat), selectEvent d r = (.wave n, r2) →
      windowEq d r LSDJ_DEFAULT_WAVE = true ∧ r + 16 < LSDJ_SONG_BYTE_COUNT) ∧
    (∀ (d : Nat → Nat) (r n r2 : Nat), selectEvent d r = (.instrument n, r2) →
      windowEq d r LSDJ_DEFAULT_INSTRUMENT = true ∧ r + 16 < LSDJ_SONG_BYTE_COUNT) ∧
    (∀ (d : Nat → Nat) (r : Nat), r + 16 < LSDJ_SONG_BYTE_COUNT →
      windowEq d r LSDJ_DEFAULT_WAVE = true →
      ∃ n r2, selectEvent d r = (.wave n, r2) ∧ 0 < n) ∧
    (∀ (d : Nat → Nat) (r : Nat), r + 16 < LSDJ_SONG_BYTE_COUNT →
      windowEq d r LSDJ_DEFAULT_INSTRUMENT = true →
      ∃ n r2, selectEvent d r = (.instrument n, r2) ∧ 0 < n) := by
  have hwl : LSDJ_DEFAULT_WAVE.length = 16 := rfl
  have hil : LSDJ_DEFAULT_INSTRUMENT.length = 16 := rfl
  refine ⟨?_, ?_, ?_, ?_⟩
  · intro d r n r2 h
    by_cases hw : 0 < (patScan d LSDJ_DEFAULT_WAVE r).2
    · have hg := (patScan_pos_iff d LSDJ_DEFAULT_WAVE r).mp hw
      rw [hwl] at hg
      exact ⟨hg.2, hg.1⟩
    · exfalso
      simp only [selectEvent] at h
      rw [if_neg hw] at h
      split_ifs at h <;> simp at h
  · intro d r n r2 h
    by_cases hw : 0 < (patScan d LSDJ_DEFAULT_WAVE r).2
    · exfalso
      simp only [selectEvent] at h
      rw [if_pos hw] at h
      simp at h
    · by_cases hi : 0 < (patScan d LSDJ_DEFAULT_INSTRUMENT r).2
      · have hg := (patScan_pos_iff d LSDJ_DEFAULT_INSTRUMENT r).mp hi
        rw [hil] at hg
        exact ⟨hg.2, hg.1⟩
      · exfalso
        simp only [selectEvent] at h
        rw [if_neg hw, if_neg hi] at h
        split_ifs at h <;> simp at h
  · intro d r hb hwv
    have hpos : 0 < (patScan d LSDJ_DEFAULT_WAVE r).2 :=
      (patScan_pos_iff d LSDJ_DEFAULT_WAVE r).mpr ⟨by rw [hwl]; exact hb, hwv⟩
    refine ⟨(patScan d LSDJ_DEFAULT_WAVE r).2, (patScan d LSDJ_DEFAULT_WAVE r).1, ?_, hpos⟩
    simp only [selectEvent]
    rw [if_pos hpos]
  · intro d r hb hiv
    have hipos : 0 < (patScan d LSDJ_DEFAULT_INSTRUMENT r).2 :=
      (patScan_pos_iff d LSDJ_DEFAULT_INSTRUMENT r).mpr ⟨by rw [hil]; exact hb, hiv⟩
    have hwneg : ¬ 0 < (patScan d LSDJ_DEFAULT_WAVE r).2 := by
      intro hw
      have hg := (patScan_pos_iff d LSDJ_DEFAULT_WAVE r).mp hw
      have e1 := windowEq_head d r LSDJ_DEFAULT_WAVE (by decide) hg.2
      have e2 := windowEq_head d r LSDJ_DEFAULT_INSTRUMENT (by decide) hiv
      rw [e1] at e2
      exact absurd e2 (by decide)
    refine ⟨(patScan d LSDJ_DEFAULT_INSTRUMENT r).2,
      (patScan d LSDJ_DEFAULT_INSTRUMENT r).1, ?_, hipos⟩
    simp only [selectEvent]
    rw [if_neg hwneg, if_pos hipos]

/-- **C8** (counterexample to the original claim): for the input whose
final 16 bytes (positions `0x7FF0`..`0x7FFF`) are exactly the default-wave
constant, the window at the final read position matches the constant
bit-exactly, yet the compressor's event selection consumes a literal byte
there instead of emitting a default-wave event: the scan guard
`read + LSDJ_WAVE_BYTE_COUNT < end` is strict, so a window ending exactly
at the end of the buffer is never detected. -/
theorem c8_counterexample :
    windowEq (fun i => if 0x7FF0 ≤ i then LSDJ_DEFAULT_WAVE.getD (i - 0x7FF0) 0 else 0)
      0x7FF0 LSDJ_DEFAULT_WAVE = true ∧
    selectEvent (fun i => if 0x7FF0 ≤ i then LSDJ_DEFAULT_WAVE.getD (i - 0x7FF0) 0 else 0)
      0x7FF0 = (.lit 0x8E, 0x7FF1) := by
  constructor
  · decide
  · decide

/-- Witness for C8: at read position 0 of a buffer that repeats the
default wave, the window matches and a default-wave event is selected. -/
theorem c8_witness :
    (0 : Nat) + 16 < LSDJ_SONG_BYTE_COUNT ∧
    windowEq (fun i => LSDJ_DEFAULT_WAVE.getD (i % 16) 0) 0 LSDJ_DEFAULT_WAVE = true ∧
    (∃ n r2, selectEvent (fun i => LSDJ_DEFAULT_WAVE.getD (i % 16) 0) 0 = (.wave n, r2) ∧
      0 < n) :=
  ⟨by decide, by decide,
    c8_default_window_detection.2.2.1 (fun i => LSDJ_DEFAULT_WAVE.getD (i % 16) 0) 0
      (by decide) (by decide)⟩

/-! ## Roundtrip support: reading structured streams -/

/-- Splitting a contiguous index range. -/
theorem range'_split (a n m : Nat) :
    List.range' a (n + m) = List.range' a n ++ List.range' (a + n) m := by
  have h := List.range'_append a n m 1
  simp only [Nat.one_mul] at h
  rw [Nat.add_comm n m, ← h]

/-- A matching window reads back as the constant. -/
theorem windowEq_decode (d : Nat → Nat) (r : Nat) (pat : List Nat)
    (h : windowEq d r pat = true) :
    (List.range' r pat.length).map d = pat := by
  apply List.ext_getElem (by simp)
  intro j h1 h2
  unfold windowEq at h
  rw [List.all_eq_true] at h
  have hj := h j (List.mem_range.mpr h2)
  rw [List.getElem_map, List.getElem_range']
  rw [List.getD_eq_getElem pat 0 h2] at hj
  simpa using hj

/-- Reading inside the buffer returns the indexed element. -/
theorem readMem_eq (input : List Nat) (base i : Nat) (hi : i < input.length) :
    readMem input base (base + i) = some (input.getD i 0) := by
  unfold readMem
  rw [if_neg (by omega), show base + i - base = i from by omega,
    List.getElem?_eq_getElem hi, List.getD_eq_getElem input 0 hi]

/-- Reading byte `k` of a chunk placed after a prefix. -/
theorem readMem_chunk (pre bts rest : List Nat) (base k : Nat) (hk : k < bts.length) :
    readMem (pre ++ (bts ++ rest)) base (base + pre.length + k) = some (bts.getD k 0) := by
  rw [show base + pre.length + k = base + (pre.length + k) from by omega]
  rw [readMem_eq _ _ _ (by simp only [List.length_append]; omega)]
  congr 1
  rw [getD_chop rfl (bts ++ rest) k 0]
  exact getD_keep rfl rest hk 0

/-! ## Roundtrip support: scan characterizations -/

/-- Full characterization of the default-constant scan: the returned read
position, a lower bound on the count, the decode equation (the consumed
bytes are exactly that many copies of the constant), and the bound on the
returned position. -/
theorem patScanF_decode (d : Nat → Nat) (pat : List Nat) :
    ∀ (fuel r c : Nat),
      (patScanF d pat fuel r c).1 =
        r + pat.length * ((patScanF d pat fuel r c).2 - c) ∧
      c ≤ (patScanF d pat fuel r c).2 ∧
      (List.range' r (pat.length * ((patScanF d pat fuel r c).2 - c))).map d
        = (List.replicate ((patScanF d pat fuel r c).2 - c) pat).flatten ∧
      ((patScanF d pat fuel r c).1 < LSDJ_SONG_BYTE_COUNT ∨
        (patScanF d pat fuel r c).1 = r) := by
  intro fuel
  induction fuel with
  | zero =>
    intro r c
    refine ⟨by simp [patScanF], Nat.le_refl c, by simp [patScanF], Or.inr rfl⟩
  | succ n ih =>
    intro r c
    rw [patScanF_succ]
    by_cases h : r + pat.length < LSDJ_SONG_BYTE_COUNT ∧ windowEq d r pat = true ∧ c ≠ 0xFF
    · rw [if_pos h]
      obtain ⟨ih1, ih2, ih3, ih4⟩ := ih (r + pat.length) (c + 1)
      have hk : (patScanF d pat n (r + pat.length) (c + 1)).2 - c =
          ((patScanF d pat n (r + pat.length) (c + 1)).2 - (c + 1)) + 1 := by omega
      refine ⟨?_, by omega, ?_, ?_⟩
      · rw [hk, Nat.mul_succ]
        omega
      · rw [hk, Nat.mul_succ, Nat.add_comm (pat.length * _) pat.length, range'_split,
          List.map_append, windowEq_decode d r pat h.2.1, List.replicate_succ,
          List.flatten_cons, ih3]
      · rcases ih4 with h4 | h4
        · exact Or.inl h4
        · exact Or.inl (by omega)
    · rw [if_neg h]
      exact ⟨by simp, Nat.le_refl c, by simp, Or.inr rfl⟩

/-- Unfolding a positive-fuel step of the run-length scan. -/
theorem runScanF_succ (d : Nat → Nat) (c0 : Nat) (fuel r c : Nat) :
    runScanF d c0 (fuel + 1) r c =
    if r < LSDJ_SONG_BYTE_COUNT ∧ d r = c0 ∧ c ≠ 0xFF then
      runScanF d c0 fuel (r + 1) (c + 1)
    else (r, c) := rfl

/-- Full characterization of the run-length scan. -/
theorem runScanF_decode (d : Nat → Nat) (c0 : Nat) :
    ∀ (fuel r c : Nat),
      (runScanF d c0 fuel r c).1 = r + ((runScanF d c0 fuel r c).2 - c) ∧
      c ≤ (runScanF d c0 fuel r c).2 ∧
      (List.range' r ((runScanF d c0 fuel r c).2 - c)).map d
        = List.replicate ((runScanF d c0 fuel r c).2 - c) c0 ∧
      ((runScanF d c0 fuel r c).1 ≤ LSDJ_SONG_BYTE_COUNT ∨
        (runScanF d c0 fuel r c).1 = r) := by
  intro fuel
  induction fuel with
  | zero =>
    intro r c
    refine ⟨by simp [runScanF], Nat.le_refl c, by simp [runScanF], Or.inr rfl⟩
  | succ n ih =>
    intro r c
    rw [runScanF_succ]
    by_cases h : r < LSDJ_SONG_BYTE_COUNT ∧ d r = c0 ∧ c ≠ 0xFF
    · rw [if_pos h]
      obtain ⟨ih1, ih2, ih3, ih4⟩ := ih (r + 1) (c + 1)
      have hk : (runScanF d c0 n (r + 1) (c + 1)).2 - c =
          ((runScanF d c0 n (r + 1) (c + 1)).2 - (c + 1)) + 1 := by omega
      refine ⟨by omega, by omega, ?_, ?_⟩
      · rw [hk, Nat.add_comm _ 1, range'_split, List.map_append]
        simp only [List.range'_one, List.map_cons, List.map_nil]
        rw [h.2.1, ih3, Nat.add_comm 1, List.replicate_succ]
        rfl
      · rcases ih4 with h4 | h4
        · exact Or.inl h4
        · exact Or.inl (by omega)
    · rw [if_neg h]
      exact ⟨by simp, Nat.le_refl c, by simp, Or.inr rfl⟩

/-- The run-length scan count never decreases. -/
theorem runScanF_count_le (d : Nat → Nat) (c0 : Nat) :
    ∀ (fuel r c : Nat), c ≤ (runScanF d c0 fuel r c).2 := by
  intro fuel
  induction fuel with
  | zero => intro r c; exact Nat.le_refl c
  | succ n ih =>
    intro r c
    rw [runScanF_succ]
    by_cases h : r < LSDJ_SONG_BYTE_COUNT ∧ d r = c0 ∧ c ≠ 0xFF
    · rw [if_pos h]
      exact Nat.le_trans (Nat.le_succ c) (ih (r + 1) (c + 1))
    · rw [if_neg h]

/-! ## Roundtrip support: event selection -/

/-- Every event encodes as between one and three stream bytes. -/
theorem CEvent_bytes_len (ev : CEvent) :
    1 ≤ ev.bytes.length ∧ ev.bytes.length ≤ 3 := by
  cases ev <;> simp [CEvent.bytes]

/-- The event selection consumes at least one and never reads past the end
of the 32 KiB input. -/
theorem selectEvent_bounds (d : Nat → Nat) (r : Nat) (hr : r < LSDJ_SONG_BYTE_COUNT) :
    r < (selectEvent d r).2 ∧ (selectEvent d r).2 ≤ LSDJ_SONG_BYTE_COUNT := by
  simp only [selectEvent]
  by_cases hw : 0 < (patScan d LSDJ_DEFAULT_WAVE r).2
  · rw [if_pos hw]
    obtain ⟨e1, _, _, e4⟩ := patScanF_decode d LSDJ_DEFAULT_WAVE 256 r 0
    have hlen : LSDJ_DEFAULT_WAVE.length = 16 := rfl
    rw [hlen] at e1
    unfold patScan at hw ⊢
    constructor
    · omega
    · rcases e4 with h4 | h4 <;> omega
  · rw [if_neg hw]
    by_cases hi : 0 < (patScan d LSDJ_DEFAULT_INSTRUMENT r).2
    · rw [if_pos hi]
      obtain ⟨e1, _, _, e4⟩ := patScanF_decode d LSDJ_DEFAULT_INSTRUMENT 256 r 0
      have hlen : LSDJ_DEFAULT_INSTRUMENT.length = 16 := rfl
      rw [hlen] at e1
      unfold patScan at hi ⊢
      constructor
      · omega
      · rcases e4 with h4 | h4 <;> omega
    · rw [if_neg hi]
      by_cases hc : d r = RUN_LENGTH_ENCODING_BYTE
      · rw [if_pos hc]
        exact ⟨Nat.lt_succ_self r, hr⟩
      · rw [if_neg hc]
        by_cases he : d r = SPECIAL_ACTION_BYTE
        · rw [if_pos he]
          exact ⟨Nat.lt_succ_self r, hr⟩
        · rw [if_neg he]
          by_cases hrun : r + 3 < LSDJ_SONG_BYTE_COUNT ∧ d (r + 1) = d r ∧ d (r + 2) = d r ∧
              d (r + 3) = d r
          · rw [if_pos hrun]
            obtain ⟨e1, _, _, e4⟩ := runScanF_decode d (d r) 256 r 0
            have hc1 : 1 ≤ (runScanF d (d r) 256 r 0).2 := by
              rw [show (256 : Nat) = 255 + 1 from rfl, runScanF_succ,
                if_pos ⟨hr, rfl, by norm_num⟩]
              exact Nat.le_trans (by norm_num) (runScanF_count_le d (d r) 255 (r + 1) 1)
            unfold runScan
            constructor
            · omega
            · rcases e4 with h4 | h4 <;> omega
          · rw [if_neg hrun]
            exact ⟨Nat.lt_succ_self r, hr⟩

/-- Decoding one selected event from the stream: if the stream holds the
event's bytes at the read cursor, one decompression step consumes exactly
those bytes and writes back exactly the input bytes the compressor consumed
for the event. -/
theorem event_step (d : Nat → Nat) (r : Nat) (hr : r < LSDJ_SONG_BYTE_COUNT)
    (ev : CEvent) (r2 : Nat) (hse : selectEvent d r = (ev, r2))
    (pre rest : List Nat) (base : Nat) :
    lsdj_decompress_step (pre ++ (ev.bytes ++ rest)) base (base + pre.length) =
      some (base + pre.length + ev.bytes.length,
        (List.range' r (r2 - r)).map d, none) := by
  simp only [selectEvent] at hse
  by_cases hw : 0 < (patScan d LSDJ_DEFAULT_WAVE r).2
  · rw [if_pos hw] at hse
    have hev : CEvent.wave (patScan d LSDJ_DEFAULT_WAVE r).2 = ev := congrArg Prod.fst hse
    have hr2 : (patScan d LSDJ_DEFAULT_WAVE r).1 = r2 := congrArg Prod.snd hse
    subst hev
    subst hr2
    obtain ⟨e1, _, e3, _⟩ := patScanF_decode d LSDJ_DEFAULT_WAVE 256 r 0
    have hlen : LSDJ_DEFAULT_WAVE.length = 16 := rfl
    rw [hlen] at e1 e3
    simp only [Nat.sub_zero] at e1 e3
    have h0 := readMem_chunk pre ((CEvent.wave (patScan d LSDJ_DEFAULT_WAVE r).2).bytes)
      rest base 0 (by simp [CEvent.bytes])
    have h1 := readMem_chunk pre ((CEvent.wave (patScan d LSDJ_DEFAULT_WAVE r).2).bytes)
      rest base 1 (by simp [CEvent.bytes])
    have h2 := readMem_chunk pre ((CEvent.wave (patScan d LSDJ_DEFAULT_WAVE r).2).bytes)
      rest base 2 (by simp [CEvent.bytes])
    rw [Nat.add_zero] at h0
    unfold lsdj_decompress_step
    rw [h0, Option.some_bind]
    rw [show ((CEvent.wave (patScan d LSDJ_DEFAULT_WAVE r).2).bytes).getD 0 0 =
      SPECIAL_ACTION_BYTE from rfl]
    rw [if_neg (by decide), if_pos rfl]
    unfold decompress_sa_byte
    rw [h1, Option.some_bind]
    rw [show ((CEvent.wave (patScan d LSDJ_DEFAULT_WAVE r).2).bytes).getD 1 0 =
      LSDJ_DEFAULT_WAVE_BYTE from rfl]
    rw [if_neg (by decide), if_pos rfl]
    unfold decompress_default_wave_byte
    rw [show base + pre.length + 1 + 1 = base + pre.length + 2 from by omega, h2,
      Option.some_bind]
    rw [show ((CEvent.wave (patScan d LSDJ_DEFAULT_WAVE r).2).bytes).getD 2 0 =
      (patScan d LSDJ_DEFAULT_WAVE r).2 from rfl]
    simp only [Option.map_some']
    rw [show patScanF d LSDJ_DEFAULT_WAVE 256 r 0 = patScan d LSDJ_DEFAULT_WAVE r
      from rfl] at e1 e3
    rw [show (CEvent.wave (patScan d LSDJ_DEFAULT_WAVE r).2).bytes.length = 3 from rfl]
    rw [show (patScan d LSDJ_DEFAULT_WAVE r).1 - r =
      16 * (patScan d LSDJ_DEFAULT_WAVE r).2 from by omega]
    rw [e3]
  · rw [if_neg hw] at hse
    by_cases hi : 0 < (patScan d LSDJ_DEFAULT_INSTRUMENT r).2
    · rw [if_pos hi] at hse
      have hev : CEvent.instrument (patScan d LSDJ_DEFAULT_INSTRUMENT r).2 = ev :=
        congrArg Prod.fst hse
      have hr2 : (patScan d LSDJ_DEFAULT_INSTRUMENT r).1 = r2 := congrArg Prod.snd hse
      subst hev
      subst hr2
      obtain ⟨e1, _, e3, _⟩ := patScanF_decode d LSDJ_DEFAULT_INSTRUMENT 256 r 0
      have hlen : LSDJ_DEFAULT_INSTRUMENT.length = 16 := rfl
      rw [hlen] at e1 e3
      simp only [Nat.sub_zero] at e1 e3
      have h0 := readMem_chunk pre
        ((CEvent.instrument (patScan d LSDJ_DEFAULT_INSTRUMENT r).2).bytes)
        rest base 0 (by simp [CEvent.bytes])
      have h1 := readMem_chunk pre
        ((CEvent.instrument (patScan d LSDJ_DEFAULT_INSTRUMENT r).2).bytes)
        rest base 1 (by simp [CEvent.bytes])
      have h2 := readMem_chunk pre
        ((CEvent.instrument (patScan d LSDJ_DEFAULT_INSTRUMENT r).2).bytes)
        rest base 2 (by simp [CEvent.bytes])
      rw [Nat.add_zero] at h0
      unfold lsdj_decompress_step
      rw [h0, Option.some_bind]
      rw [show ((CEvent.instrument (patScan d LSDJ_DEFAULT_INSTRUMENT r).2).bytes).getD 0 0 =
        SPECIAL_ACTION_BYTE from rfl]
      rw [if_neg (by decide), if_pos rfl]
      unfold decompress_sa_byte
      rw [h1, Option.some_bind]
      rw [show ((CEvent.instrument (patScan d LSDJ_DEFAULT_INSTRUMENT r).2).bytes).getD 1 0 =
        LSDJ_DEFAULT_INSTRUMENT_BYTE from rfl]
      rw [if_neg (by decide), if_neg (by decide), if_pos rfl]
      unfold decompress_default_instrument_byte
      rw [show base + pre.length + 1 + 1 = base + pre.length + 2 from by omega, h2,
        Option.some_bind]
      rw [show ((CEvent.instrument (patScan d LSDJ_DEFAULT_INSTRUMENT r).2).bytes).getD 2 0 =
        (patScan d LSDJ_DEFAULT_INSTRUMENT r).2 from rfl]
      simp only [Option.map_some']
      rw [show patScanF d LSDJ_DEFAULT_INSTRUMENT 256 r 0 = patScan d LSDJ_DEFAULT_INSTRUMENT r
        from rfl] at e1 e3
      rw [show (CEvent.instrument (patScan d LSDJ_DEFAULT_INSTRUMENT r).2).bytes.length = 3
        from rfl]
      rw [show (patScan d LSDJ_DEFAULT_INSTRUMENT r).1 - r =
        16 * (patScan d LSDJ_DEFAULT_INSTRUMENT r).2 from by omega]
      rw [e3]
    · rw [if_neg hi] at hse
      by_cases hc : d r = RUN_LENGTH_ENCODING_BYTE
      · rw [if_pos hc] at hse
        have hev : CEvent.rleEscape = ev := congrArg Prod.fst hse
        have hr2 : r + 1 = r2 := congrArg Prod.snd hse
        subst hev
        subst hr2
        have h0 := readMem_chunk pre (CEvent.rleEscape.bytes) rest base 0 (by simp [CEvent.bytes])
        have h1 := readMem_chunk pre (CEvent.rleEscape.bytes) rest base 1 (by simp [CEvent.bytes])
        rw [Nat.add_zero] at h0
        unfold lsdj_decompress_step
        rw [h0, Option.some_bind,
          show (CEvent.rleEscape.bytes).getD 0 0 = RUN_LENGTH_ENCODING_BYTE from rfl,
          if_pos rfl]
        unfold decompress_rle_byte
        rw [h1, Option.some_bind,
          show (CEvent.rleEscape.bytes).getD 1 0 = RUN_LENGTH_ENCODING_BYTE from rfl,
          if_pos rfl]
        simp only [Option.map_some']
        rw [show r + 1 - r = 1 from by omega]
        rw [show (List.range' r 1).map d = [d r] from by simp]
        rw [hc]
        rfl
      · rw [if_neg hc] at hse
        by_cases he : d r = SPECIAL_ACTION_BYTE
        · rw [if_pos he] at hse
          have hev : CEvent.saEscape = ev := congrArg Prod.fst hse
          have hr2 : r + 1 = r2 := congrArg Prod.snd hse
          subst hev
          subst hr2
          have h0 := readMem_chunk pre (CEvent.saEscape.bytes) rest base 0
            (by simp [CEvent.bytes])
          have h1 := readMem_chunk pre (CEvent.saEscape.bytes) rest base 1
            (by simp [CEvent.bytes])
          rw [Nat.add_zero] at h0
          unfold lsdj_decompress_step
          rw [h0, Option.some_bind,
            show (CEvent.saEscape.bytes).getD 0 0 = SPECIAL_ACTION_BYTE from rfl,
            if_neg (by decide), if_pos rfl]
          unfold decompress_sa_byte
          rw [h1, Option.some_bind,
            show (CEvent.saEscape.bytes).getD 1 0 = SPECIAL_ACTION_BYTE from rfl,
            if_pos rfl]
          rw [show r + 1 - r = 1 from by omega]
          rw [show (List.range' r 1).map d = [d r] from by simp]
          rw [he]
          rfl
        · rw [if_neg he] at hse
          by_cases hrun : r + 3 < LSDJ_SONG_BYTE_COUNT ∧ d (r + 1) = d r ∧ d (r + 2) = d r ∧
              d (r + 3) = d r
          · rw [if_pos hrun] at hse
            have hev : CEvent.run (d r) (runScan d (d r) r).2 = ev := congrArg Prod.fst hse
            have hr2 : (runScan d (d r) r).1 = r2 := congrArg Prod.snd hse
            subst hev
            subst hr2
            obtain ⟨e1, _, e3, _⟩ := runScanF_decode d (d r) 256 r 0
            simp only [Nat.sub_zero] at e1 e3
            have h0 := readMem_chunk pre ((CEvent.run (d r) (runScan d (d r) r).2).bytes)
              rest base 0 (by simp [CEvent.bytes])
            have h1 := readMem_chunk pre ((CEvent.run (d r) (runScan d (d r) r).2).bytes)
              rest base 1 (by simp [CEvent.bytes])
            have h2 := readMem_chunk pre ((CEvent.run (d r) (runScan d (d r) r).2).bytes)
              rest base 2 (by simp [CEvent.bytes])
            rw [Nat.add_zero] at h0
            unfold lsdj_decompress_step
            rw [h0, Option.some_bind,
              show ((CEvent.run (d r) (runScan d (d r) r).2).bytes).getD 0 0 =
                RUN_LENGTH_ENCODING_BYTE from rfl,
              if_pos rfl]
            unfold decompress_rle_byte
            rw [h1, Option.some_bind,
              show ((CEvent.run (d r) (runScan d (d r) r).2).bytes).getD 1 0 = d r from rfl,
              if_neg hc]
            rw [show base + pre.length + 1 + 1 = base + pre.length + 2 from by omega, h2,
              Option.some_bind,
              show ((CEvent.run (d r) (runScan d (d r) r).2).bytes).getD 2 0 =
                (runScan d (d r) r).2 from rfl]
            simp only [Option.map_some']
            rw [show runScanF d (d r) 256 r 0 = runScan d (d r) r from rfl] at e1 e3
            rw [show (CEvent.run (d r) (runScan d (d r) r).2).bytes.length = 3 from rfl]
            rw [show (runScan d (d r) r).1 - r = (runScan d (d r) r).2 from by omega]
            rw [e3]
          · rw [if_neg hrun] at hse
            have hev : CEvent.lit (d r) = ev := congrArg Prod.fst hse
            have hr2 : r + 1 = r2 := congrArg Prod.snd hse
            subst hev
            subst hr2
            have h0 := readMem_chunk pre ((CEvent.lit (d r)).bytes) rest base 0
              (by simp [CEvent.bytes])
            rw [Nat.add_zero] at h0
            unfold lsdj_decompress_step
            rw [h0, Option.some_bind,
              show ((CEvent.lit (d r)).bytes).getD 0 0 = d r from rfl,
              if_neg hc, if_neg he]
            rw [show r + 1 - r = 1 from by omega]
            rw [show (List.range' r 1).map d = [d r] from by simp]
            rfl

/-! ## Roundtrip support: the block loop -/

/-- Unfolding a positive-fuel step of the in-block loop. -/
theorem stepsInBlockF_succ (input : List Nat) (base fuel p : Nat) :
    stepsInBlockF input base (fuel + 1) p =
    match lsdj_decompress_step input base p with
    | none => none
    | some (q, out, some v) => some (q, out, v)
    | some (q, out, none) =>
      (stepsInBlockF input base fuel q).map (fun t => (t.1, out ++ t.2.1, t.2.2)) := rfl

/-- More fuel preserves a successful in-block run. -/
theorem stepsInBlockF_mono (input : List Nat) (base : Nat) :
    ∀ (f1 f2 p : Nat) (t : Nat × List Nat × Nat), f1 ≤ f2 →
      stepsInBlockF input base f1 p = some t → stepsInBlockF input base f2 p = some t := by
  intro f1
  induction f1 with
  | zero =>
    intro f2 p t _ h
    simp [stepsInBlockF] at h
  | succ n ih =>
    intro f2 p t hle h
    obtain ⟨m, rfl⟩ : ∃ m, f2 = m + 1 := ⟨f2 - 1, by omega⟩
    rw [stepsInBlockF_succ] at h ⊢
    cases hstep : lsdj_decompress_step input base p with
    | none => rw [hstep] at h; simp at h
    | some q =>
      obtain ⟨q1, out, vo⟩ := q
      rw [hstep] at h
      cases vo with
      | some v => exact h
      | none =>
        replace h : Option.map (fun t => (t.1, out ++ t.2.1, t.2.2))
            (stepsInBlockF input base n q1) = some t := h
        show Option.map (fun t => (t.1, out ++ t.2.1, t.2.2))
            (stepsInBlockF input base m q1) = some t
        rcases Option.map_eq_some'.mp h with ⟨t0, ht0, hmap⟩
        rw [ih m q1 t0 (by omega) ht0]
        rw [← hmap]
        rfl

/-- If any fuel completes the in-block loop, the canonical fuel
`input.length + 1` used by `stepsInBlock` completes it with the same
result: every step consumes at least one buffer byte. -/
theorem stepsInBlockF_complete (input : List Nat) (base : Nat) :
    ∀ (f p : Nat) (t : Nat × List Nat × Nat),
      stepsInBlockF input base f p = some t →
      ∀ g, input.length - (p - base) < g →
      stepsInBlockF input base g p = some t := by
  intro f
  induction f with
  | zero =>
    intro p t h
    simp [stepsInBlockF] at h
  | succ n ih =>
    intro p t h g hg
    obtain ⟨m, rfl⟩ : ∃ m, g = m + 1 := ⟨g - 1, by omega⟩
    rw [stepsInBlockF_succ] at h ⊢
    cases hstep : lsdj_decompress_step input base p with
    | none => rw [hstep] at h; simp at h
    | some q =>
      obtain ⟨q1, out, vo⟩ := q
      rw [hstep] at h
      cases vo with
      | some v => exact h
      | none =>
        replace h : Option.map (fun t => (t.1, out ++ t.2.1, t.2.2))
            (stepsInBlockF input base n q1) = some t := h
        show Option.map (fun t => (t.1, out ++ t.2.1, t.2.2))
            (stepsInBlockF input base m q1) = some t
        rcases Option.map_eq_some'.mp h with ⟨t0, ht0, hmap⟩
        have hadv := lsdj_decompress_step_advance hstep
        have hrec : stepsInBlockF input base m q1 = some t0 := by
          apply ih q1 t0 ht0
          omega
        rw [hrec, ← hmap]
        rfl

/-- A finished in-block run (at any fuel) determines the block result. -/
theorem block_of_steps {input : List Nat} {base p f : Nat} {pend : Nat}
    {o : List Nat} {v : Nat}
    (h : stepsInBlockF input base f p = some (pend, o, v)) :
    lsdj_decompress_block input base p = some (p + LSDJ_BLOCK_SIZE, o, v) := by
  have hc : stepsInBlock input base p = some (pend, o, v) := by
    unfold stepsInBlock
    exact stepsInBlockF_complete input base f p _ h _ (by omega)
  unfold lsdj_decompress_block
  rw [hc]

/-- Reading a block-jump or end-of-stream command `E0 v`
(`v ∉ {E0, F0, F1}`) reports the jump value and writes nothing. -/
theorem step_jump (pre rest : List Nat) (base jb : Nat)
    (h1 : jb ≠ 0xE0) (h2 : jb ≠ 0xF0) (h3 : jb ≠ 0xF1) :
    lsdj_decompress_step (pre ++ ([0xE0, jb] ++ rest)) base (base + pre.length) =
      some (base + pre.length + 2, [], some jb) := by
  have r0 := readMem_chunk pre [0xE0, jb] rest base 0 (by simp)
  have r1 := readMem_chunk pre [0xE0, jb] rest base 1 (by simp)
  rw [Nat.add_zero] at r0
  unfold lsdj_decompress_step
  rw [r0, Option.some_bind, show ([ (0xE0 : Nat), jb]).getD 0 0 = 0xE0 from rfl]
  rw [if_neg (by decide), if_pos (by decide)]
  unfold decompress_sa_byte
  rw [r1, Option.some_bind, show ([ (0xE0 : Nat), jb]).getD 1 0 = jb from rfl]
  rw [if_neg (by simpa [SPECIAL_ACTION_BYTE] using h1),
    if_neg (by simpa [LSDJ_DEFAULT_WAVE_BYTE] using h2),
    if_neg (by simpa [LSDJ_DEFAULT_INSTRUMENT_BYTE] using h3)]

/-- Unfolding a positive-fuel iteration of the block loop. -/
theorem decompressLoop_succ (input : List Nat) (base fbp : Nat) (follow : Bool)
    (fuel p : Nat) :
    decompressLoop input base fbp follow (fuel + 1) p =
    match lsdj_decompress_block input base p with
    | none => .fail
    | some (q, out, v) =>
      if v = LSDJ_END_OF_FILE_BLOCK_INDEX then .done q out
      else
        (decompressLoop input base fbp follow fuel
          (if follow then fbp + ((v + 255) % 256) * LSDJ_BLOCK_SIZE else q)).prepend out :=
  rfl

/-- `prepend` with no bytes is the identity. -/
theorem prepend_nil (l : LoopResult) : LoopResult.prepend [] l = l := by
  cases l <;> simp [LoopResult.prepend]

/-- Inverting `prepend` on a `done` result. -/
theorem prepend_done_inv {pre : List Nat} {l : LoopResult} {pf : Nat} {out : List Nat}
    (h : LoopResult.prepend pre l = .done pf out) :
    ∃ out0, l = .done pf out0 ∧ out = pre ++ out0 := by
  cases l with
  | done a b =>
    simp only [LoopResult.prepend] at h
    cases h
    exact ⟨b, rfl, rfl⟩
  | fail => simp [LoopResult.prepend] at h
  | spin => simp [LoopResult.prepend] at h

/-- Inverting a successful block decompression. -/
theorem block_inv {input : List Nat} {base p q : Nat} {o : List Nat} {v : Nat}
    (h : lsdj_decompress_block input base p = some (q, o, v)) :
    q = p + LSDJ_BLOCK_SIZE ∧ ∃ pend, stepsInBlock input base p = some (pend, o, v) := by
  unfold lsdj_decompress_block at h
  cases hs : stepsInBlock input base p with
  | none => rw [hs] at h; simp at h
  | some t =>
    obtain ⟨pend, o2, v2⟩ := t
    rw [hs] at h
    replace h : some (p + LSDJ_BLOCK_SIZE, o2, v2) = some (q, o, v) := h
    have hinj := Option.some.inj h
    obtain ⟨h1, h2, h3⟩ : p + LSDJ_BLOCK_SIZE = q ∧ o2 = o ∧ v2 = v :=
      ⟨congrArg Prod.fst hinj, congrArg (fun x => x.2.1) hinj,
        congrArg (fun x => x.2.2) hinj⟩
    subst h1
    subst h2
    subst h3
    exact ⟨rfl, pend, rfl⟩

/-- Prepending a non-reporting decompression step to a block loop that ends
the stream: the loop from the earlier position ends the stream with the
step's bytes prepended. -/
theorem loop_prepend_step {input : List Nat} {base fbp p p2 : Nat} {o : List Nat}
    (hstep : lsdj_decompress_step input base p = some (p2, o, none))
    {df pf : Nat} {out : List Nat}
    (h : decompressLoop input base fbp true df p2 = .done pf out) :
    ∃ pf2, decompressLoop input base fbp true df p = .done pf2 (o ++ out) := by
  cases df with
  | zero => simp [decompressLoop] at h
  | succ g =>
    rw [decompressLoop_succ] at h ⊢
    cases hblk : lsdj_decompress_block input base p2 with
    | none => rw [hblk] at h; simp at h
    | some t =>
      obtain ⟨q2, o2, v⟩ := t
      rw [hblk] at h
      simp only at h
      obtain ⟨hq2, pend, hsteps⟩ := block_inv hblk
      have hcomb : stepsInBlockF input base (input.length + 1 + 1) p =
          some (pend, o ++ o2, v) := by
        rw [stepsInBlockF_succ, hstep]
        simp only
        rw [show stepsInBlock input base p2 =
          stepsInBlockF input base (input.length + 1) p2 from rfl] at hsteps
        rw [hsteps]
        rfl
      rw [block_of_steps hcomb]
      simp only
      by_cases hv : v = LSDJ_END_OF_FILE_BLOCK_INDEX
      · rw [if_pos hv]
        rw [if_pos hv] at h
        cases h
        exact ⟨p + LSDJ_BLOCK_SIZE, rfl⟩
      · rw [if_neg hv]
        rw [if_neg hv] at h
        simp only [if_true] at h ⊢
        obtain ⟨out0, hrec, hout⟩ := prepend_done_inv h
        subst hout
        rw [hrec]
        exact ⟨pf, by simp [LoopResult.prepend]⟩

/-- `loop_prepend_step` with the stream and position of the continuation
given up to equality (the caller's expressions may be differently
associated). -/
theorem loop_prepend_step2 {input input2 : List Nat} {base fbp p p2 p3 : Nat}
    {o : List Nat}
    (hstep : lsdj_decompress_step input base p = some (p2, o, none))
    (hin : input2 = input) (hp : p3 = p2)
    {df pf : Nat} {out : List Nat}
    (h : decompressLoop input2 base fbp true df p3 = .done pf out) :
    ∃ pf2, decompressLoop input base fbp true df p = .done pf2 (o ++ out) := by
  subst hin
  subst hp
  exact loop_prepend_step hstep h

/-! ## Roundtrip support: the compressor loop -/

/-- `compressGo` at fuel zero. -/
theorem compressGo_zero (d : Nat → Nat) (r B s : Nat) (out : List Nat)
    (tr : List (Nat × CEvent)) :
    compressGo d 0 r B s out tr =
      if LSDJ_SONG_BYTE_COUNT ≤ r then some (B, s, out, tr) else none := rfl

/-- Unfolding one positive-fuel iteration of `compressGo`. -/
theorem compressGo_succ (d : Nat → Nat) (fuel r B s : Nat) (out : List Nat)
    (tr : List (Nat × CEvent)) :
    compressGo d (fuel + 1) r B s out tr =
    if LSDJ_SONG_BYTE_COUNT ≤ r then some (B, s, out, tr)
    else
      if LSDJ_BLOCK_SIZE ≤ s + (selectEvent d r).1.bytes.length + 2 then
        if B + 1 = LSDJ_BLOCK_COUNT + 1 then none
        else compressGo d fuel (selectEvent d r).2 (B + 1) (selectEvent d r).1.bytes.length
          ((out ++ [SPECIAL_ACTION_BYTE, B + 1] ++
            List.replicate (LSDJ_BLOCK_SIZE - (s + 2)) 0) ++ (selectEvent d r).1.bytes)
          (tr ++ [(r, (selectEvent d r).1)])
      else compressGo d fuel (selectEvent d r).2 B (s + (selectEvent d r).1.bytes.length)
        (out ++ (selectEvent d r).1.bytes) (tr ++ [(r, (selectEvent d r).1)]) := rfl

/-- The compressor only appends to the output stream and the trace: running
with accumulators `out`/`tr` is running with empty accumulators and
prefixing. -/
theorem compressGo_shift (d : Nat → Nat) :
    ∀ (fuel r B s : Nat) (out : List Nat) (tr : List (Nat × CEvent)),
      compressGo d fuel r B s out tr =
        (compressGo d fuel r B s [] []).map
          (fun q => (q.1, q.2.1, out ++ q.2.2.1, tr ++ q.2.2.2)) := by
  intro fuel
  induction fuel with
  | zero =>
    intro r B s out tr
    rw [compressGo_zero, compressGo_zero]
    by_cases h : LSDJ_SONG_BYTE_COUNT ≤ r
    · rw [if_pos h, if_pos h]
      simp
    · rw [if_neg h, if_neg h]
      rfl
  | succ n ih =>
    intro r B s out tr
    rw [compressGo_succ, compressGo_succ]
    by_cases h : LSDJ_SONG_BYTE_COUNT ≤ r
    · rw [if_pos h, if_pos h]
      simp
    · rw [if_neg h, if_neg h]
      by_cases hcl : LSDJ_BLOCK_SIZE ≤ s + (selectEvent d r).1.bytes.length + 2
      · rw [if_pos hcl, if_pos hcl]
        by_cases hful : B + 1 = LSDJ_BLOCK_COUNT + 1
        · rw [if_pos hful, if_pos hful]
          rfl
        · rw [if_neg hful, if_neg hful]
          rw [ih _ _ _ (([] ++ [SPECIAL_ACTION_BYTE, B + 1] ++
            List.replicate (LSDJ_BLOCK_SIZE - (s + 2)) 0) ++ (selectEvent d r).1.bytes) _]
          rw [ih _ _ _ ((out ++ [SPECIAL_ACTION_BYTE, B + 1] ++
            List.replicate (LSDJ_BLOCK_SIZE - (s + 2)) 0) ++ (selectEvent d r).1.bytes) _]
          cases compressGo d n (selectEvent d r).2 (B + 1)
            (selectEvent d r).1.bytes.length [] [] with
          | none => rfl
          | some q => simp
      · rw [if_neg hcl, if_neg hcl]
        rw [ih _ _ _ ([] ++ (selectEvent d r).1.bytes) _]
        rw [ih _ _ _ (out ++ (selectEvent d r).1.bytes) _]
        cases compressGo d n (selectEvent d r).2 B
          (s + (selectEvent d r).1.bytes.length) [] [] with
        | none => rfl
        | some q => simp

/-- The block counter is monotone along the compressor loop and stays within
the 191-block budget. -/
theorem compressGo_B_bounds (d : Nat → Nat) :
    ∀ (fuel r B s : Nat) (out : List Nat) (tr : List (Nat × CEvent))
      (res : Nat × Nat × List Nat × List (Nat × CEvent)),
      compressGo d fuel r B s out tr = some res →
      B ≤ LSDJ_BLOCK_COUNT →
      B ≤ res.1 ∧ res.1 ≤ LSDJ_BLOCK_COUNT := by
  intro fuel
  induction fuel with
  | zero =>
    intro r B s out tr res h hB
    rw [compressGo_zero] at h
    by_cases hr : LSDJ_SONG_BYTE_COUNT ≤ r
    · rw [if_pos hr] at h
      cases h
      exact ⟨Nat.le_refl B, hB⟩
    · rw [if_neg hr] at h
      simp at h
  | succ n ih =>
    intro r B s out tr res h hB
    rw [compressGo_succ] at h
    by_cases hr : LSDJ_SONG_BYTE_COUNT ≤ r
    · rw [if_pos hr] at h
      cases h
      exact ⟨Nat.le_refl B, hB⟩
    · rw [if_neg hr] at h
      by_cases hcl : LSDJ_BLOCK_SIZE ≤ s + (selectEvent d r).1.bytes.length + 2
      · rw [if_pos hcl] at h
        by_cases hful : B + 1 = LSDJ_BLOCK_COUNT + 1
        · rw [if_pos hful] at h
          simp at h
        · rw [if_neg hful] at h
          have hB1 : B + 1 ≤ LSDJ_BLOCK_COUNT := by
            unfold LSDJ_BLOCK_COUNT at hB hful ⊢
            omega
          have := ih _ _ _ _ _ _ h hB1
          exact ⟨by omega, this.2⟩
      · rw [if_neg hcl] at h
        exact ih _ _ _ _ _ _ h hB

/-! ## Roundtrip: the main induction -/

/-- Concatenating the decodes of adjacent input ranges. -/
theorem map_range'_concat (d : Nat → Nat) (r r2 N2 : Nat) (h1 : r ≤ r2) (h2 : r2 ≤ N2) :
    (List.range' r (r2 - r)).map d ++ (List.range' r2 (N2 - r2)).map d
      = (List.range' r (N2 - r)).map d := by
  rw [show N2 - r = (r2 - r) + (N2 - r2) from by omega, range'_split,
    show r + (r2 - r) = r2 from by omega, List.map_append]

/-- Once the compressor has consumed the whole input, the stream holds the
end-of-stream command `E0 FF` and the block loop finishes with no further
output. -/
theorem loop_done_case (d : Nat → Nat) (r base : Nat)
    (hN : LSDJ_SONG_BYTE_COUNT ≤ r)
    (pre post : List Nat) (g : Nat) :
    ∃ pf, decompressLoop (pre ++ ([0xE0, 0xFF] ++ post)) base 0 true (g + 1)
        (base + pre.length) =
      .done pf ((List.range' r (LSDJ_SONG_BYTE_COUNT - r)).map d) := by
  have hreq : LSDJ_SONG_BYTE_COUNT - r = 0 := by
    have h1 : (32768 : Nat) ≤ r := hN
    show (32768 : Nat) - r = 0
    omega
  rw [hreq]
  have hstep := step_jump pre post base 0xFF (by norm_num) (by norm_num) (by norm_num)
  have hsteps : stepsInBlockF (pre ++ ([0xE0, 0xFF] ++ post)) base (0 + 1)
      (base + pre.length) = some (base + pre.length + 2, [], 0xFF) := by
    rw [stepsInBlockF_succ, hstep]
  have hblock := block_of_steps hsteps
  rw [decompressLoop_succ, hblock]
  exact ⟨base + pre.length + LSDJ_BLOCK_SIZE, rfl⟩

/-- Main roundtrip induction: a successful run of the compressor's main
loop from state `(r, B, s)` produces a stream segment that, followed by the
end-of-stream command, decompresses under the block loop (from the stream
position corresponding to the state) to exactly the remaining input bytes
`d r, …, d 0x7FFF`. -/
theorem compress_decompress_go (d : Nat → Nat) (b base : Nat) (hb1 : 1 ≤ b)
    (hbase : base = (b - 1) * 512) :
    ∀ (fuel r B s B2 s2 : Nat) (delta : List Nat) (td : List (Nat × CEvent)),
      compressGo d fuel r B s [] [] = some (B2, s2, delta, td) →
      b ≤ B → B ≤ 191 → s ≤ 509 →
      ∀ (pre post : List Nat), pre.length = (B - b) * 512 + s →
      ∀ df, B2 - B < df →
      ∃ pf, decompressLoop (pre ++ (delta ++ ([0xE0, 0xFF] ++ post))) base 0 true df
          (base + pre.length) =
        .done pf ((List.range' r (LSDJ_SONG_BYTE_COUNT - r)).map d) := by
  intro fuel
  induction fuel with
  | zero =>
    intro r B s B2 s2 delta td h hbB hB191 hs pre post hpre df hdf
    rw [compressGo_zero] at h
    by_cases hN : LSDJ_SONG_BYTE_COUNT ≤ r
    · rw [if_pos hN] at h
      have hdelta : ([] : List Nat) = delta :=
        congrArg (fun x => x.2.2.1) (Option.some.inj h)
      rw [← hdelta, List.nil_append]
      obtain ⟨g, rfl⟩ : ∃ g, df = g + 1 := ⟨df - 1, by omega⟩
      exact loop_done_case d r base hN pre post g
    · rw [if_neg hN] at h
      simp at h
  | succ n ih =>
    intro r B s B2 s2 delta td h hbB hB191 hs pre post hpre df hdf
    rw [compressGo_succ] at h
    by_cases hN : LSDJ_SONG_BYTE_COUNT ≤ r
    · rw [if_pos hN] at h
      have hdelta : ([] : List Nat) = delta :=
        congrArg (fun x => x.2.2.1) (Option.some.inj h)
      rw [← hdelta, List.nil_append]
      obtain ⟨g, rfl⟩ : ∃ g, df = g + 1 := ⟨df - 1, by omega⟩
      exact loop_done_case d r base hN pre post g
    · rw [if_neg hN] at h
      have hblen := CEvent_bytes_len (selectEvent d r).1
      have hbnds := selectEvent_bounds d r (Nat.not_le.mp hN)
      by_cases hcl : LSDJ_BLOCK_SIZE ≤ s + (selectEvent d r).1.bytes.length + 2
      · rw [if_pos hcl] at h
        by_cases hful : B + 1 = LSDJ_BLOCK_COUNT + 1
        · rw [if_pos hful] at h
          simp at h
        · rw [if_neg hful] at h
          rw [compressGo_shift] at h
          rcases Option.map_eq_some'.mp h with ⟨q, hq, hmap⟩
          obtain ⟨qB, qs, qdelta, qtd⟩ := q
          have hqB : qB = B2 := congrArg (fun x => x.1) hmap
          have hdelta : (([] ++ [SPECIAL_ACTION_BYTE, B + 1] ++
              List.replicate (LSDJ_BLOCK_SIZE - (s + 2)) 0) ++
              (selectEvent d r).1.bytes) ++ qdelta = delta :=
            congrArg (fun x => x.2.2.1) hmap
          have hdelta2 : delta = [0xE0, B + 1] ++ (List.replicate (512 - (s + 2)) 0 ++
              ((selectEvent d r).1.bytes ++ qdelta)) := by
            rw [← hdelta]
            simp [SPECIAL_ACTION_BYTE, LSDJ_BLOCK_SIZE, List.append_assoc]
          have hful' : ¬ B + 1 = 192 := hful
          have hB190 : B ≤ 190 := by omega
          rw [hdelta2]
          rw [show ([0xE0, B + 1] ++ (List.replicate (512 - (s + 2)) 0 ++
              ((selectEvent d r).1.bytes ++ qdelta))) ++ ([0xE0, 0xFF] ++ post) =
            [0xE0, B + 1] ++ (List.replicate (512 - (s + 2)) 0 ++
              ((selectEvent d r).1.bytes ++ (qdelta ++ ([0xE0, 0xFF] ++ post))))
            from by simp [List.append_assoc]]
          have hstep1 := step_jump pre (List.replicate (512 - (s + 2)) 0 ++
              ((selectEvent d r).1.bytes ++ (qdelta ++ ([0xE0, 0xFF] ++ post)))) base (B + 1)
            (by omega) (by omega) (by omega)
          have hsteps1 : stepsInBlockF (pre ++ ([0xE0, B + 1] ++
              (List.replicate (512 - (s + 2)) 0 ++
              ((selectEvent d r).1.bytes ++ (qdelta ++ ([0xE0, 0xFF] ++ post))))))
              base (0 + 1) (base + pre.length) =
              some (base + pre.length + 2, [], B + 1) := by
            rw [stepsInBlockF_succ, hstep1]
          have hblk1 := block_of_steps hsteps1
          obtain ⟨g, rfl⟩ : ∃ g, df = g + 1 := ⟨df - 1, by omega⟩
          have hqbnd := compressGo_B_bounds d n (selectEvent d r).2 (B + 1)
            (selectEvent d r).1.bytes.length [] [] (qB, qs, qdelta, qtd) hq
            (show B + 1 ≤ LSDJ_BLOCK_COUNT from by show B + 1 ≤ 191; omega)
          obtain ⟨pf, hloop⟩ := ih (selectEvent d r).2 (B + 1)
            (selectEvent d r).1.bytes.length qB qs qdelta qtd hq
            (by omega) (by omega) (by omega)
            ((pre ++ ([0xE0, B + 1] ++ List.replicate (512 - (s + 2)) 0)) ++
              (selectEvent d r).1.bytes) post
            (by
              simp only [List.length_append, List.length_cons, List.length_nil,
                List.length_replicate]
              omega)
            g (by
              have hq1 : B + 1 ≤ qB := hqbnd.1
              omega)
          have hstep2 := event_step d r (Nat.not_le.mp hN) (selectEvent d r).1
            (selectEvent d r).2 rfl
            (pre ++ ([0xE0, B + 1] ++ List.replicate (512 - (s + 2)) 0))
            (qdelta ++ ([0xE0, 0xFF] ++ post)) base
          obtain ⟨pf2, hfin⟩ := loop_prepend_step2 hstep2
            (by simp [List.append_assoc])
            (by simp only [List.length_append]; omega)
            hloop
          refine ⟨pf2, ?_⟩
          rw [decompressLoop_succ, hblk1]
          have hv : ¬ B + 1 = LSDJ_END_OF_FILE_BLOCK_INDEX := by
            show ¬ B + 1 = 255
            omega
          simp only [hv, if_false, if_true, prepend_nil]
          rw [show 0 + (B + 1 + 255) % 256 * LSDJ_BLOCK_SIZE =
            base + (pre ++ ([0xE0, B + 1] ++
              List.replicate (512 - (s + 2)) 0)).length from by
            simp only [List.length_append, List.length_cons, List.length_nil,
              List.length_replicate, show LSDJ_BLOCK_SIZE = 512 from rfl]
            omega]
          rw [show pre ++ ([0xE0, B + 1] ++ (List.replicate (512 - (s + 2)) 0 ++
              ((selectEvent d r).1.bytes ++ (qdelta ++ ([0xE0, 0xFF] ++ post))))) =
            (pre ++ ([0xE0, B + 1] ++ List.replicate (512 - (s + 2)) 0)) ++
              ((selectEvent d r).1.bytes ++ (qdelta ++ ([0xE0, 0xFF] ++ post)))
            from by simp [List.append_assoc]]
          rw [hfin]
          rw [map_range'_concat d r (selectEvent d r).2 LSDJ_SONG_BYTE_COUNT
            (Nat.le_of_lt hbnds.1) hbnds.2]
      · rw [if_neg hcl] at h
        rw [compressGo_shift] at h
        rcases Option.map_eq_some'.mp h with ⟨q, hq, hmap⟩
        obtain ⟨qB, qs, qdelta, qtd⟩ := q
        have hqB : qB = B2 := congrArg (fun x => x.1) hmap
        have hdelta : ([] ++ (selectEvent d r).1.bytes) ++ qdelta = delta :=
          congrArg (fun x => x.2.2.1) hmap
        have hdelta2 : delta = (selectEvent d r).1.bytes ++ qdelta := by
          rw [← hdelta]
          simp
        have hsS : s + (selectEvent d r).1.bytes.length ≤ 509 := by
          have hcl' : ¬ (512 : Nat) ≤ s + (selectEvent d r).1.bytes.length + 2 := hcl
          omega
        rw [hdelta2]
        rw [show ((selectEvent d r).1.bytes ++ qdelta) ++ ([0xE0, 0xFF] ++ post) =
          (selectEvent d r).1.bytes ++ (qdelta ++ ([0xE0, 0xFF] ++ post))
          from by simp [List.append_assoc]]
        obtain ⟨pf, hloop⟩ := ih (selectEvent d r).2 B
          (s + (selectEvent d r).1.bytes.length) qB qs qdelta qtd hq hbB hB191 hsS
          (pre ++ (selectEvent d r).1.bytes) post
          (by simp only [List.length_append]; omega)
          df (by omega)
        have hstep := event_step d r (Nat.not_le.mp hN) (selectEvent d r).1
          (selectEvent d r).2 rfl pre (qdelta ++ ([0xE0, 0xFF] ++ post)) base
        obtain ⟨pf2, hfin⟩ := loop_prepend_step2 hstep
          (by simp [List.append_assoc])
          (by simp only [List.length_append]; omega)
          hloop
        refine ⟨pf2, ?_⟩
        rw [hfin]
        rw [map_range'_concat d r (selectEvent d r).2 LSDJ_SONG_BYTE_COUNT
          (Nat.le_of_lt hbnds.1) hbnds.2]

/-- **C1**: for every 32 KiB input buffer `d`, if `lsdj_compress` succeeds
starting at block `blockOffset` (one-based, within the 191-block budget),
then running `lsdj_decompress` on the bytes it wrote — starting at the same
start block, with block jumps decoded against the same anchor — writes
exactly the 32,768 bytes of `d`. -/
theorem c1_compress_decompress_roundtrip (d : Nat → Nat) (blockOffset : Nat)
    (out : List Nat) (tr : List (Nat × CEvent))
    (hb1 : 1 ≤ blockOffset) (hb2 : blockOffset ≤ LSDJ_BLOCK_COUNT)
    (h : lsdj_compress d blockOffset = some (out, tr)) :
    lsdj_decompress out ((blockOffset - 1) * LSDJ_BLOCK_SIZE)
      ((blockOffset - 1) * LSDJ_BLOCK_SIZE) 0 true (LSDJ_BLOCK_COUNT + 1)
      = .ok ((List.range LSDJ_SONG_BYTE_COUNT).map d) := by
  have hb2' : blockOffset ≤ 191 := hb2
  unfold lsdj_compress at h
  rw [if_neg (show ¬ blockOffset = LSDJ_BLOCK_COUNT + 1 from by
    show ¬ blockOffset = 192
    omega)] at h
  rcases Option.map_eq_some'.mp h with ⟨res, hres, hmap⟩
  obtain ⟨B2, s2, delta, td⟩ := res
  have hout : (if 0 < s2 then
      (delta ++ [SPECIAL_ACTION_BYTE, LSDJ_END_OF_FILE_BLOCK_INDEX]) ++
        List.replicate (LSDJ_BLOCK_SIZE - (s2 + 2)) 0
    else delta ++ [SPECIAL_ACTION_BYTE, LSDJ_END_OF_FILE_BLOCK_INDEX]) = out :=
    congrArg Prod.fst hmap
  obtain ⟨pf, hloop⟩ := compress_decompress_go d blockOffset
    ((blockOffset - 1) * 512) hb1 rfl
    LSDJ_SONG_BYTE_COUNT 0 blockOffset 0 B2 s2 delta td hres (Nat.le_refl _)
    hb2' (by norm_num)
    [] (if 0 < s2 then List.replicate (LSDJ_BLOCK_SIZE - (s2 + 2)) 0 else [])
    (by simp)
    (LSDJ_BLOCK_COUNT + 1) (by
      have hbnd := compressGo_B_bounds d LSDJ_SONG_BYTE_COUNT 0 blockOffset 0 [] []
        (B2, s2, delta, td) hres hb2
      have h1 : B2 ≤ 191 := hbnd.2
      show B2 - blockOffset < 192
      omega)
  have hinp : ([] : List Nat) ++ (delta ++ ([0xE0, 0xFF] ++
      (if 0 < s2 then List.replicate (LSDJ_BLOCK_SIZE - (s2 + 2)) 0 else []))) = out := by
    rw [← hout]
    by_cases hs2 : 0 < s2
    · simp only [if_pos hs2]
      simp [SPECIAL_ACTION_BYTE, LSDJ_END_OF_FILE_BLOCK_INDEX, List.append_assoc]
    · simp only [if_neg hs2]
      simp [SPECIAL_ACTION_BYTE, LSDJ_END_OF_FILE_BLOCK_INDEX]
  rw [show ([] : List Nat).length = 0 from rfl, Nat.sub_zero,
    ← List.range_eq_range'] at hloop
  rw [show (512 : Nat) = LSDJ_BLOCK_SIZE from rfl] at hloop
  rw [show (blockOffset - 1) * LSDJ_BLOCK_SIZE + 0 = (blockOffset - 1) * LSDJ_BLOCK_SIZE
    from Nat.add_zero _] at hloop
  rw [hinp] at hloop
  unfold lsdj_decompress
  rw [hloop]
  show (if ((List.range LSDJ_SONG_BYTE_COUNT).map d).length = LSDJ_SONG_BYTE_COUNT then
      DecompressResult.ok ((List.range LSDJ_SONG_BYTE_COUNT).map d)
    else DecompressResult.sizeMismatch ((List.range LSDJ_SONG_BYTE_COUNT).map d).length) =
    DecompressResult.ok ((List.range LSDJ_SONG_BYTE_COUNT).map d)
  rw [if_pos (by simp)]

set_option maxRecDepth 100000 in
set_option maxHeartbeats 16000000 in
/-- Witness for C1: the all-zero 32 KiB buffer compresses successfully from
block 1, and decompressing the written stream recovers the 32 KiB of
zeros. -/
theorem c1_witness :
    (1 : Nat) ≤ 1 ∧ (1 : Nat) ≤ LSDJ_BLOCK_COUNT ∧
    (lsdj_compress (fun _ => 0) 1).map
        (fun q => lsdj_decompress q.1 ((1 - 1) * LSDJ_BLOCK_SIZE)
          ((1 - 1) * LSDJ_BLOCK_SIZE) 0 true (LSDJ_BLOCK_COUNT + 1)) =
      some (.ok ((List.range LSDJ_SONG_BYTE_COUNT).map (fun _ => 0))) := by
  refine ⟨by norm_num, by decide, ?_⟩
  have hsome : (lsdj_compress (fun _ => 0) 1).isSome = true := by decide
  obtain ⟨q, hq⟩ := Option.isSome_iff_exists.mp hsome
  obtain ⟨o, t⟩ := q
  rw [hq, Option.map_some']
  rw [c1_compress_decompress_roundtrip (fun _ => 0) 1 o t (by norm_num) (by decide) hq]

end LibLsdj
